import Mathlib

/-!
# Section narration (`src/js/reading.js`) and gesture recognition (`src/js/gesture.js`)

A shallow embedding of the `Reading` module (namespace `Reading`): the per-section reading
records kept in `state.readingState`, the global pointer `state.currentReadingSection`, the
utterance objects with their six callback slots, the reader buttons, the pending timers, the
preserver interval and the calls made on `window.speechSynthesis`; and of
`GestureControl.analyzeGesture` (namespace `GestureControl`).

Conventions of the embedding.

* A section is named by its section id (`section.id || 'section-' + index`); ids are numbers
  and every section element carries at most one `.section-reader` button.
* JavaScript objects that are shared by reference (the reading records, which are captured by
  the utterance callbacks and by the resume menu) live in a heap and are named by references.
* `Date.now()` and the two engine flags `speechSynthesis.speaking` / `.paused` are inputs of
  each handler (`Env`).
* Strings are lists of UTF-16 code units; `substring(k)` is `List.drop k`.
* Numbers are IEEE doubles in the source.  Offsets, times and coordinates are integers there;
  the two non-integer computations, `Math.floor(timeElapsed / 1000 * 150)` and
  `Math.sqrt(dx * dx + dy * dy)`, are evaluated with round-to-nearest-even at 53 bits
  (`estimatedChars`, `sqrtDouble`).
-/

namespace Reading

/-! ## Double-precision arithmetic of the checkpoint formula -/

/-- Nearest integer to `n / d`, ties to even. -/
def roundNearestEven (n d : Nat) : Nat :=
  let q := n / d
  let r := n % d
  if 2 * r < d then q
  else if d < 2 * r then q + 1
  else if q % 2 = 0 then q else q + 1

/-- Doubles `n` until `2^52 * d ≤ n`; returns the scaled numerator and the number of
doublings. -/
def scaleUp : Nat → Nat → Nat → Nat → Nat × Nat
  | 0, n, _, a => (n, a)
  | fuel + 1, n, d, a => if n < 2 ^ 52 * d then scaleUp fuel (2 * n) d (a + 1) else (n, a)

/-- Doubles `d` until `n < 2^53 * d`; returns the scaled denominator and the number of
doublings. -/
def scaleDown : Nat → Nat → Nat → Nat → Nat × Nat
  | 0, _, d, b => (d, b)
  | fuel + 1, n, d, b => if 2 ^ 53 * d ≤ n then scaleDown fuel n (2 * d) (b + 1) else (d, b)

/-- The double nearest to the positive rational `n / d` (normal range), as a fraction
`(numerator, denominator)` whose denominator is a power of two. -/
def toDouble (n d : Nat) : Nat × Nat :=
  if n = 0 then (0, 1)
  else
    let up := scaleUp 1100 n d 0
    let dn := scaleDown 1100 up.1 d 0
    (roundNearestEven up.1 dn.1 * 2 ^ dn.2, 2 ^ up.2)

/-- The value of `Math.floor(timeElapsed / 1000 * estimatedCharsPerSecond)` with
`estimatedCharsPerSecond = 150`: the quotient is rounded to a double, the product is rounded
to a double, then the floor is taken. -/
def estimatedChars (timeElapsed : Int) : Int :=
  let x := toDouble timeElapsed.natAbs 1000
  let y := toDouble (x.1 * 150) x.2
  if 0 ≤ timeElapsed then ((y.1 / y.2 : Nat) : Int)
  else -(((y.1 + y.2 - 1) / y.2 : Nat) : Int)

/-! ## Data model -/

/-- Section identifier (`section.id || 'section-' + index`). -/
abbrev SectionId := Nat

/-- A JavaScript string, as its list of code units. -/
abbrev Text := List Char

/-- The trimmed text of the button's `span[aria-hidden="true"]`. -/
inductive Icon
  | pauseGlyph
  | playGlyph
  | other
  deriving DecidableEq, Repr

/-- The three states `updateReadingButton` can be asked to show. -/
inductive Affordance
  | playing
  | paused
  | stopped
  deriving DecidableEq, Repr

/-- A `.section-reader` button: whether it has the icon span, the icon text, and its three
`reading-*` classes. -/
structure Button where
  hasIcon : Bool
  iconText : Icon
  readingPlaying : Bool
  readingPaused : Bool
  readingStopped : Bool
  deriving DecidableEq, Repr

/-- A `.content-section` element: its reader button (if any), its three classes, the text of
its `.section-content` child (`innerText || textContent`, `none` when the child is missing)
and the reading record captured by its open `.reading-resume-menu` (if one is open). -/
structure SectionEl where
  button : Option Button
  clsReading : Bool
  clsPlaying : Bool
  clsPaused : Bool
  content : Option Text
  menu : Option Nat
  deriving DecidableEq, Repr

/-- A per-section reading record, as created at lines 67, 334 and 577.  `startTime` is `none`
while the property is `undefined` or `null`. -/
structure ReadingRecord where
  playing : Bool
  paused : Bool
  utterance : Option Nat
  charIndex : Int
  fullText : Text
  startTime : Option Int
  deriving DecidableEq, Repr

/-- A `SpeechSynthesisUtterance` built by `startReadingSection`: its text, the variables its
callbacks close over (`sectionId`, the `readingState` object, `startFromIndex`) and, for each
of the six callback slots, whether it still holds its handler (`false` once set to `null`). -/
structure Utterance where
  text : Text
  sectionId : SectionId
  readingState : Nat
  startFromIndex : Int
  onstart : Bool
  onend : Bool
  onerror : Bool
  onboundary : Bool
  onpause : Bool
  onresume : Bool
  deriving DecidableEq, Repr

/-- A call on `window.speechSynthesis`. -/
inductive EngineOp
  | speak (utterance : Nat)
  | pause
  | cancel
  deriving DecidableEq, Repr

/-- A message passed to `Utils.announceToScreenReader`. -/
inductive Announcement
  | notSupported
  | readingPaused
  | readingAloud
  | finished
  | error
  deriving DecidableEq, Repr

/-- A pending `setTimeout` continuation of the module. -/
inductive Timer
  /-- Outer continuation of the hand-off path (lines 146-165), with the captured
  `sectionId` and `buttonIsPaused`. -/
  | handoffCancel (sectionId : SectionId) (buttonIsPaused : Bool)
  /-- Inner continuation of the hand-off path (lines 153-164). -/
  | handoffStart (sectionId : SectionId) (buttonIsPaused : Bool)
  /-- Outer continuation of the stopped-button fallback (lines 255-261). -/
  | fallbackCancel (sectionId : SectionId)
  /-- Inner continuation of the stopped-button fallback (lines 258-260). -/
  | fallbackStart (sectionId : SectionId)
  /-- The zero-delay continuation scheduled by `onstart` (lines 363-366). -/
  | preserveKick
  deriving DecidableEq, Repr

/-- What a handler reads from its environment: `Date.now()` and the engine flags. -/
structure Env where
  now : Int
  speaking : Bool
  paused : Bool
  deriving DecidableEq, Repr

/-- The state the module works on. -/
structure State where
  /-- Whether `'speechSynthesis' in window`. -/
  supported : Bool
  /-- The store `state.readingState`: section id to record reference. -/
  readingState : SectionId → Option Nat
  /-- The global pointer `state.currentReadingSection`. -/
  currentReadingSection : Option SectionId
  /-- The record objects. -/
  heap : Nat → ReadingRecord
  nextRef : Nat
  /-- The utterance objects. -/
  utterances : Nat → Utterance
  nextUtterance : Nat
  /-- The sections in document order (`document.querySelectorAll('.content-section')`). -/
  sections : List SectionId
  el : SectionId → SectionEl
  timers : List Timer
  /-- The outstanding interval of `startPausedStatePreserver` with its `checks` counter. -/
  pausedStatePreserverInterval : Option Nat
  /-- Calls made on the engine, oldest first. -/
  engineLog : List EngineOp
  announcements : List Announcement

/-! ## Primitive updates -/

/-- The record literal of lines 67, 334 and 577. -/
def freshRecord : ReadingRecord :=
  { playing := false, paused := false, utterance := none, charIndex := 0, fullText := [],
    startTime := none }

/-- All six callback slots set to `null` (lines 117-122). -/
def detach (u : Utterance) : Utterance :=
  { u with onboundary := false, onstart := false, onend := false, onpause := false,
           onresume := false, onerror := false }

namespace State

/-- Mutates the record object `r`. -/
def modRec (s : State) (r : Nat) (f : ReadingRecord → ReadingRecord) : State :=
  { s with heap := fun i => if i = r then f (s.heap i) else s.heap i }

/-- The assignment `state.readingState[sid] = r`. -/
def setStore (s : State) (sid : SectionId) (r : Nat) : State :=
  { s with readingState := fun i => if i = sid then some r else s.readingState i }

/-- Mutates the section element `sid` (with its button). -/
def modEl (s : State) (sid : SectionId) (f : SectionEl → SectionEl) : State :=
  { s with el := fun i => if i = sid then f (s.el i) else s.el i }

/-- Records a call on the engine. -/
def engine (s : State) (op : EngineOp) : State :=
  { s with engineLog := s.engineLog ++ [op] }

/-- The call `Utils.announceToScreenReader(msg)`. -/
def announce (s : State) (msg : Announcement) : State :=
  { s with announcements := s.announcements ++ [msg] }

/-- The call `setTimeout(t, _)`. -/
def setTimeout (s : State) (t : Timer) : State :=
  { s with timers := s.timers ++ [t] }

/-- Records the call `op` on the engine when the guard `c` holds
(`if (c) window.speechSynthesis.op()`). -/
def engineWhen (s : State) (c : Bool) (op : EngineOp) : State :=
  { s with engineLog := if c then s.engineLog ++ [op] else s.engineLog }

/-- Sets the six callback slots of the utterance `u` to `null` when there is one
(lines 116-123). -/
def detachHandlers (s : State) (u : Option Nat) : State :=
  { s with utterances := fun i => if some i = u then detach (s.utterances i) else s.utterances i }

/-- The assignment `state.currentReadingSection = p`. -/
def setPointer (s : State) (p : Option SectionId) : State :=
  { s with currentReadingSection := p }

/-- Stores a new record object for `sid`. -/
def allocRecord (s : State) (sid : SectionId) : State :=
  { s with
    heap := fun i => if i = s.nextRef then freshRecord else s.heap i
    nextRef := s.nextRef + 1
    readingState := fun i => if i = sid then some s.nextRef else s.readingState i }

end State

/-- The lookup `state.readingState[sid] || { ...fresh }`: the state with a record for `sid`
and the reference of that record. -/
def ensureRecord (s : State) (sid : SectionId) : State × Nat :=
  match s.readingState sid with
  | some r => (s, r)
  | none => (s.allocRecord sid, s.nextRef)

/-- The offset extrapolation guarded by `if (rec.startTime)` (lines 125-132, 176-183,
240-247, 300-307, 407-414): a `startTime` of `0` is falsy. -/
def checkpoint (now : Int) (rec : ReadingRecord) : ReadingRecord :=
  match rec.startTime with
  | none => rec
  | some st =>
    if st = 0 then rec
    else { rec with
      charIndex := min (rec.fullText.length : Int) (rec.charIndex + estimatedChars (now - st)) }

/-- The function `updateReadingButton(button, state, section)` on a section element and its
button (lines 491-527); the `aria-label` and `title` attributes are not modelled. -/
def updateReadingButton (e : SectionEl) (a : Affordance) : SectionEl :=
  match e.button with
  | none => e
  | some b =>
    if !b.hasIcon then e
    else
      match a with
      | .playing =>
        { e with
          button := some { b with iconText := .pauseGlyph, readingPlaying := true,
                                  readingPaused := false, readingStopped := false }
          clsPlaying := true, clsPaused := false }
      | .paused =>
        { e with
          button := some { b with iconText := .playGlyph, readingPlaying := false,
                                  readingPaused := true, readingStopped := false }
          clsPlaying := false, clsPaused := true }
      | .stopped =>
        { e with
          button := some { b with iconText := .playGlyph, readingPlaying := false,
                                  readingPaused := false, readingStopped := true }
          clsPlaying := false, clsPaused := false }

/-- Whether the section's button carries the class `reading-playing`
(`sButton && sButton.classList.contains('reading-playing')`). -/
def hasPlayingButton (e : SectionEl) : Bool :=
  match e.button with
  | some b => b.readingPlaying
  | none => false

/-- The lookup `document.getElementById(id) || sections.find(...)`. -/
def findSection (s : State) (sid : SectionId) : Option SectionId :=
  if sid ∈ s.sections then some sid else none

/-- The section left in `previousSection` by the `forEach` scans (the last one whose button
has the class `reading-playing`). -/
def lastPlayingButton (s : State) : Option SectionId :=
  (s.sections.filter fun i => hasPlayingButton (s.el i)).getLast?

/-- The section id the `forEach` scans write to a null pointer (the first match). -/
def firstPlayingButton (s : State) : Option SectionId :=
  (s.sections.filter fun i => hasPlayingButton (s.el i)).head?

/-- The test `charIndex > 0 && fullText && charIndex < fullText.length` (lines 156-158,
194-196). -/
def resumable (rec : ReadingRecord) : Bool :=
  decide (0 < rec.charIndex) && !rec.fullText.isEmpty &&
    decide (rec.charIndex < (rec.fullText.length : Int))

/-! ## `preserveOtherSectionsPausedState` and the preserver interval -/

/-- One iteration of the `forEach` of `preserveOtherSectionsPausedState` (lines 458-473). -/
def preserveSection (s : State) (sid : SectionId) : State :=
  match s.readingState sid, (s.el sid).button with
  | some r, some b =>
    if (s.heap r).paused && decide (0 < (s.heap r).charIndex) then
      if !b.readingPaused then
        ((s.modEl sid fun e => updateReadingButton e .paused).modRec r fun rec =>
          { rec with paused := true, playing := false }).setStore sid r
      else s
    else s
  | _, _ => s

/-- The function `preserveOtherSectionsPausedState` (lines 457-474). -/
def preserveOtherSectionsPausedState (s : State) : State :=
  s.sections.foldl preserveSection s

/-- The function `startPausedStatePreserver` (lines 476-489): any outstanding interval is
cleared and a new one starts with `checks = 0`. -/
def startPausedStatePreserver (s : State) : State :=
  { s with pausedStatePreserverInterval := some 0 }

/-- One firing of the interval callback (lines 481-488). -/
def intervalTick (s : State) : State :=
  match s.pausedStatePreserverInterval with
  | none => s
  | some checks =>
    let s := preserveOtherSectionsPausedState s
    { s with
      pausedStatePreserverInterval := if 20 ≤ checks + 1 then none else some (checks + 1) }

/-! ## `startReadingSection` -/

/-- The inline checkpoint-and-pause of the previous section (lines 296-311). -/
def inlineCheckpoint (env : Env) (ps : SectionId) (r : Nat) (s : State) : State :=
  let s := s.engineWhen (env.speaking && !env.paused) .pause
  let s := s.modRec r fun rec => if env.speaking then checkpoint env.now rec else rec
  let s := s.modRec r fun rec => { rec with playing := false, paused := true }
  let s := s.modEl ps fun e => updateReadingButton e .paused
  s.setStore ps r

/-- Lines 270-295 of `startReadingSection`: when the engine is speaking and not paused and
the pointer names another section, the previous section (found by id, else the last one whose
button shows `reading-playing`) and its record, provided it has a record and a button. -/
def previousToPause (env : Env) (sid : SectionId) (s : State) : Option (SectionId × Nat) :=
  match s.currentReadingSection with
  | none => none
  | some p =>
    if env.speaking && !env.paused && p != sid then
      let previousSection :=
        match findSection s p with
        | some x => some x
        | none => lastPlayingButton s
      match previousSection with
      | none => none
      | some ps =>
        match s.readingState ps, (s.el ps).button with
        | some r, some _ => some (ps, r)
        | _, _ => none
    else none

/-- Lines 273-314 of `startReadingSection`: the previous section, if one is found, is
checkpointed and paused. -/
def pausePrevious (env : Env) (sid : SectionId) (s : State) : State :=
  match previousToPause env sid s with
  | some (ps, r) => inlineCheckpoint env ps r s
  | none => s

/-- The utterance object built at lines 326-332 with the six handlers of lines 357-425
installed. -/
def newUtterance (text : Text) (sid : SectionId) (r : Nat) (startFromIndex : Int) :
    Utterance :=
  { text := text, sectionId := sid, readingState := r, startFromIndex := startFromIndex,
    onstart := true, onend := true, onerror := true, onboundary := true, onpause := true,
    onresume := true }

/-- Lines 326-429 of `startReadingSection`, for a section whose text `fullText` is not empty:
the utterance is built, the record (the stored one, or a new one) is filled in, the handlers
are installed, the record is stored, the pointer is set and `speak` is called. -/
def beginUtterance (env : Env) (sid : SectionId) (startFromIndex : Int) (fullText : Text)
    (s : State) : State :=
  let textToRead := if 0 < startFromIndex then fullText.drop startFromIndex.toNat else fullText
  let u := s.nextUtterance
  let r := (ensureRecord s sid).2
  let s := (ensureRecord s sid).1
  let s := s.modRec r fun rec =>
    { playing := true
      paused := false
      utterance := some u
      charIndex := if 0 < startFromIndex then startFromIndex else 0
      fullText := if rec.fullText.isEmpty || startFromIndex == 0 then fullText else rec.fullText
      startTime := some env.now }
  let s := { s with
    utterances := fun i =>
      if i = u then newUtterance textToRead sid r startFromIndex else s.utterances i
    nextUtterance := u + 1 }
  let s := s.setStore sid r
  let s := s.setPointer (some sid)
  s.engine (.speak u)

/-- The function `startReadingSection(section, button, sectionId, startFromIndex)`
(lines 269-430). -/
def startReadingSection (env : Env) (sid : SectionId) (startFromIndex : Int) (s : State) :
    State :=
  let s := pausePrevious env sid s
  let s := s.engineWhen env.speaking .cancel
  match (s.el sid).content with
  | none => s
  | some fullText =>
    if fullText.isEmpty then s
    else beginUtterance env sid startFromIndex fullText s

/-! ## The utterance callbacks (lines 357-425) -/

/-- The handler `utterance.onstart`. -/
def onstart (env : Env) (u : Nat) (s : State) : State :=
  let ut := s.utterances u
  let s := s.modRec ut.readingState fun rec =>
    { rec with playing := true, paused := false, startTime := some env.now }
  let s := s.modEl ut.sectionId fun e => updateReadingButton { e with clsReading := true } .playing
  let s := s.setTimeout .preserveKick
  s.announce .readingAloud

/-- The handler `utterance.onend`. -/
def onend (u : Nat) (s : State) : State :=
  let ut := s.utterances u
  let s := s.modRec ut.readingState fun rec => { rec with playing := false, paused := false }
  let s := s.modEl ut.sectionId fun e =>
    updateReadingButton { e with clsReading := false, clsPlaying := false, clsPaused := false }
      .stopped
  let s := s.setStore ut.sectionId ut.readingState
  let s := s.setPointer
    (if s.currentReadingSection == some ut.sectionId then none else s.currentReadingSection)
  s.announce .finished

/-- The handler `utterance.onerror`. -/
def onerror (u : Nat) (s : State) : State :=
  let ut := s.utterances u
  let s := s.modRec ut.readingState fun rec => { rec with playing := false, paused := false }
  let s := s.modEl ut.sectionId fun e => updateReadingButton { e with clsReading := false } .stopped
  s.announce .error

/-- The handler `utterance.onboundary`, for an event whose `name` is `'word'` or not and whose
`charIndex` is a number or `undefined`. -/
def onboundary (u : Nat) (isWord : Bool) (charIndex : Option Nat) (s : State) : State :=
  let ut := s.utterances u
  match s.readingState ut.sectionId with
  | none => s
  | some cur =>
    if (s.heap cur).utterance == some u then
      match isWord, charIndex with
      | true, some c =>
        let s := s.modRec cur fun rec =>
          { rec with
            charIndex := min (rec.fullText.length : Int) (ut.startFromIndex + (c : Int)) }
        let s := s.modRec ut.readingState fun rec =>
          { rec with charIndex := (s.heap cur).charIndex }
        s.setStore ut.sectionId cur
      | _, _ => s
    else s

/-- The handler `utterance.onpause`. -/
def onpause (env : Env) (u : Nat) (s : State) : State :=
  let ut := s.utterances u
  let s := s.modRec ut.readingState fun rec =>
    checkpoint env.now { rec with paused := true, playing := false }
  let s := s.modEl ut.sectionId fun e => updateReadingButton e .paused
  s.setStore ut.sectionId ut.readingState

/-- The handler `utterance.onresume`. -/
def onresume (env : Env) (u : Nat) (s : State) : State :=
  let ut := s.utterances u
  let s := s.modRec ut.readingState fun rec =>
    { rec with paused := false, playing := true, startTime := some env.now }
  let s := s.modEl ut.sectionId fun e => updateReadingButton e .playing
  s.setStore ut.sectionId ut.readingState

/-! ## `stopAllReading` -/

/-- One iteration of the `forEach` of `stopAllReading` (lines 435-454). -/
def stopSection (s : State) (sid : SectionId) : State :=
  let s := s.modEl sid fun e =>
    { e with clsReading := false, clsPlaying := false, clsPaused := false }
  match (s.el sid).button, s.readingState sid with
  | none, _ => s
  | some _, some r =>
    if (s.heap r).charIndex = 0 then
      (s.modRec r fun rec => { rec with playing := false, paused := false }).modEl sid
        fun e => updateReadingButton e .stopped
    else
      (s.modRec r fun rec => { rec with playing := false, paused := true }).modEl sid
        fun e => updateReadingButton e .paused
  | some _, none => s.modEl sid fun e => updateReadingButton e .stopped

/-- The function `stopAllReading` (lines 432-455).  Without an engine the first statement,
`window.speechSynthesis.cancel()`, throws and nothing else runs. -/
def stopAllReading (s : State) : State :=
  if !s.supported then s
  else s.sections.foldl stopSection ((s.engine .cancel).setPointer none)

/-! ## The resume menu (lines 529-604) -/

/-- The function `showReadingResumeOptions(section, button, readingState)`: an open menu is
closed; otherwise, unless the record has no offset or no text, a menu is opened that captures
the record. -/
def showReadingResumeOptions (env : Env) (sid : SectionId) (r : Nat) (s : State) : State :=
  match (s.el sid).menu with
  | some _ => s.modEl sid fun e => { e with menu := none }
  | none =>
    if (s.heap r).charIndex == 0 || (s.heap r).fullText.isEmpty then
      startReadingSection env sid 0 s
    else s.modEl sid fun e => { e with menu := some r }

/-- The click handler of the menu's "Restart from Beginning" button (lines 573-579). -/
def chooseRestart (env : Env) (sid : SectionId) (s : State) : State :=
  match (s.el sid).menu with
  | none => s
  | some _ =>
    let s := s.modEl sid fun e => { e with menu := none }
    let s := s.allocRecord sid
    startReadingSection env sid 0 s

/-- The click handler of the menu's "Continue from Here" button (lines 581-586). -/
def chooseContinue (env : Env) (sid : SectionId) (s : State) : State :=
  match (s.el sid).menu with
  | none => s
  | some r =>
    let s := s.modEl sid fun e => { e with menu := none }
    startReadingSection env sid (s.heap r).charIndex s

/-- The menu removed by a click outside it or by the Escape key (lines 588-603). -/
def dismissMenu (sid : SectionId) (s : State) : State :=
  s.modEl sid fun e => { e with menu := none }

/-! ## `toggleSectionReading` (lines 57-267) -/

/-- The checkpoint of the previous section on the hand-off path (lines 116-142). -/
def handoffCheckpoint (env : Env) (ps : SectionId) (r : Nat) (s : State) : State :=
  let s := s.detachHandlers (s.heap r).utterance
  let s := s.modRec r (checkpoint env.now)
  let s := s.engineWhen (env.speaking && !env.paused) .pause
  let s := s.modRec r fun rec => { rec with playing := false, paused := true, utterance := none }
  let s := s.modEl ps fun e => updateReadingButton e .paused
  s.setStore ps r

/-- The pointer after lines 88-108: unchanged when set, else the first section whose button
shows `reading-playing` (if any). -/
def handoffPointer (s : State) : Option SectionId :=
  match s.currentReadingSection with
  | some p => some p
  | none => firstPlayingButton s

/-- Lines 88-115: the previous section (found through the pointer or, with a null pointer, the
last section whose button shows `reading-playing`) and its record
(`readingState[prevSectionId] || readingState[currentReadingSection]`), provided it has a
record and a button. -/
def handoffTarget (s : State) : Option (SectionId × Nat) :=
  let previousSection :=
    match s.currentReadingSection with
    | some p => findSection s p
    | none => lastPlayingButton s
  match previousSection with
  | none => none
  | some ps =>
    let previousReadingState :=
      match s.readingState ps with
      | some r => some r
      | none => (handoffPointer s).bind s.readingState
    match previousReadingState, (s.el ps).button with
    | some r, some _ => some (ps, r)
    | _, _ => none

/-- The hand-off path (lines 88-166): the pointer is repaired, the previous section is
checkpointed, the first settle continuation is scheduled. -/
def handoff (env : Env) (sid : SectionId) (buttonIsPaused : Bool) (s : State) : State :=
  let target := handoffTarget s
  let s := s.setPointer (handoffPointer s)
  let s :=
    match target with
    | some (ps, r) => handoffCheckpoint env ps r s
    | none => s
  s.setTimeout (.handoffCancel sid buttonIsPaused)

/-- The outer settle continuation (lines 146-165). -/
def handoffCancel (sid : SectionId) (buttonIsPaused : Bool) (s : State) : State :=
  let s := s.engine .cancel
  let s := s.setPointer none
  let s := preserveOtherSectionsPausedState s
  let s := startPausedStatePreserver s
  s.setTimeout (.handoffStart sid buttonIsPaused)

/-- The inner settle continuation (lines 153-164). -/
def handoffStart (env : Env) (sid : SectionId) (buttonIsPaused : Bool) (s : State) : State :=
  match s.readingState sid with
  | some r =>
    if buttonIsPaused && resumable (s.heap r) then showReadingResumeOptions env sid r s
    else startReadingSection env sid 0 (preserveOtherSectionsPausedState s)
  | none => startReadingSection env sid 0 (preserveOtherSectionsPausedState s)

/-- The pause of the clicked section (lines 170-188). -/
def clickPause (env : Env) (sid : SectionId) (r : Nat) (s : State) : State :=
  let s := s.engineWhen (env.speaking && !env.paused) .pause
  let s := s.modRec r fun rec => checkpoint env.now { rec with paused := true, playing := false }
  let s := s.modEl sid fun e => updateReadingButton e .paused
  let s := s.setStore sid r
  s.announce .readingPaused

/-- The checkpoint of the previous section in the stopped-button fallback (lines 236-251). -/
def fallbackCheckpoint (env : Env) (ps : SectionId) (r : Nat) (s : State) : State :=
  let s := s.engineWhen (env.speaking && !env.paused) .pause
  let s := s.modRec r (checkpoint env.now)
  let s := s.modRec r fun rec => { rec with playing := false, paused := true }
  let s := s.modEl ps fun e => updateReadingButton e .paused
  s.setStore ps r

/-- Lines 206-229: the previous section of the stopped-button fallback, found by id, else
the last section whose button shows `reading-playing`. -/
def fallbackSection (s : State) : Option SectionId :=
  match s.currentReadingSection.bind (findSection s) with
  | some x => some x
  | none => lastPlayingButton s

/-- Lines 230-235: the previous section and its record, provided it has a record and a
button. -/
def fallbackTarget (s : State) : Option (SectionId × Nat) :=
  match fallbackSection s with
  | none => none
  | some ps =>
    match s.readingState ps, (s.el ps).button with
    | some r, some _ => some (ps, r)
    | _, _ => none

/-- The stopped-button fallback (lines 205-261): a null pointer is repaired by the scan, the
previous section is checkpointed and the first fallback continuation is scheduled. -/
def fallback (env : Env) (sid : SectionId) (s : State) : State :=
  let target := fallbackTarget s
  let s := s.setPointer (handoffPointer s)
  let s :=
    match target with
    | some (ps, r) => fallbackCheckpoint env ps r s
    | none => s
  s.setTimeout (.fallbackCancel sid)

/-- The outer fallback continuation (lines 255-261). -/
def fallbackCancel (sid : SectionId) (s : State) : State :=
  ((s.engine .cancel).setPointer none).setTimeout (.fallbackStart sid)

/-- The button's icon text (`icon ? icon.textContent.trim() : ''`, lines 72-73). -/
def iconTextOf (b : Button) : Icon :=
  if b.hasIcon then b.iconText else Icon.other

/-- The constant `buttonIsPlaying` (line 74). -/
def buttonIsPlaying (b : Button) : Bool :=
  b.readingPlaying || iconTextOf b == Icon.pauseGlyph

/-- The constant `buttonIsPaused` (line 75). -/
def buttonIsPaused (b : Button) : Bool :=
  b.readingPaused || iconTextOf b == Icon.playGlyph

/-- The constant `isCurrentlySpeaking` (line 79). -/
def isCurrentlySpeaking (env : Env) : Bool :=
  env.speaking && !env.paused

/-- The constant `isThisSectionPlaying` (line 83). -/
def isThisSectionPlaying (env : Env) (s : State) (sid : SectionId) : Bool :=
  s.currentReadingSection == some sid && isCurrentlySpeaking env

/-- The constant `hasAnotherSectionPlaying` (lines 84-85). -/
def hasAnotherSectionPlaying (env : Env) (s : State) (sid : SectionId) : Bool :=
  (s.currentReadingSection.isSome && s.currentReadingSection != some sid) ||
    (isCurrentlySpeaking env &&
      (s.currentReadingSection.isNone || s.currentReadingSection != some sid))

/-- The function `toggleSectionReading(section, button)` for the section `sid` and its
button. -/
def toggleSectionReading (env : Env) (sid : SectionId) (s : State) : State :=
  if !s.supported then s.announce .notSupported
  else
    match (s.el sid).button with
    | none => s
    | some button =>
      let r := (ensureRecord s sid).2
      let s := (ensureRecord s sid).1
      if hasAnotherSectionPlaying env s sid && !isThisSectionPlaying env s sid then
        handoff env sid (buttonIsPaused button) s
      else if buttonIsPlaying button &&
          (isCurrentlySpeaking env || s.currentReadingSection == some sid) then
        clickPause env sid r s
      else if buttonIsPaused button then
        if resumable (s.heap r) then showReadingResumeOptions env sid r s
        else startReadingSection env sid 0 s
      else
        let s :=
          if isCurrentlySpeaking env && s.currentReadingSection != some sid then
            fallback env sid s
          else startReadingSection env sid 0 s
        s.setStore sid r

/-! ## Events -/

/-- What can happen to the module: a click on a reader button, a timer firing (by position
in the pending list), a choice in or a dismissal of a resume menu, the delivery of one of the
six utterance events, the page becoming hidden, a firing of the preserver interval, and a
change of a section's rendered text (through the expand/collapse buttons of `init`). -/
inductive Event
  | click (sid : SectionId)
  | timer (i : Nat)
  | chooseRestart (sid : SectionId)
  | chooseContinue (sid : SectionId)
  | dismissMenu (sid : SectionId)
  | onstart (u : Nat)
  | onend (u : Nat)
  | onerror (u : Nat)
  | onboundary (u : Nat) (isWord : Bool) (charIndex : Option Nat)
  | onpause (u : Nat)
  | onresume (u : Nat)
  | hidden
  | tick
  | contentChanged (sid : SectionId) (content : Option Text)

/-- Runs the continuation `t`. -/
def runTimer (env : Env) (t : Timer) (s : State) : State :=
  match t with
  | .handoffCancel sid p => handoffCancel sid p s
  | .handoffStart sid p => handoffStart env sid p s
  | .fallbackCancel sid => fallbackCancel sid s
  | .fallbackStart sid => startReadingSection env sid 0 s
  | .preserveKick => startPausedStatePreserver (preserveOtherSectionsPausedState s)

/-- One step of the module: the handler of the event runs to completion.  A click reaches
`toggleSectionReading` only for a section of the page that has a reader button; an utterance
event reaches its handler only while the slot holds it. -/
def step (env : Env) (ev : Event) (s : State) : State :=
  match ev with
  | .click sid =>
    if sid ∈ s.sections ∧ (s.el sid).button.isSome then toggleSectionReading env sid s else s
  | .timer i =>
    match s.timers.get? i with
    | none => s
    | some t => runTimer env t { s with timers := s.timers.eraseIdx i }
  | .chooseRestart sid => chooseRestart env sid s
  | .chooseContinue sid => chooseContinue env sid s
  | .dismissMenu sid => dismissMenu sid s
  | .onstart u =>
    if u < s.nextUtterance ∧ (s.utterances u).onstart then onstart env u s else s
  | .onend u =>
    if u < s.nextUtterance ∧ (s.utterances u).onend then onend u s else s
  | .onerror u =>
    if u < s.nextUtterance ∧ (s.utterances u).onerror then onerror u s else s
  | .onboundary u isWord charIndex =>
    if u < s.nextUtterance ∧ (s.utterances u).onboundary then onboundary u isWord charIndex s
    else s
  | .onpause u =>
    if u < s.nextUtterance ∧ (s.utterances u).onpause then onpause env u s else s
  | .onresume u =>
    if u < s.nextUtterance ∧ (s.utterances u).onresume then onresume env u s else s
  | .hidden => stopAllReading s
  | .tick => intervalTick s
  | .contentChanged sid content => s.modEl sid fun e => { e with content := content }

/-- Runs a list of events, each with its environment, oldest first. -/
def run (s : State) : List (Env × Event) → State
  | [] => s
  | (env, ev) :: rest => run (step env ev s) rest

/-- The page after load: an empty store, a null pointer, no utterance, no timer, no interval,
no open menu and no button showing `reading-playing`. -/
def Initial (s : State) : Prop :=
  s.supported = true ∧ (∀ sid, s.readingState sid = none) ∧ s.currentReadingSection = none ∧
    s.nextRef = 0 ∧ s.nextUtterance = 0 ∧ s.timers = [] ∧
    s.pausedStatePreserverInterval = none ∧ s.engineLog = [] ∧ s.announcements = [] ∧
    (∀ sid, (s.el sid).menu = none) ∧ (∀ sid, hasPlayingButton (s.el sid) = false)

/-! ## Reading the page -/

/-- Whether the section's button shows exactly the affordance `a`, as `updateReadingButton`
writes it: the matching `reading-*` class alone and the matching icon. -/
def showsAffordance (e : SectionEl) (a : Affordance) : Bool :=
  match e.button with
  | none => false
  | some b =>
    match a with
    | .playing =>
      b.readingPlaying && !b.readingPaused && !b.readingStopped && b.iconText == Icon.pauseGlyph
    | .paused =>
      !b.readingPlaying && b.readingPaused && !b.readingStopped && b.iconText == Icon.playGlyph
    | .stopped =>
      !b.readingPlaying && !b.readingPaused && b.readingStopped && b.iconText == Icon.playGlyph

/-- The record the store holds for a section, if any. -/
def recordOf (s : State) (sid : SectionId) : Option ReadingRecord :=
  (s.readingState sid).map s.heap

/-! ## Example pages -/

/-- A reader button as it stands before any click: an icon that is neither glyph and no
`reading-*` class. -/
def demoButton : Button :=
  { hasIcon := true, iconText := .other, readingPlaying := false, readingPaused := false,
    readingStopped := false }

/-- A section with a reader button and `n` characters of text. -/
def demoSection (n : Nat) : SectionEl :=
  { button := some demoButton, clsReading := false, clsPlaying := false, clsPaused := false,
    content := some (List.replicate n 'a'), menu := none }

/-- A freshly loaded page with three sections (ids 0, 1, 2) of `n` characters each. -/
def demoPage (n : Nat) : State :=
  { supported := true, readingState := fun _ => none, currentReadingSection := none,
    heap := fun _ => freshRecord, nextRef := 0,
    utterances := fun _ => detach (newUtterance [] 0 0 0), nextUtterance := 0,
    sections := [0, 1, 2], el := fun _ => demoSection n, timers := [],
    pausedStatePreserverInterval := none, engineLog := [], announcements := [] }

/-- The environment at time `t` with a silent engine. -/
def idleAt (t : Int) : Env := { now := t, speaking := false, paused := false }

/-- The environment at time `t` with the engine speaking and not paused. -/
def speakingAt (t : Int) : Env := { now := t, speaking := true, paused := false }

/-- The environment at time `t` with the engine speaking and paused. -/
def pausedAt (t : Int) : Env := { now := t, speaking := true, paused := true }

/-- Whether the section has a reader button with its icon span. -/
def hasIconButton (e : SectionEl) : Bool :=
  match e.button with
  | some b => b.hasIcon
  | none => false

/-- Section 0 of the example page is started at time 1000, begins to speak and is paused by
a click at time 1800 (offset 120). -/
def pausedAtOffset : List (Env × Event) :=
  [(idleAt 1000, .click 0), (speakingAt 1000, .onstart 0), (speakingAt 1000, .timer 0),
    (speakingAt 1800, .click 0)]

/-- After `pausedAtOffset`, section 0 is clicked again at time 2000, which opens its resume
menu. -/
def pausedWithMenu : List (Env × Event) :=
  pausedAtOffset ++ [(pausedAt 2000, .click 0)]

/-- After `pausedWithMenu`, "Continue from Here" is chosen at time 3000 while the engine is
still paused on the first utterance: utterance 1 is created and the engine is cancelled. -/
def continuedFromMenu : List (Env × Event) :=
  pausedWithMenu ++ [(pausedAt 3000, .chooseContinue 0)]

/-- After `pausedWithMenu`, section 1 is clicked at time 2500 (hand-off), both settle
continuations run, and utterance 1 of section 1 starts speaking at time 2800. -/
def secondSectionPlaying : List (Env × Event) :=
  pausedWithMenu ++
    [(pausedAt 2500, .click 1), (pausedAt 2600, .timer 0), (idleAt 2700, .timer 0),
      (speakingAt 2800, .onstart 1), (speakingAt 2800, .timer 0)]

/-- Section 0 (500 characters) is started, paused at offset 120 and its menu opened; its
text shrinks to 100 characters; "Restart" creates a second record and utterance 1; the end
event of the cancelled utterance 0 arrives, then the start event of utterance 1; a click (a
hand-off on the section itself, the pointer being null) pauses the first record at 300 and a
second click opens the menu on it; the pause event of utterance 1 arrives; "Continue" is
chosen. -/
def staleRecordTrace : List (Env × Event) :=
  [(idleAt 1000, .click 0), (speakingAt 1000, .onstart 0), (speakingAt 1000, .timer 0),
    (speakingAt 1800, .click 0), (pausedAt 1900, .click 0),
    (pausedAt 1950, .contentChanged 0 (some (List.replicate 100 'a'))),
    (pausedAt 2000, .chooseRestart 0), (idleAt 2001, .onend 0), (speakingAt 2002, .onstart 1),
    (speakingAt 2002, .timer 0), (speakingAt 2200, .click 0), (pausedAt 2250, .click 0),
    (pausedAt 2260, .onpause 1), (pausedAt 2300, .chooseContinue 0)]

/-- Section 0 is started at time 1000; a word boundary at offset 10 arrives; the engine
pauses at time 2000 and resumes at time 3000. -/
def pausedAndResumed : List (Env × Event) :=
  [(idleAt 1000, .click 0), (speakingAt 1000, .onstart 0), (speakingAt 1000, .timer 0),
    (speakingAt 1100, .onboundary 0 true (some 10)), (pausedAt 2000, .onpause 0),
    (speakingAt 3000, .onresume 0)]

/-! ## Orderly runs and the mutual-exclusion invariant -/

/-- Section 0 plays; a click on section 1 at time 3000 starts a hand-off and its first settle
continuation runs at 3100; section 2 is clicked at 3150, with the engine silent after the
cancel, and starts at once; the second settle continuation runs at 3200, before the engine
reports that it is speaking section 2. -/
def raceTrace : List (Env × Event) :=
  [(idleAt 1000, .click 0), (speakingAt 1100, .onstart 0), (speakingAt 1100, .timer 0),
    (speakingAt 3000, .click 1), (pausedAt 3100, .timer 0), (idleAt 3150, .click 2),
    (idleAt 3200, .timer 0)]

/-- The continuations of a hand-off (all timers but the zero-delay one of `onstart`). -/
def Timer.isSettle : Timer → Bool
  | .preserveKick => false
  | _ => true

/-- The continuations that call `startReadingSection`. -/
def Timer.isStart : Timer → Bool
  | .handoffStart _ _ => true
  | .fallbackStart _ => true
  | _ => false

/-- The section a continuation will start, if it names one. -/
def Timer.sectionId : Timer → Option SectionId
  | .handoffCancel sid _ => some sid
  | .handoffStart sid _ => some sid
  | .fallbackCancel sid => some sid
  | .fallbackStart sid => some sid
  | .preserveKick => none

/-- Whether a settle continuation of a hand-off is pending. -/
def settling (s : State) : Bool :=
  s.timers.any Timer.isSettle

/-- The utterance `u` is the current handle of the record the store holds for its section,
and that record is the one its callbacks captured. -/
def isCurrent (s : State) (u : Nat) : Prop :=
  s.readingState (s.utterances u).sectionId = some (s.utterances u).readingState ∧
    (s.heap (s.utterances u).readingState).utterance = some u

/-- The utterance `u` is current and the global pointer names its section. -/
def isLive (s : State) (u : Nat) : Prop :=
  s.currentReadingSection = some (s.utterances u).sectionId ∧ isCurrent s u

/-- Whether the global pointer names a section other than `sid`. -/
def pointerElsewhere (s : State) (sid : SectionId) : Bool :=
  match s.currentReadingSection with
  | some p => p != sid
  | none => false

/-- The events of an orderly run: a click or a menu choice arrives only when no settle
continuation is pending; a menu choice for a section other than the pointer's arrives only
while the engine reports speaking and not paused; the engine delivers `start` and `resume`
only for the current utterance of the pointer's section, and `end` and `pause` only for an
utterance that is the current handle of its section's record. -/
def Orderly (env : Env) (ev : Event) (s : State) : Prop :=
  match ev with
  | .click _ => settling s = false
  | .chooseRestart sid =>
    settling s = false ∧
      (pointerElsewhere s sid = true → env.speaking = true ∧ env.paused = false)
  | .chooseContinue sid =>
    settling s = false ∧
      (pointerElsewhere s sid = true → env.speaking = true ∧ env.paused = false)
  | .onstart u => isLive s u
  | .onresume u => isLive s u
  | .onend u => isCurrent s u
  | .onpause u => isCurrent s u
  | _ => True

instance (s : State) (u : Nat) : Decidable (isCurrent s u) := by
  unfold isCurrent
  infer_instance

instance (s : State) (u : Nat) : Decidable (isLive s u) := by
  unfold isLive
  infer_instance

instance (env : Env) (ev : Event) (s : State) : Decidable (Orderly env ev s) := by
  cases ev <;> unfold Orderly <;> infer_instance

/-- Every event of the trace is orderly in the state it arrives in. -/
def OrderlyRun (s : State) : List (Env × Event) → Prop
  | [] => True
  | (env, ev) :: rest => Orderly env ev s ∧ OrderlyRun (step env ev s) rest

instance (trace : List (Env × Event)) : ∀ s : State, Decidable (OrderlyRun s trace) := by
  induction trace with
  | nil => intro s; unfold OrderlyRun; infer_instance
  | cons e rest ih =>
    intro s
    obtain ⟨env, ev⟩ := e
    unfold OrderlyRun
    have := ih (step env ev s)
    infer_instance

/-- Section 0 plays; section 1 is clicked at time 3000 and both settle continuations of the
hand-off run. -/
def handoffTrace : List (Env × Event) :=
  [(idleAt 1000, .click 0), (speakingAt 1000, .onstart 0), (speakingAt 1000, .timer 0),
    (speakingAt 3000, .click 1), (pausedAt 3100, .timer 0), (idleAt 3200, .timer 0)]

/-- The states of the orderly runs from a freshly loaded page. -/
inductive Reachable : State → Prop
  | init (s : State) : Initial s → Reachable s
  | step (s : State) (env : Env) (ev : Event) :
      Reachable s → Orderly env ev s → Reachable (step env ev s)

/-- The invariant of the orderly runs. -/
structure Inv (s : State) : Prop where
  /-- A stored record that is playing belongs to the pointer's section. -/
  playing_ptr : ∀ sid r, s.readingState sid = some r → (s.heap r).playing = true →
    s.currentReadingSection = some sid
  /-- No record is stored for two sections. -/
  inj : ∀ a b r, s.readingState a = some r → s.readingState b = some r → a = b
  /-- Stored references are allocated. -/
  bound : ∀ sid r, s.readingState sid = some r → r < s.nextRef
  /-- The pointer names a section of the page with a button and a record. -/
  ptr_valid : ∀ p, s.currentReadingSection = some p →
    p ∈ s.sections ∧ (s.el p).button.isSome = true ∧ (s.readingState p).isSome = true
  /-- Only the pointer's section shows `reading-playing`, and its button has the icon. -/
  btn_ptr : ∀ sid, hasPlayingButton (s.el sid) = true →
    s.currentReadingSection = some sid ∧ hasIconButton (s.el sid) = true
  /-- An open menu belongs to a section of the page with a button. -/
  menu_valid : ∀ sid, (s.el sid).menu.isSome = true →
    sid ∈ s.sections ∧ (s.el sid).button.isSome = true
  /-- A pending continuation names a section of the page with a button. -/
  timer_valid : ∀ t ∈ s.timers, ∀ sid, t.sectionId = some sid →
    sid ∈ s.sections ∧ (s.el sid).button.isSome = true
  /-- At most one settle continuation is pending. -/
  settle_count : (s.timers.filter Timer.isSettle).length ≤ 1
  /-- While a hand-off settles, no stored record is playing. -/
  settle_playing : settling s = true →
    ∀ sid r, s.readingState sid = some r → (s.heap r).playing = false
  /-- While a hand-off settles, no button shows `reading-playing`. -/
  settle_button : settling s = true → ∀ sid, hasPlayingButton (s.el sid) = false
  /-- While a hand-off settles, the pointer's record has no utterance handle. -/
  settle_handle : settling s = true → ∀ p r, s.currentReadingSection = some p →
    s.readingState p = some r → (s.heap r).utterance = none
  /-- A pending start continuation finds a null pointer. -/
  start_pending : ∀ t ∈ s.timers, t.isStart = true → s.currentReadingSection = none

/-- A change of state that neither stores nor allocates a record, sets no record playing,
gives no record a handle, shows no new `reading-playing` and opens no menu. -/
structure Quiet (s t : State) : Prop where
  store : t.readingState = s.readingState
  nextRef : t.nextRef = s.nextRef
  sections : t.sections = s.sections
  playing : ∀ r, (t.heap r).playing = true → (s.heap r).playing = true
  handle : ∀ r, (s.heap r).utterance = none → (t.heap r).utterance = none
  button : ∀ i, (t.el i).button.isSome = (s.el i).button.isSome
  icon : ∀ i, hasIconButton (t.el i) = hasIconButton (s.el i)
  shown : ∀ i, hasPlayingButton (t.el i) = true → hasPlayingButton (s.el i) = true
  menu : ∀ i, (t.el i).menu.isSome = true → (s.el i).menu.isSome = true

/-! ## Flag pairs -/

/-- The two flags of a record are not both set: the pair `(playing, paused)` is one of
`(false, false)`, `(true, false)`, `(false, true)`. -/
def flagsExclusive (rec : ReadingRecord) : Bool :=
  !(rec.playing && rec.paused)

/-- Every record of the store has an exclusive flag pair. -/
def StoreExclusive (s : State) : Prop :=
  ∀ sid r, s.readingState sid = some r → flagsExclusive (s.heap r) = true

/-- A change of state in which every record object keeps its two flags or ends with an
exclusive pair, and every stored record was stored for the same section or ends with an
exclusive pair. -/
structure FlagSafe (s t : State) : Prop where
  cells : ∀ r, flagsExclusive (t.heap r) = true ∨
    ((t.heap r).playing = (s.heap r).playing ∧ (t.heap r).paused = (s.heap r).paused)
  store : ∀ sid r, t.readingState sid = some r →
    s.readingState sid = some r ∨ flagsExclusive (t.heap r) = true

/-! ## A platform without a speech engine -/

/-- The exception raised by a method call on `undefined`. -/
inductive Failure
  | typeError
  deriving DecidableEq, Repr

/-- The function `stopAllReading` (lines 432-455) with its failure.  Its first statement is the
call `window.speechSynthesis.cancel()`, made without the test `'speechSynthesis' in window`
that `toggleSectionReading` starts with (line 58): on a platform without an engine
`window.speechSynthesis` is `undefined` and the call raises a `TypeError`. -/
def stopAllReadingResult (s : State) : Except Failure State :=
  if s.supported then .ok (stopAllReading s) else .error .typeError

/-- The example page on a platform without a speech engine. -/
def pageWithoutEngine : State :=
  { demoPage 500 with supported := false }

/-! ## The hand-off path as seen from outside -/

/-- Whether the step from `s` to `t` scheduled the first settle continuation of the hand-off
path for `sid` (lines 146-165), which only that path of `toggleSectionReading` does. -/
def tookHandoffPath (s t : State) (sid : SectionId) : Bool :=
  decide (t.timers = s.timers ++ [.handoffCancel sid true]) ||
    decide (t.timers = s.timers ++ [.handoffCancel sid false])

/-! ## More example runs -/

/-- Section 0 of the example page is started at time 1000 and begins to speak; section 1
loses its `.section-content` child. -/
def playingBesideEmpty : List (Env × Event) :=
  [(idleAt 1000, .click 0), (speakingAt 1000, .onstart 0), (speakingAt 1000, .timer 0),
    (speakingAt 1500, .contentChanged 1 none)]

/-- Section 0 of the example page is started at time 1000; the engine reports a word boundary
at offset 480 at time 4000 and the end of the utterance at time 4500. -/
def finishedAtOffset : List (Env × Event) :=
  [(idleAt 1000, .click 0), (speakingAt 1000, .onstart 0), (speakingAt 1000, .timer 0),
    (speakingAt 4000, .onboundary 0 true (some 480)), (idleAt 4500, .onend 0)]

/-- As `finishedAtOffset`, without the word boundary: the offset is still 0 at the end. -/
def finishedAtZero : List (Env × Event) :=
  [(idleAt 1000, .click 0), (speakingAt 1000, .onstart 0), (speakingAt 1000, .timer 0),
    (idleAt 4500, .onend 0)]

/-- Section 0 of the example page is started at time 1000, begins to speak and is paused by a
click at that same instant: it shows 'paused' with offset 0. -/
def pausedAtZero : List (Env × Event) :=
  [(idleAt 1000, .click 0), (speakingAt 1000, .onstart 0), (speakingAt 1000, .timer 0),
    (speakingAt 1000, .click 0)]

/-- After `pausedWithMenu` (section 0 paused at offset 120 of its 500 characters `a`, menu
open), the rendered text of section 0 becomes 200 characters `b`. -/
def pausedThenRewritten : List (Env × Event) :=
  pausedWithMenu ++ [(pausedAt 2500, .contentChanged 0 (some (List.replicate 200 'b')))]

/-! ## The displayed state read by the reconcile pass -/

/-- The constant `buttonState` of `preserveOtherSectionsPausedState` (lines 464-465): the
displayed state as read from the button's classes. -/
def buttonState (b : Button) : Affordance :=
  if b.readingPaused then .paused else if b.readingPlaying then .playing else .stopped

/-- The store holds for `sid` a record with `paused = true` and `charIndex > 0`. -/
def pausedWithOffset (s : State) (sid : SectionId) : Prop :=
  ∃ r, s.readingState sid = some r ∧ (s.heap r).paused = true ∧ 0 < (s.heap r).charIndex

/-- What the reconcile pass may do to a record object: nothing, or clear `playing` on a record
that has `paused = true` and `charIndex > 0`. -/
def Reconciled (a b : ReadingRecord) : Prop :=
  b = a ∨ (a.paused = true ∧ 0 < a.charIndex ∧ b = { a with playing := false })

/-- After `pausedWithMenu`, "Restart" gives section 0 a second record and utterance 1, which
starts at time 3100 and is paused by a click at 3900 (offset 120); then the error event of the
cancelled utterance 0 arrives and its handler shows 'stopped' on section 0. -/
def pausedButShownStopped : List (Env × Event) :=
  pausedWithMenu ++
    [(pausedAt 3000, .chooseRestart 0), (speakingAt 3100, .onstart 1),
      (speakingAt 3100, .timer 0), (speakingAt 3900, .click 0), (pausedAt 3950, .onerror 0)]

/-! ## The preserver interval with its handles (lines 7-8, 476-489) -/

/-- The intervals of `startPausedStatePreserver` and the module variable that names one. -/
structure Preserver where
  /-- The intervals that are set and not cleared: the handle `setInterval` returned and the
  `checks` counter of the callback's closure. -/
  active : List (Nat × Nat)
  /-- The module variable `pausedStatePreserverInterval` (`none` for `null`). -/
  handle : Option Nat
  /-- The handle the next `setInterval` returns; handles are positive integers. -/
  nextHandle : Nat
  /-- The number of runs of `preserveOtherSectionsPausedState` made by interval callbacks. -/
  passes : Nat
  deriving DecidableEq, Repr

namespace Preserver

/-- The module as loaded: no interval, the variable `null`. -/
def initial : Preserver :=
  { active := [], handle := none, nextHandle := 1, passes := 0 }

/-- The call `clearInterval(pausedStatePreserverInterval)`: the interval named by the variable,
if any, is no longer active (`clearInterval(null)` does nothing). -/
def clearNamed (p : Preserver) : List (Nat × Nat) :=
  match p.handle with
  | some h => p.active.filter fun x => x.1 != h
  | none => p.active

/-- The function `startPausedStatePreserver` (lines 476-489): the interval named by the
variable is cleared when the variable is truthy, and a new interval is set with `checks = 0`
and stored in the variable. -/
def start (p : Preserver) : Preserver :=
  let active :=
    match p.handle with
    | some h => if h != 0 then p.clearNamed else p.active
    | none => p.active
  { active := active ++ [(p.nextHandle, 0)], handle := some p.nextHandle,
    nextHandle := p.nextHandle + 1, passes := p.passes }

/-- One firing of the callback of the interval with handle `h` (lines 481-488); an interval
that is not active does not fire. -/
def tick (h : Nat) (p : Preserver) : Preserver :=
  match p.active.find? fun x => x.1 == h with
  | none => p
  | some (_, checks) =>
    let p := { p with
      passes := p.passes + 1
      active := p.active.map fun x => if x.1 == h then (x.1, checks + 1) else x }
    if 20 ≤ checks + 1 then { p with active := p.clearNamed, handle := none } else p

end Preserver

/-- A call of `startPausedStatePreserver` or a firing of an interval. -/
inductive PreserverOp
  | start
  | tick (h : Nat)
  deriving DecidableEq, Repr

/-- Runs a sequence of calls and firings, oldest first. -/
def Preserver.run (p : Preserver) : List PreserverOp → Preserver
  | [] => p
  | .start :: rest => Preserver.run p.start rest
  | .tick h :: rest => Preserver.run (p.tick h) rest

/-- Either no interval is active and the variable is `null`, or exactly one interval is
active, the variable names it, and its counter is below 20. -/
def Preserver.Single (p : Preserver) : Prop :=
  0 < p.nextHandle ∧
    ((p.handle = none ∧ p.active = []) ∨
      ∃ h c, p.handle = some h ∧ p.active = [(h, c)] ∧ 0 < h ∧ h < p.nextHandle ∧ c < 20)

/-- The view of the preserver kept in `State.pausedStatePreserverInterval`: the counter of the
active interval, if there is one. -/
def Preserver.checks (p : Preserver) : Option Nat :=
  p.active.head?.map Prod.snd

/-- A start of the preserver followed by 5 firings of its interval (handle 1). -/
def preserverDemo : List PreserverOp :=
  [.start] ++ List.replicate 5 (.tick 1)

/-! ## The resume menus of one section, counted -/

/-- What can happen to the `.reading-resume-menu` elements of one section: a call of
`showReadingResumeOptions` with a record (its reference and its value), the removal of the
`i`-th menu by one of its own handlers (lines 575, 583, 591, 599), and the removal of all
menus by the Escape handler of `navigation.js`. -/
inductive MenuOp
  | showOptions (r : Nat) (rec : ReadingRecord)
  | remove (i : Nat)
  | removeAll
  deriving DecidableEq, Repr

/-- The menus of one section after a call of `showReadingResumeOptions` (lines 530-560), each
menu being represented by the record it captured: an existing menu (the first one, as
`querySelector` finds it) is removed and nothing else happens; otherwise one menu is appended,
unless the record has no offset or no text. -/
def showMenus (menus : List Nat) (r : Nat) (rec : ReadingRecord) : List Nat :=
  match menus with
  | _ :: rest => rest
  | [] => if rec.charIndex == 0 || rec.fullText.isEmpty then [] else [r]

/-- The menus of one section after an operation. -/
def menusStep (menus : List Nat) : MenuOp → List Nat
  | .showOptions r rec => showMenus menus r rec
  | .remove i => menus.eraseIdx i
  | .removeAll => []

/-- The menus of a section after a sequence of operations, starting without a menu. -/
def menusAfter (ops : List MenuOp) : List Nat :=
  ops.foldl menusStep []

/-- Section 0 of the example page is started at time 1000 and a word boundary at offset 100
is reported at time 1500: it plays with `charIndex = 100`. -/
def playingAtOffset : List (Env × Event) :=
  [(idleAt 1000, .click 0), (speakingAt 1000, .onstart 0), (speakingAt 1000, .timer 0),
    (speakingAt 1500, .onboundary 0 true (some 100))]

/-- The constant `buttonIsStopped` (line 76). -/
def buttonIsStopped (b : Button) : Bool :=
  !buttonIsPlaying b && !buttonIsPaused b

end Reading

namespace GestureControl

/-! ## Gesture recognition (`src/js/gesture.js`, lines 146-163)

Coordinates are the integers `clientX` and `clientY` of mouse events.  For coordinates below
`2^25` in absolute value every intermediate value of `analyzeGesture` but the square root is
an integer below `2^53`, hence an exact double; the square root is rounded to the nearest
double. -/

/-- The number of times `n` is multiplied by 4 to reach `2^106`. -/
def shiftFor : Nat → Nat → Nat
  | 0, _ => 0
  | fuel + 1, n => if n < 2 ^ 106 then shiftFor fuel (4 * n) + 1 else 0

/-- The integer square root by bisection on the bits below `2^k`, from the approximation `r`
(`r * r ≤ n < (r + 2^k)^2`). -/
def isqrtBits : Nat → Nat → Nat → Nat
  | 0, _, r => r
  | k + 1, n, r => if (r + 2 ^ k) * (r + 2 ^ k) ≤ n then isqrtBits k n (r + 2 ^ k)
      else isqrtBits k n r

/-- The value of `Math.sqrt(n)` for an integer `0 ≤ n < 2^106`: the double nearest to the
square root (ties to even), as a fraction `(numerator, denominator)` whose denominator is a
power of two.  The root of `n * 4^t`, scaled into `[2^106, 2^108)`, is truncated to its 54 bits
`q`, which are then rounded to 53. -/
def sqrtDouble (n : Nat) : Nat × Nat :=
  if n = 0 then (0, 1)
  else
    let t := shiftFor 60 n
    let scaled := n * 4 ^ t
    let q := isqrtBits 64 scaled 0
    let m :=
      if q % 2 = 0 then q / 2
      else if q * q = scaled then (if (q / 2) % 2 = 0 then q / 2 else q / 2 + 1)
      else q / 2 + 1
    (2 * m, 2 ^ t)

/-- A point of `state.mousePath` (its `time` field is not read by `analyzeGesture`). -/
structure Point where
  x : Int
  y : Int
  deriving DecidableEq, Repr

/-- The strings `analyzeGesture` returns. -/
inductive Gesture
  | up
  | down
  | left
  | right
  | circle
  deriving DecidableEq, Repr

/-- The test `distance < 50` with `distance = Math.sqrt(dx * dx + dy * dy)` (lines 152, 158). -/
def distanceBelow50 (dx dy : Int) : Bool :=
  decide ((sqrtDouble (dx * dx + dy * dy).toNat).1 <
    50 * (sqrtDouble (dx * dx + dy * dy).toNat).2)

/-- The function `analyzeGesture(path)` (lines 146-163); `none` is `null`. -/
def analyzeGesture (path : List Point) : Option Gesture :=
  if path.length < 10 then none
  else
    match path.head?, path.getLast? with
    | some start, some stop =>
      let dx := stop.x - start.x
      let dy := stop.y - start.y
      if |dy| > |dx| * 2 then
        if dy > 0 then some .down else some .up
      else if |dx| > |dy| * 2 then
        if dx > 0 then some .right else some .left
      else if distanceBelow50 dx dy then some .circle
      else none
    | _, _ => none

/-- The classification in the words of the specification, from the path length and the
differences `dx`, `dy` between the last and the first point. -/
def gestureSpec (length : Nat) (dx dy : Int) : Option Gesture :=
  if length < 10 then none
  else if |dy| > 2 * |dx| ∧ dy > 0 then some .down
  else if |dy| > 2 * |dx| ∧ dy < 0 then some .up
  else if |dx| > 2 * |dy| ∧ dx > 0 then some .right
  else if |dx| > 2 * |dy| ∧ dx < 0 then some .left
  else if ¬ (|dy| > 2 * |dx|) ∧ ¬ (|dx| > 2 * |dy|) ∧ dx * dx + dy * dy < 2500 then
    some .circle
  else none

/-- A path of twelve points from `(100, 100)` to `(x, y)`. -/
def strokeTo (x y : Int) : List Point :=
  List.replicate 11 { x := 100, y := 100 } ++ [{ x := x, y := y }]

end GestureControl

namespace Reading

/-! ## Projections of the primitive updates -/

namespace State

@[simp]
theorem modRec_fields (s : State) (r : Nat) (f : ReadingRecord → ReadingRecord) :
    (s.modRec r f).supported = s.supported ∧
      (s.modRec r f).readingState = s.readingState ∧
      (s.modRec r f).currentReadingSection = s.currentReadingSection ∧
      (∀ i, (s.modRec r f).heap i = if i = r then f (s.heap i) else s.heap i) ∧
      (s.modRec r f).nextRef = s.nextRef ∧
      (s.modRec r f).utterances = s.utterances ∧
      (s.modRec r f).nextUtterance = s.nextUtterance ∧
      (s.modRec r f).sections = s.sections ∧
      (s.modRec r f).el = s.el ∧
      (s.modRec r f).timers = s.timers ∧
      (s.modRec r f).pausedStatePreserverInterval = s.pausedStatePreserverInterval ∧
      (s.modRec r f).engineLog = s.engineLog ∧
      (s.modRec r f).announcements = s.announcements :=
  ⟨rfl, rfl, rfl, fun _ => rfl, rfl, rfl, rfl, rfl, rfl, rfl, rfl, rfl, rfl⟩

@[simp]
theorem setStore_fields (s : State) (sid : SectionId) (r : Nat) :
    (s.setStore sid r).supported = s.supported ∧
      (∀ i, (s.setStore sid r).readingState i = if i = sid then some r else s.readingState i) ∧
      (s.setStore sid r).currentReadingSection = s.currentReadingSection ∧
      (s.setStore sid r).heap = s.heap ∧
      (s.setStore sid r).nextRef = s.nextRef ∧
      (s.setStore sid r).utterances = s.utterances ∧
      (s.setStore sid r).nextUtterance = s.nextUtterance ∧
      (s.setStore sid r).sections = s.sections ∧
      (s.setStore sid r).el = s.el ∧
      (s.setStore sid r).timers = s.timers ∧
      (s.setStore sid r).pausedStatePreserverInterval = s.pausedStatePreserverInterval ∧
      (s.setStore sid r).engineLog = s.engineLog ∧
      (s.setStore sid r).announcements = s.announcements :=
  ⟨rfl, fun _ => rfl, rfl, rfl, rfl, rfl, rfl, rfl, rfl, rfl, rfl, rfl, rfl⟩

@[simp]
theorem modEl_fields (s : State) (sid : SectionId) (f : SectionEl → SectionEl) :
    (s.modEl sid f).supported = s.supported ∧
      (s.modEl sid f).readingState = s.readingState ∧
      (s.modEl sid f).currentReadingSection = s.currentReadingSection ∧
      (s.modEl sid f).heap = s.heap ∧
      (s.modEl sid f).nextRef = s.nextRef ∧
      (s.modEl sid f).utterances = s.utterances ∧
      (s.modEl sid f).nextUtterance = s.nextUtterance ∧
      (s.modEl sid f).sections = s.sections ∧
      (∀ i, (s.modEl sid f).el i = if i = sid then f (s.el i) else s.el i) ∧
      (s.modEl sid f).timers = s.timers ∧
      (s.modEl sid f).pausedStatePreserverInterval = s.pausedStatePreserverInterval ∧
      (s.modEl sid f).engineLog = s.engineLog ∧
      (s.modEl sid f).announcements = s.announcements :=
  ⟨rfl, rfl, rfl, rfl, rfl, rfl, rfl, rfl, fun _ => rfl, rfl, rfl, rfl, rfl⟩

@[simp]
theorem engine_fields (s : State) (op : EngineOp) :
    (s.engine op).supported = s.supported ∧
      (s.engine op).readingState = s.readingState ∧
      (s.engine op).currentReadingSection = s.currentReadingSection ∧
      (s.engine op).heap = s.heap ∧
      (s.engine op).nextRef = s.nextRef ∧
      (s.engine op).utterances = s.utterances ∧
      (s.engine op).nextUtterance = s.nextUtterance ∧
      (s.engine op).sections = s.sections ∧
      (s.engine op).el = s.el ∧
      (s.engine op).timers = s.timers ∧
      (s.engine op).pausedStatePreserverInterval = s.pausedStatePreserverInterval ∧
      (s.engine op).engineLog = s.engineLog ++ [op] ∧
      (s.engine op).announcements = s.announcements :=
  ⟨rfl, rfl, rfl, rfl, rfl, rfl, rfl, rfl, rfl, rfl, rfl, rfl, rfl⟩

@[simp]
theorem engineWhen_fields (s : State) (c : Bool) (op : EngineOp) :
    (s.engineWhen c op).supported = s.supported ∧
      (s.engineWhen c op).readingState = s.readingState ∧
      (s.engineWhen c op).currentReadingSection = s.currentReadingSection ∧
      (s.engineWhen c op).heap = s.heap ∧
      (s.engineWhen c op).nextRef = s.nextRef ∧
      (s.engineWhen c op).utterances = s.utterances ∧
      (s.engineWhen c op).nextUtterance = s.nextUtterance ∧
      (s.engineWhen c op).sections = s.sections ∧
      (s.engineWhen c op).el = s.el ∧
      (s.engineWhen c op).timers = s.timers ∧
      (s.engineWhen c op).pausedStatePreserverInterval = s.pausedStatePreserverInterval ∧
      (s.engineWhen c op).engineLog = (if c then s.engineLog ++ [op] else s.engineLog) ∧
      (s.engineWhen c op).announcements = s.announcements :=
  ⟨rfl, rfl, rfl, rfl, rfl, rfl, rfl, rfl, rfl, rfl, rfl, rfl, rfl⟩

@[simp]
theorem detachHandlers_fields (s : State) (u : Option Nat) :
    (s.detachHandlers u).supported = s.supported ∧
      (s.detachHandlers u).readingState = s.readingState ∧
      (s.detachHandlers u).currentReadingSection = s.currentReadingSection ∧
      (s.detachHandlers u).heap = s.heap ∧
      (s.detachHandlers u).nextRef = s.nextRef ∧
      (∀ i, (s.detachHandlers u).utterances i = if some i = u then detach (s.utterances i) else s.utterances i) ∧
      (s.detachHandlers u).nextUtterance = s.nextUtterance ∧
      (s.detachHandlers u).sections = s.sections ∧
      (s.detachHandlers u).el = s.el ∧
      (s.detachHandlers u).timers = s.timers ∧
      (s.detachHandlers u).pausedStatePreserverInterval = s.pausedStatePreserverInterval ∧
      (s.detachHandlers u).engineLog = s.engineLog ∧
      (s.detachHandlers u).announcements = s.announcements :=
  ⟨rfl, rfl, rfl, rfl, rfl, fun _ => rfl, rfl, rfl, rfl, rfl, rfl, rfl, rfl⟩

@[simp]
theorem announce_fields (s : State) (msg : Announcement) :
    (s.announce msg).supported = s.supported ∧
      (s.announce msg).readingState = s.readingState ∧
      (s.announce msg).currentReadingSection = s.currentReadingSection ∧
      (s.announce msg).heap = s.heap ∧
      (s.announce msg).nextRef = s.nextRef ∧
      (s.announce msg).utterances = s.utterances ∧
      (s.announce msg).nextUtterance = s.nextUtterance ∧
      (s.announce msg).sections = s.sections ∧
      (s.announce msg).el = s.el ∧
      (s.announce msg).timers = s.timers ∧
      (s.announce msg).pausedStatePreserverInterval = s.pausedStatePreserverInterval ∧
      (s.announce msg).engineLog = s.engineLog ∧
      (s.announce msg).announcements = s.announcements ++ [msg] :=
  ⟨rfl, rfl, rfl, rfl, rfl, rfl, rfl, rfl, rfl, rfl, rfl, rfl, rfl⟩

@[simp]
theorem setTimeout_fields (s : State) (t : Timer) :
    (s.setTimeout t).supported = s.supported ∧
      (s.setTimeout t).readingState = s.readingState ∧
      (s.setTimeout t).currentReadingSection = s.currentReadingSection ∧
      (s.setTimeout t).heap = s.heap ∧
      (s.setTimeout t).nextRef = s.nextRef ∧
      (s.setTimeout t).utterances = s.utterances ∧
      (s.setTimeout t).nextUtterance = s.nextUtterance ∧
      (s.setTimeout t).sections = s.sections ∧
      (s.setTimeout t).el = s.el ∧
      (s.setTimeout t).timers = s.timers ++ [t] ∧
      (s.setTimeout t).pausedStatePreserverInterval = s.pausedStatePreserverInterval ∧
      (s.setTimeout t).engineLog = s.engineLog ∧
      (s.setTimeout t).announcements = s.announcements :=
  ⟨rfl, rfl, rfl, rfl, rfl, rfl, rfl, rfl, rfl, rfl, rfl, rfl, rfl⟩

@[simp]
theorem setPointer_fields (s : State) (p : Option SectionId) :
    (s.setPointer p).supported = s.supported ∧
      (s.setPointer p).readingState = s.readingState ∧
      (s.setPointer p).currentReadingSection = p ∧
      (s.setPointer p).heap = s.heap ∧
      (s.setPointer p).nextRef = s.nextRef ∧
      (s.setPointer p).utterances = s.utterances ∧
      (s.setPointer p).nextUtterance = s.nextUtterance ∧
      (s.setPointer p).sections = s.sections ∧
      (s.setPointer p).el = s.el ∧
      (s.setPointer p).timers = s.timers ∧
      (s.setPointer p).pausedStatePreserverInterval = s.pausedStatePreserverInterval ∧
      (s.setPointer p).engineLog = s.engineLog ∧
      (s.setPointer p).announcements = s.announcements :=
  ⟨rfl, rfl, rfl, rfl, rfl, rfl, rfl, rfl, rfl, rfl, rfl, rfl, rfl⟩

@[simp]
theorem allocRecord_fields (s : State) (sid : SectionId) :
    (s.allocRecord sid).supported = s.supported ∧
      (∀ i, (s.allocRecord sid).readingState i = if i = sid then some s.nextRef else s.readingState i) ∧
      (s.allocRecord sid).currentReadingSection = s.currentReadingSection ∧
      (∀ i, (s.allocRecord sid).heap i = if i = s.nextRef then freshRecord else s.heap i) ∧
      (s.allocRecord sid).nextRef = s.nextRef + 1 ∧
      (s.allocRecord sid).utterances = s.utterances ∧
      (s.allocRecord sid).nextUtterance = s.nextUtterance ∧
      (s.allocRecord sid).sections = s.sections ∧
      (s.allocRecord sid).el = s.el ∧
      (s.allocRecord sid).timers = s.timers ∧
      (s.allocRecord sid).pausedStatePreserverInterval = s.pausedStatePreserverInterval ∧
      (s.allocRecord sid).engineLog = s.engineLog ∧
      (s.allocRecord sid).announcements = s.announcements :=
  ⟨rfl, fun _ => rfl, rfl, fun _ => rfl, rfl, rfl, rfl, rfl, rfl, rfl, rfl, rfl, rfl⟩

end State

/-! ## `ensureRecord` -/

@[simp]
theorem ensureRecord_fields (s : State) (sid : SectionId) :
    (ensureRecord s sid).1.supported = s.supported ∧
      (ensureRecord s sid).1.currentReadingSection = s.currentReadingSection ∧
      (ensureRecord s sid).1.utterances = s.utterances ∧
      (ensureRecord s sid).1.nextUtterance = s.nextUtterance ∧
      (ensureRecord s sid).1.sections = s.sections ∧
      (ensureRecord s sid).1.el = s.el ∧
      (ensureRecord s sid).1.timers = s.timers ∧
      (ensureRecord s sid).1.pausedStatePreserverInterval = s.pausedStatePreserverInterval ∧
      (ensureRecord s sid).1.engineLog = s.engineLog ∧
      (ensureRecord s sid).1.announcements = s.announcements ∧
      (ensureRecord s sid).1.readingState sid = some (ensureRecord s sid).2 := by
  unfold ensureRecord
  cases h : s.readingState sid <;> simp [h]

/-- The store, the heap and the allocation counter after `ensureRecord`. -/
theorem ensureRecord_store (s : State) (sid : SectionId) :
    (∀ i, i ≠ sid → (ensureRecord s sid).1.readingState i = s.readingState i) ∧
      (∀ i, i < s.nextRef → (ensureRecord s sid).1.heap i = s.heap i) ∧
      s.nextRef ≤ (ensureRecord s sid).1.nextRef ∧
      (ensureRecord s sid).1.nextRef ≤ s.nextRef + 1 ∧
      (s.readingState sid = some (ensureRecord s sid).2 ∧ (ensureRecord s sid).1 = s ∨
        s.readingState sid = none ∧ (ensureRecord s sid).2 = s.nextRef ∧
          (ensureRecord s sid).1 = s.allocRecord sid) := by
  unfold ensureRecord
  cases h : s.readingState sid
  · refine ⟨fun i hi => by simp [hi], fun i hi => ?_, by simp, by simp, Or.inr ⟨rfl, rfl, rfl⟩⟩
    have : i ≠ s.nextRef := Nat.ne_of_lt hi
    simp [this]
  · exact ⟨fun i _ => rfl, fun i _ => rfl, le_refl _, Nat.le_succ _, Or.inl ⟨rfl, rfl⟩⟩

/-! ## `checkpoint` -/

@[simp]
theorem checkpoint_frame (now : Int) (rec : ReadingRecord) :
    (checkpoint now rec).playing = rec.playing ∧ (checkpoint now rec).paused = rec.paused ∧
      (checkpoint now rec).utterance = rec.utterance ∧
      (checkpoint now rec).fullText = rec.fullText ∧
      (checkpoint now rec).startTime = rec.startTime := by
  unfold checkpoint
  split
  · simp
  · split_ifs <;> simp

/-! ## Hand-off checkpoint (C3) -/

/-- C3, as amended: when the pointer names section `A` (as it does while `A` plays), whose
record `r` has a truthy `startTime = st`, a click on another section `B` leaves `A`'s record with
`charIndex = min(fullText.length, charIndex + Math.floor((now - st) / 1000 * 150))`
(the floor of the double-precision product), `playing = false`, `paused = true`, a null
utterance handle, and `A`'s button showing 'paused'. -/
theorem handoff_checkpoints_previous (env : Env) (s : State) (A B r : Nat) (b : Button)
    (st : Int) (hs : s.supported = true) (hB : B ∈ s.sections)
    (hBb : (s.el B).button.isSome = true) (hA : A ∈ s.sections)
    (hAb : (s.el A).button = some b) (hicon : b.hasIcon = true) (hAB : A ≠ B)
    (hp : s.currentReadingSection = some A) (hr : s.readingState A = some r)
    (hlt : r < s.nextRef) (hst : (s.heap r).startTime = some st) (h0 : st ≠ 0) :
    recordOf (step env (.click B) s) A =
      some { s.heap r with
        playing := false, paused := true, utterance := none,
        charIndex := min ((s.heap r).fullText.length : Int)
          ((s.heap r).charIndex + estimatedChars (env.now - st)) } ∧
    showsAffordance ((step env (.click B) s).el A) .paused = true := by
  obtain ⟨bB, hbB⟩ := Option.isSome_iff_exists.mp hBb
  have hne : r ≠ s.nextRef := Nat.ne_of_lt hlt
  have hBA : ¬ (B = A) := fun h => hAB h.symm
  cases hsB : s.readingState B <;>
    simp [step, toggleSectionReading, hasAnotherSectionPlaying, isThisSectionPlaying, hs, hB, hbB,
      ensureRecord, hsB, hp, hAB, hBA,
      handoff, handoffTarget, handoffPointer, findSection, hA, hr, hAb, handoffCheckpoint,
      checkpoint, hst, h0,
      updateReadingButton, hicon, showsAffordance, recordOf, hne]

set_option maxRecDepth 100000 in
/-- C3, witness of the amended statement: section 0 (500 characters) started at time 1000
with offset 0; a click on section 1 at time 3000 checkpoints it at offset 300 and shows
'paused'. -/
theorem handoff_checkpoints_previous_witness :
    (recordOf (step (speakingAt 3000) (.click 1)
        (run (demoPage 500) [(idleAt 1000, .click 0)])) 0).map (fun rec => rec.charIndex) =
      some 300 ∧
    showsAffordance ((step (speakingAt 3000) (.click 1)
        (run (demoPage 500) [(idleAt 1000, .click 0)])).el 0) .paused = true := by
  have h := handoff_checkpoints_previous (speakingAt 3000)
    (run (demoPage 500) [(idleAt 1000, .click 0)]) 0 1 0 demoButton 1000
    (by decide) (by decide) (by decide) (by decide) (by decide) (by decide) (by decide)
    (by decide) (by decide) (by decide) (by decide) (by decide)
  refine ⟨?_, h.2⟩
  rw [h.1]
  decide

set_option maxRecDepth 100000 in
/-- C3, counterexample to the exact formula: section 0 plays from offset 0 since time 1000
and is the pointer; a click on section 1 at time 1820 (`t = 820`) checkpoints it at 122,
while `min(500, 0 + floor(820 * 150 / 1000))` is 123. -/
theorem handoff_checkpoint_exact_formula_counterexample :
    (recordOf (run (demoPage 500) [(idleAt 1000, .click 0)]) 0).map
        (fun rec => (rec.playing, rec.charIndex, rec.fullText.length, rec.startTime)) =
      some (true, 0, 500, some 1000) ∧
    (run (demoPage 500) [(idleAt 1000, .click 0)]).currentReadingSection = some 0 ∧
    (recordOf (step (speakingAt 1820) (.click 1)
        (run (demoPage 500) [(idleAt 1000, .click 0)])) 0).map (fun rec => rec.charIndex) =
      some 122 ∧
    min (500 : Int) (0 + (820 * 150) / 1000) = 123 := by
  decide

/-! ## `updateReadingButton` -/

@[simp]
theorem updateReadingButton_frame (e : SectionEl) (a : Affordance) :
    (updateReadingButton e a).content = e.content ∧
      (updateReadingButton e a).menu = e.menu ∧
      (updateReadingButton e a).clsReading = e.clsReading ∧
      (updateReadingButton e a).button.isSome = e.button.isSome ∧
      hasIconButton (updateReadingButton e a) = hasIconButton e := by
  unfold updateReadingButton hasIconButton
  cases hb : e.button with
  | none => simp [hb]
  | some b => cases hi : b.hasIcon <;> cases a <;> simp [hb, hi]

theorem updateReadingButton_shows (e : SectionEl) (a : Affordance)
    (h : hasIconButton e = true) : showsAffordance (updateReadingButton e a) a = true := by
  unfold updateReadingButton showsAffordance
  unfold hasIconButton at h
  cases hb : e.button with
  | none => simp [hb] at h
  | some b =>
    have hi : b.hasIcon = true := by simpa [hb] using h
    cases a <;> simp [hi]

/-! ## Stop-all (C4) -/

/-- What `stopSection` leaves untouched. -/
theorem stopSection_frame (s : State) (j : SectionId) :
    (stopSection s j).readingState = s.readingState ∧
      (stopSection s j).currentReadingSection = s.currentReadingSection ∧
      (∀ i, ((stopSection s j).heap i).charIndex = (s.heap i).charIndex) ∧
      (∀ i, ((stopSection s j).el i).button.isSome = (s.el i).button.isSome) ∧
      (∀ i, hasIconButton ((stopSection s j).el i) = hasIconButton (s.el i)) := by
  unfold stopSection
  simp only [State.modEl_fields, if_true]
  cases hb : (s.el j).button <;> cases hr : s.readingState j <;> simp only [] <;>
    (try split) <;>
    refine ⟨by simp, by simp, fun i => ?_, fun i => ?_, fun i => ?_⟩ <;>
    simp <;> split_ifs <;> (try simp_all) <;> (try simp_all [hasIconButton])

/-- The state `stopSection` leaves a record and its section in. -/
theorem stopSection_establishes (s : State) (sid : SectionId) (r : Nat)
    (hb : (s.el sid).button.isSome = true) (hr : s.readingState sid = some r) :
    ((stopSection s sid).heap r).playing = false ∧
      ((stopSection s sid).heap r).paused = decide ((s.heap r).charIndex ≠ 0) ∧
      (hasIconButton (s.el sid) = true →
        showsAffordance ((stopSection s sid).el sid)
          (if (s.heap r).charIndex = 0 then .stopped else .paused) = true) := by
  obtain ⟨b, hb⟩ := Option.isSome_iff_exists.mp hb
  unfold stopSection
  simp only [State.modEl_fields, if_true, hb, hr]
  split <;> rename_i h0 <;> simp [h0] <;> intro hi <;>
    exact updateReadingButton_shows _ _ (by simpa [hasIconButton, hb] using hi)

/-- A later iteration of `stopAllReading` keeps what an earlier one established. -/
theorem stopSection_preserves (s : State) (j sid : SectionId) (r : Nat)
    (hb : (s.el sid).button.isSome = true) (hr : s.readingState sid = some r)
    (h : (s.heap r).playing = false ∧ (s.heap r).paused = decide ((s.heap r).charIndex ≠ 0) ∧
      (hasIconButton (s.el sid) = true →
        showsAffordance (s.el sid) (if (s.heap r).charIndex = 0 then .stopped else .paused)
          = true)) :
    ((stopSection s j).heap r).playing = false ∧
      ((stopSection s j).heap r).paused = decide ((s.heap r).charIndex ≠ 0) ∧
      (hasIconButton (s.el sid) = true →
        showsAffordance ((stopSection s j).el sid)
          (if (s.heap r).charIndex = 0 then .stopped else .paused) = true) := by
  by_cases hj : j = sid
  · subst hj
    exact stopSection_establishes s j r hb hr
  · have hne : ¬ sid = j := fun e => hj e.symm
    obtain ⟨h1, h2, h3⟩ := h
    unfold stopSection
    simp only [State.modEl_fields, if_true]
    cases hbj : (s.el j).button <;> cases hrj : s.readingState j <;> simp only [] <;>
      (try split) <;> simp [hne] <;> (try split_ifs) <;> simp_all

/-- The loop of `stopAllReading`. -/
theorem foldl_stopSection (l : List SectionId) (s : State) :
    (l.foldl stopSection s).readingState = s.readingState ∧
      (l.foldl stopSection s).currentReadingSection = s.currentReadingSection ∧
      ∀ sid r, (s.el sid).button.isSome = true → s.readingState sid = some r →
        (sid ∈ l ∨ ((s.heap r).playing = false ∧
          (s.heap r).paused = decide ((s.heap r).charIndex ≠ 0) ∧
          (hasIconButton (s.el sid) = true →
            showsAffordance (s.el sid) (if (s.heap r).charIndex = 0 then .stopped else .paused)
              = true))) →
        ((l.foldl stopSection s).heap r).charIndex = (s.heap r).charIndex ∧
        ((l.foldl stopSection s).heap r).playing = false ∧
        ((l.foldl stopSection s).heap r).paused = decide ((s.heap r).charIndex ≠ 0) ∧
        (hasIconButton (s.el sid) = true →
          showsAffordance ((l.foldl stopSection s).el sid)
            (if (s.heap r).charIndex = 0 then .stopped else .paused) = true) := by
  induction l generalizing s with
  | nil =>
    refine ⟨rfl, rfl, fun sid r _ _ h => ?_⟩
    rcases h with h | h
    · simp at h
    · exact ⟨rfl, h⟩
  | cons j l ih =>
    obtain ⟨f1, f2, f3, f4, f5⟩ := stopSection_frame s j
    obtain ⟨i1, i2, i3⟩ := ih (stopSection s j)
    refine ⟨by simp [List.foldl, i1, f1], by simp [List.foldl, i2, f2], fun sid r hb hr h => ?_⟩
    have hb' : ((stopSection s j).el sid).button.isSome = true := by rw [f4]; exact hb
    have hr' : (stopSection s j).readingState sid = some r := by rw [f1]; exact hr
    have hc : ((stopSection s j).heap r).charIndex = (s.heap r).charIndex := f3 r
    have hi : hasIconButton ((stopSection s j).el sid) = hasIconButton (s.el sid) := f5 sid
    have step : (sid ∈ l ∨ (((stopSection s j).heap r).playing = false ∧
        ((stopSection s j).heap r).paused = decide (((stopSection s j).heap r).charIndex ≠ 0) ∧
        (hasIconButton ((stopSection s j).el sid) = true →
          showsAffordance ((stopSection s j).el sid)
            (if ((stopSection s j).heap r).charIndex = 0 then .stopped else .paused)
              = true))) := by
      rw [hc, hi]
      rcases h with h | h
      · rcases List.mem_cons.mp h with h | h
        · subst h; exact Or.inr (stopSection_establishes s sid r hb hr)
        · exact Or.inl h
      · exact Or.inr (stopSection_preserves s j sid r hb hr h)
    have := i3 sid r hb' hr' step
    rw [hc, hi] at this
    simpa [List.foldl] using this

/-- C4: with an engine present, `stopAllReading` clears the global pointer, and for every
section of the page that has a reader button and a record it leaves `playing = false`;
`paused = true` and the 'paused' affordance when `charIndex > 0`; `paused = false` and the
'stopped' affordance when `charIndex = 0` (the affordance is written when the button has its
icon span). -/
theorem stopAllReading_spec (s : State) (hs : s.supported = true) :
    (stopAllReading s).currentReadingSection = none ∧
      ∀ sid r, sid ∈ s.sections → (s.el sid).button.isSome = true →
        s.readingState sid = some r →
        (stopAllReading s).readingState sid = some r ∧
        ((stopAllReading s).heap r).charIndex = (s.heap r).charIndex ∧
        ((stopAllReading s).heap r).playing = false ∧
        (0 < (s.heap r).charIndex →
          ((stopAllReading s).heap r).paused = true ∧
          (hasIconButton (s.el sid) = true →
            showsAffordance ((stopAllReading s).el sid) .paused = true)) ∧
        ((s.heap r).charIndex = 0 →
          ((stopAllReading s).heap r).paused = false ∧
          (hasIconButton (s.el sid) = true →
            showsAffordance ((stopAllReading s).el sid) .stopped = true)) := by
  unfold stopAllReading
  simp only [hs, Bool.not_true, Bool.false_eq_true, if_false]
  obtain ⟨h1, h2, h3⟩ := foldl_stopSection s.sections ((s.engine .cancel).setPointer none)
  refine ⟨by simp [h2], fun sid r hmem hb hr => ?_⟩
  obtain ⟨a, b, c, d⟩ :=
    h3 sid r (by simpa using hb) (by simpa using hr) (Or.inl (by simpa using hmem))
  simp only [State.setPointer_fields, State.engine_fields] at a b c d
  refine ⟨by simp [h1, hr], a, b, fun hpos => ?_, fun hz => ?_⟩
  · have hne : (s.heap r).charIndex ≠ 0 := by omega
    refine ⟨by simp [c, hne], fun hi => ?_⟩
    simpa [hne] using d hi
  · refine ⟨by simp [c, hz], fun hi => ?_⟩
    simpa [hz] using d hi

set_option maxRecDepth 100000 in
/-- C4, witness: section 0 was paused at offset 120 by a hand-off and section 1 never got a
record beyond offset 0; after the page is hidden the pointer is null, section 0 is paused at
120 and section 1 is stopped at 0. -/
theorem stopAllReading_spec_witness :
    (stopAllReading (run (demoPage 500)
        [(idleAt 1000, .click 0), (speakingAt 1000, .onstart 0), (speakingAt 1800, .click 1)])
      ).currentReadingSection = none ∧
    (recordOf (stopAllReading (run (demoPage 500)
        [(idleAt 1000, .click 0), (speakingAt 1000, .onstart 0), (speakingAt 1800, .click 1)]))
      0).map (fun rec => (rec.playing, rec.paused, rec.charIndex)) = some (false, true, 120) ∧
    (recordOf (stopAllReading (run (demoPage 500)
        [(idleAt 1000, .click 0), (speakingAt 1000, .onstart 0), (speakingAt 1800, .click 1)]))
      1).map (fun rec => (rec.playing, rec.paused, rec.charIndex)) = some (false, false, 0) := by
  have h := stopAllReading_spec (run (demoPage 500)
    [(idleAt 1000, .click 0), (speakingAt 1000, .onstart 0), (speakingAt 1800, .click 1)])
    (by decide)
  refine ⟨h.1, ?_, ?_⟩
  · have h0 := h.2 0 0 (by decide) (by decide) (by decide)
    have h0p := (h0.2.2.2.1 (by decide)).1
    simp only [recordOf, h0.1, Option.map_some', h0.2.1, h0.2.2.1, h0p]
    decide
  · have h1 := h.2 1 1 (by decide) (by decide) (by decide)
    have h1p := (h1.2.2.2.2 (by decide)).1
    simp only [recordOf, h1.1, Option.map_some', h1.2.1, h1.2.2.1, h1p]
    decide

/-! ## `startReadingSection` -/

/-- The section that `startReadingSection` checkpoints is a section with a button, and the
record is the one the store holds for it. -/
theorem previousToPause_spec (env : Env) (sid : SectionId) (s : State) (ps : SectionId)
    (r : Nat) (h : previousToPause env sid s = some (ps, r)) :
    s.readingState ps = some r ∧ (s.el ps).button.isSome = true ∧
      (env.speaking = true ∧ env.paused = false) ∧
      ∃ p, s.currentReadingSection = some p ∧ p ≠ sid ∧
        (findSection s p = some ps ∨ (findSection s p = none ∧ lastPlayingButton s = some ps)) := by
  unfold previousToPause at h
  cases hp : s.currentReadingSection with
  | none => simp [hp] at h
  | some p =>
    simp only [hp] at h
    split at h
    · rename_i hc
      simp only [Bool.and_eq_true, Bool.not_eq_eq_eq_not, Bool.not_true, bne_iff_ne, ne_eq] at hc
      cases hf : findSection s p with
      | none =>
        simp only [hf] at h
        cases hl : lastPlayingButton s with
        | none => simp [hl] at h
        | some x =>
          simp only [hl] at h
          cases hr : s.readingState x <;> cases hb : (s.el x).button <;> simp [hr, hb] at h
          obtain ⟨rfl, rfl⟩ := h
          exact ⟨hr, by simp [hb], hc.1, p, rfl, hc.2, Or.inr ⟨hf, rfl⟩⟩
      | some x =>
        simp only [hf] at h
        cases hr : s.readingState x <;> cases hb : (s.el x).button <;> simp [hr, hb] at h
        obtain ⟨rfl, rfl⟩ := h
        exact ⟨hr, by simp [hb], hc.1, p, rfl, hc.2, Or.inl hf⟩
    · simp at h

/-- The content, menu and button presence of every section after the inline checkpoint of
`startReadingSection`, and the fields it leaves untouched. -/
theorem pausePrevious_frame (env : Env) (sid : SectionId) (s : State) :
    (pausePrevious env sid s).currentReadingSection = s.currentReadingSection ∧
      (pausePrevious env sid s).nextRef = s.nextRef ∧
      (pausePrevious env sid s).nextUtterance = s.nextUtterance ∧
      (pausePrevious env sid s).utterances = s.utterances ∧
      (pausePrevious env sid s).sections = s.sections ∧
      (pausePrevious env sid s).timers = s.timers ∧
      (∀ i, (pausePrevious env sid s).readingState i = s.readingState i) ∧
      (∀ i, ((pausePrevious env sid s).el i).content = (s.el i).content) ∧
      (∀ i, ((pausePrevious env sid s).el i).menu = (s.el i).menu) := by
  unfold pausePrevious
  cases h : previousToPause env sid s with
  | none => simp
  | some t =>
    obtain ⟨ps, r⟩ := t
    have hr := (previousToPause_spec env sid s ps r h).1
    refine ⟨by simp [inlineCheckpoint], by simp [inlineCheckpoint], by simp [inlineCheckpoint],
      by simp [inlineCheckpoint], by simp [inlineCheckpoint], by simp [inlineCheckpoint],
      fun i => ?_, fun i => ?_, fun i => ?_⟩ <;>
    simp [inlineCheckpoint] <;> (try split_ifs) <;> simp_all

/-! ## Restart from the resume menu (C5) -/

/-- C5: choosing "Restart from Beginning" in the open resume menu of a section whose
rendered text `T` is not empty stores a new record for the section with `charIndex = 0`,
`fullText = T`, `playing = true`, `paused = false`, sets the global pointer to the section,
and the last engine call is `speak` of a new utterance whose text is the whole of `T`. -/
theorem restart_resets (env : Env) (s : State) (sid : SectionId) (m : Nat) (T : Text)
    (hmenu : (s.el sid).menu = some m) (hT : (s.el sid).content = some T) (hne : T ≠ []) :
    (step env (.chooseRestart sid) s).readingState sid = some s.nextRef ∧
      (step env (.chooseRestart sid) s).heap s.nextRef =
        { playing := true, paused := false, utterance := some s.nextUtterance, charIndex := 0,
          fullText := T, startTime := some env.now } ∧
      (step env (.chooseRestart sid) s).currentReadingSection = some sid ∧
      (step env (.chooseRestart sid) s).engineLog.getLast? = some (.speak s.nextUtterance) ∧
      ((step env (.chooseRestart sid) s).utterances s.nextUtterance).text = T ∧
      ((step env (.chooseRestart sid) s).el sid).menu = none := by
  have hT' : T.isEmpty = false := by cases T <;> simp_all
  obtain ⟨f1, f2, f3, f4, f5, f6, f7, f8, f9⟩ :=
    pausePrevious_frame env sid ((s.modEl sid fun e => { e with menu := none }).allocRecord sid)
  have hc : ((pausePrevious env sid
      ((s.modEl sid fun e => { e with menu := none }).allocRecord sid)).el sid).content
        = some T := by
    rw [f8]; simp [hT]
  have hst : (pausePrevious env sid
      ((s.modEl sid fun e => { e with menu := none }).allocRecord sid)).readingState sid
        = some s.nextRef := by
    rw [f7]; simp
  simp only [step, chooseRestart, hmenu, startReadingSection, State.engineWhen_fields, hc, hT']
  simp [beginUtterance, ensureRecord, hst, f3, f9, newUtterance]

set_option maxRecDepth 100000 in
/-- C5, witness: section 0 is paused at offset 120 with its resume menu open; choosing
restart at time 3000 gives it a new record with offset 0, the full 500 characters, playing,
not paused, and the pointer names section 0. -/
theorem restart_resets_witness :
    (recordOf (run (demoPage 500) pausedWithMenu) 0).map
        (fun rec => (rec.paused, rec.charIndex)) = some (true, 120) ∧
    (recordOf (step (pausedAt 3000) (.chooseRestart 0) (run (demoPage 500) pausedWithMenu))
        0).map (fun rec => (rec.playing, rec.paused, rec.charIndex, rec.fullText.length)) =
      some (true, false, 0, 500) ∧
    (step (pausedAt 3000) (.chooseRestart 0)
      (run (demoPage 500) pausedWithMenu)).currentReadingSection = some 0 := by
  have h := restart_resets (pausedAt 3000) (run (demoPage 500) pausedWithMenu) 0 0
    (List.replicate 500 'a') (by decide) (by decide) (by decide)
  refine ⟨by decide, ?_, h.2.2.1⟩
  simp only [recordOf, h.1, Option.map_some', h.2.1]
  decide

/-! ## The resume menu opens only on a resumable record (C6) -/

@[simp]
theorem ite_menu (c : Prop) [Decidable c] (a b : SectionEl) :
    (if c then a else b).menu = if c then a.menu else b.menu := by
  split_ifs <;> rfl

@[simp]
theorem ite_content (c : Prop) [Decidable c] (a b : SectionEl) :
    (if c then a else b).content = if c then a.content else b.content := by
  split_ifs <;> rfl

/-- Changing one section by a function that keeps the menu keeps every menu. -/
theorem modEl_menu (s : State) (sid : SectionId) (f : SectionEl → SectionEl)
    (hf : ∀ e, (f e).menu = e.menu) (i : SectionId) :
    ((s.modEl sid f).el i).menu = (s.el i).menu := by
  simp only [State.modEl_fields, ite_menu, hf]
  split_ifs with h
  · rw [h]
  · rfl

theorem startReadingSection_menu (env : Env) (sid : SectionId) (k : Int) (s : State)
    (i : SectionId) : ((startReadingSection env sid k s).el i).menu = (s.el i).menu := by
  obtain ⟨-, -, -, -, -, -, -, -, f9⟩ := pausePrevious_frame env sid s
  unfold startReadingSection
  simp only [State.engineWhen_fields]
  split
  · simp [f9]
  · split <;> simp [f9, beginUtterance]

theorem preserveSection_menu (s : State) (j i : SectionId) :
    ((preserveSection s j).el i).menu = (s.el i).menu := by
  unfold preserveSection
  split
  · split
    · split
      · simp only [State.setStore_fields, State.modRec_fields, State.modEl_fields]
        split_ifs <;> simp_all
      · rfl
    · rfl
  · rfl

theorem preserveOtherSectionsPausedState_menu (s : State) (i : SectionId) :
    ((preserveOtherSectionsPausedState s).el i).menu = (s.el i).menu := by
  unfold preserveOtherSectionsPausedState
  generalize s.sections = l
  induction l generalizing s with
  | nil => rfl
  | cons j l ih => simp [List.foldl, ih, preserveSection_menu]

theorem handoff_menu (env : Env) (sid : SectionId) (p : Bool) (s : State) (i : SectionId) :
    ((handoff env sid p s).el i).menu = (s.el i).menu := by
  unfold handoff
  cases handoffTarget s with
  | none => simp
  | some t => simp [handoffCheckpoint]

theorem fallback_menu (env : Env) (sid : SectionId) (s : State) (i : SectionId) :
    ((fallback env sid s).el i).menu = (s.el i).menu := by
  unfold fallback
  cases fallbackTarget s with
  | none => simp
  | some t => simp [fallbackCheckpoint]

theorem clickPause_menu (env : Env) (sid : SectionId) (r : Nat) (s : State) (i : SectionId) :
    ((clickPause env sid r s).el i).menu = (s.el i).menu := by
  simp [clickPause]

/-- What `showReadingResumeOptions` does to the menus: an open menu of another section stays;
the section's own menu is opened only from closed and only on a record with an offset and a
text. -/
theorem showReadingResumeOptions_menu (env : Env) (sid : SectionId) (r : Nat) (s : State)
    (i : SectionId) (m : Nat) (h0 : (s.el i).menu = none)
    (h1 : ((showReadingResumeOptions env sid r s).el i).menu = some m) :
    i = sid ∧ m = r ∧ (s.heap r).charIndex ≠ 0 ∧ (s.heap r).fullText ≠ [] := by
  unfold showReadingResumeOptions at h1
  cases hm : (s.el sid).menu with
  | some x =>
    simp only [hm, State.modEl_fields] at h1
    split_ifs at h1
    simp_all
  | none =>
    simp only [hm] at h1
    split_ifs at h1 with hc
    · rw [startReadingSection_menu] at h1; simp_all
    · simp only [State.modEl_fields] at h1
      split_ifs at h1 with hi
      · simp at hc
        simp at h1
        exact ⟨hi, h1.symm, hc.1, hc.2⟩
      · simp_all

theorem stopSection_menu (s : State) (j i : SectionId) :
    ((stopSection s j).el i).menu = (s.el i).menu := by
  unfold stopSection
  simp only [State.modEl_fields, if_true]
  cases (s.el j).button <;> cases s.readingState j <;> simp only [] <;> (try split) <;>
    simp

theorem stopAllReading_menu (s : State) (i : SectionId) :
    ((stopAllReading s).el i).menu = (s.el i).menu := by
  unfold stopAllReading
  split
  · rfl
  · have : ∀ (l : List SectionId) (t : State),
        ((l.foldl stopSection t).el i).menu = (t.el i).menu := by
      intro l
      induction l with
      | nil => intro t; rfl
      | cons j l ih => intro t; simp [List.foldl, ih, stopSection_menu]
    rw [this]; simp

theorem toggleSectionReading_menu (env : Env) (sid : SectionId) (s : State) (i : SectionId)
    (m : Nat) (h0 : (s.el i).menu = none)
    (h1 : ((toggleSectionReading env sid s).el i).menu = some m) :
    s.readingState i = some m ∧ resumable (s.heap m) = true := by
  unfold toggleSectionReading at h1
  split_ifs at h1 with hsup
  · simp [h0] at h1
  · cases hb : (s.el sid).button with
    | none => simp [hb, h0] at h1
    | some b =>
      simp only [hb] at h1
      split_ifs at h1 with c1 c2 c3 c4 c5
      · rw [handoff_menu] at h1; simp [h0] at h1
      · rw [clickPause_menu] at h1; simp [h0] at h1
      · obtain ⟨rfl, rfl, -, -⟩ :=
          showReadingResumeOptions_menu env sid _ _ i m (by simpa using h0) h1
        rcases (ensureRecord_store s i).2.2.2.2 with ⟨hr, hs⟩ | ⟨hr, hn, hs⟩
        · rw [hs] at c4; exact ⟨hr, c4⟩
        · rw [hs, hn] at c4
          simp [resumable, freshRecord] at c4
      · rw [startReadingSection_menu] at h1; simp [h0] at h1
      · simp only [State.setStore_fields] at h1
        rw [fallback_menu] at h1; simp [h0] at h1
      · simp only [State.setStore_fields] at h1
        rw [startReadingSection_menu] at h1; simp [h0] at h1

/-- C6: when a step of the module opens the resume menu of a section (the menu was closed
before and is open after), the menu captures the record the store holds for that section and
that record satisfies `0 < charIndex < fullText.length`; no other event than an activation
(a click, or the settle continuation of a hand-off) opens a menu. -/
theorem menu_opens_only_when_resumable (env : Env) (ev : Event) (s : State) (sid : SectionId)
    (m : Nat) (h0 : (s.el sid).menu = none) (h1 : ((step env ev s).el sid).menu = some m) :
    s.readingState sid = some m ∧ 0 < (s.heap m).charIndex ∧
      (s.heap m).charIndex < ((s.heap m).fullText.length : Int) ∧
      ((∃ c, ev = .click c) ∨ (∃ i, ev = .timer i)) := by
  have key : (s.readingState sid = some m ∧ resumable (s.heap m) = true) ∧
      ((∃ c, ev = .click c) ∨ (∃ i, ev = .timer i)) := by
    cases ev with
    | click c =>
      refine ⟨?_, Or.inl ⟨c, rfl⟩⟩
      simp only [step] at h1
      split_ifs at h1
      · exact toggleSectionReading_menu env c s sid m h0 h1
      · simp [h0] at h1
    | timer i =>
      refine ⟨?_, Or.inr ⟨i, rfl⟩⟩
      simp only [step] at h1
      split at h1
      · simp [h0] at h1
      · rename_i t ht
        cases t with
        | handoffCancel c p =>
          simp only [runTimer, handoffCancel, State.setTimeout_fields, startPausedStatePreserver]
            at h1
          rw [preserveOtherSectionsPausedState_menu] at h1
          simp [h0] at h1
        | handoffStart c p =>
          simp only [runTimer, handoffStart] at h1
          cases hr : s.readingState c with
          | none =>
            simp only [hr] at h1
            rw [startReadingSection_menu, preserveOtherSectionsPausedState_menu] at h1
            simp [h0] at h1
          | some r =>
            simp only [hr] at h1
            split_ifs at h1 with hc
            · obtain ⟨rfl, rfl, -, -⟩ :=
                showReadingResumeOptions_menu env c r _ sid m (by simpa using h0) h1
              simp only [Bool.and_eq_true] at hc
              exact ⟨hr, hc.2⟩
            · rw [startReadingSection_menu, preserveOtherSectionsPausedState_menu] at h1
              simp [h0] at h1
        | fallbackCancel c =>
          simp [runTimer, fallbackCancel, h0] at h1
        | fallbackStart c =>
          simp only [runTimer] at h1
          rw [startReadingSection_menu] at h1
          simp [h0] at h1
        | preserveKick =>
          simp only [runTimer, startPausedStatePreserver] at h1
          rw [preserveOtherSectionsPausedState_menu] at h1
          simp [h0] at h1
    | chooseRestart c =>
      exfalso
      simp only [step, chooseRestart] at h1
      split at h1
      · simp [h0] at h1
      · rw [startReadingSection_menu] at h1
        simp at h1; simp_all
    | chooseContinue c =>
      exfalso
      simp only [step, chooseContinue] at h1
      split at h1
      · simp [h0] at h1
      · rw [startReadingSection_menu] at h1
        simp at h1; simp_all
    | dismissMenu c =>
      exfalso
      simp [step, dismissMenu] at h1; simp_all
    | onstart u =>
      exfalso
      simp only [step] at h1
      split_ifs at h1
      · simp [onstart] at h1; simp_all
      · simp_all
    | onend u =>
      exfalso
      simp only [step] at h1
      split_ifs at h1
      · simp [onend] at h1; simp_all
      · simp_all
    | onerror u =>
      exfalso
      simp only [step] at h1
      split_ifs at h1
      · simp [onerror] at h1; simp_all
      · simp_all
    | onboundary u w c =>
      exfalso
      simp only [step, onboundary] at h1
      split_ifs at h1
      · split at h1
        · simp_all
        · split_ifs at h1
          · split at h1 <;> simp_all
          · simp_all
      · simp_all
    | onpause u =>
      exfalso
      simp only [step] at h1
      split_ifs at h1
      · simp [onpause] at h1; simp_all
      · simp_all
    | onresume u =>
      exfalso
      simp only [step] at h1
      split_ifs at h1
      · simp [onresume] at h1; simp_all
      · simp_all
    | hidden =>
      exfalso
      simp only [step] at h1
      rw [stopAllReading_menu] at h1; simp [h0] at h1
    | tick =>
      exfalso
      simp only [step, intervalTick] at h1
      split at h1
      · simp [h0] at h1
      · simp only [] at h1
        rw [preserveOtherSectionsPausedState_menu] at h1; simp [h0] at h1
    | contentChanged c t =>
      exfalso
      simp [step] at h1; simp_all
  obtain ⟨⟨hr, hres⟩, hev⟩ := key
  simp only [resumable, Bool.and_eq_true, decide_eq_true_eq] at hres
  exact ⟨hr, hres.1.1, hres.2, hev⟩

set_option maxRecDepth 100000 in
/-- C6, witness: section 0 is paused at offset 120 of 500; the next click opens its resume
menu, and the record satisfies `0 < 120 < 500`. -/
theorem menu_opens_only_when_resumable_witness :
    ((step (pausedAt 2000) (.click 0) (run (demoPage 500) pausedAtOffset)).el 0).menu =
        some 0 ∧
      (run (demoPage 500) pausedAtOffset).readingState 0 = some 0 ∧
      0 < ((run (demoPage 500) pausedAtOffset).heap 0).charIndex ∧
      ((run (demoPage 500) pausedAtOffset).heap 0).charIndex <
        ((((run (demoPage 500) pausedAtOffset).heap 0).fullText.length : Nat) : Int) :=
  ⟨by decide,
    (menu_opens_only_when_resumable (pausedAt 2000) (.click 0)
      (run (demoPage 500) pausedAtOffset) 0 0 (by decide) (by decide)).1,
    (menu_opens_only_when_resumable (pausedAt 2000) (.click 0)
      (run (demoPage 500) pausedAtOffset) 0 0 (by decide) (by decide)).2.1,
    (menu_opens_only_when_resumable (pausedAt 2000) (.click 0)
      (run (demoPage 500) pausedAtOffset) 0 0 (by decide) (by decide)).2.2.1⟩

/-! ## Continue, then pause (C10) -/

theorem estimatedChars_nonneg (t : Int) (h : 0 ≤ t) : 0 ≤ estimatedChars t := by
  unfold estimatedChars
  simp only [h, if_true]
  exact Int.natCast_nonneg _

/-- A checkpoint taken at or after `startTime` does not lower an offset that is within the
text. -/
theorem checkpoint_charIndex_ge (now : Int) (rec : ReadingRecord)
    (hb : rec.charIndex ≤ (rec.fullText.length : Int))
    (ht : ∀ st, rec.startTime = some st → st ≤ now) :
    rec.charIndex ≤ (checkpoint now rec).charIndex := by
  unfold checkpoint
  cases hst : rec.startTime with
  | none => simp
  | some st =>
    simp only []
    split_ifs
    · exact le_refl _
    · have := estimatedChars_nonneg (now - st) (by have := ht st hst; omega)
      simp only [le_min_iff]
      exact ⟨hb, by omega⟩

theorem pausePrevious_fullText (env : Env) (sid : SectionId) (s : State) (i : Nat) :
    ((pausePrevious env sid s).heap i).fullText = (s.heap i).fullText := by
  unfold pausePrevious
  cases h : previousToPause env sid s with
  | none => rfl
  | some t =>
    simp only [inlineCheckpoint, State.setStore_fields, State.modEl_fields,
      State.modRec_fields, State.engineWhen_fields]
    split_ifs <;> simp

@[simp]
theorem ensureRecord_engineWhen (s : State) (c : Bool) (op : EngineOp) (sid : SectionId) :
    (ensureRecord (s.engineWhen c op) sid).2 = (ensureRecord s sid).2 ∧
      (ensureRecord (s.engineWhen c op) sid).1.heap = (ensureRecord s sid).1.heap ∧
      (ensureRecord (s.engineWhen c op) sid).1.readingState =
        (ensureRecord s sid).1.readingState ∧
      (ensureRecord (s.engineWhen c op) sid).1.nextRef = (ensureRecord s sid).1.nextRef := by
  unfold ensureRecord
  simp only [State.engineWhen_fields]
  cases s.readingState sid <;> simp [State.allocRecord, State.engineWhen]

/-- The state after `startReadingSection` on a section with a non-empty text: the record,
the new utterance, the store, the pointer and the engine log. -/
theorem startReadingSection_started (env : Env) (sid : SectionId) (k : Int) (s : State)
    (T : Text) (hT : (s.el sid).content = some T) (hne : T ≠ []) :
    (startReadingSection env sid k s).readingState sid =
        some (ensureRecord (pausePrevious env sid s) sid).2 ∧
      (startReadingSection env sid k s).heap (ensureRecord (pausePrevious env sid s) sid).2 =
        { playing := true, paused := false, utterance := some s.nextUtterance
          charIndex := if 0 < k then k else 0
          fullText :=
            if ((ensureRecord (pausePrevious env sid s) sid).1.heap
                (ensureRecord (pausePrevious env sid s) sid).2).fullText.isEmpty || k == 0
            then T
            else ((ensureRecord (pausePrevious env sid s) sid).1.heap
                (ensureRecord (pausePrevious env sid s) sid).2).fullText
          startTime := some env.now } ∧
      (startReadingSection env sid k s).currentReadingSection = some sid ∧
      (startReadingSection env sid k s).nextUtterance = s.nextUtterance + 1 ∧
      (startReadingSection env sid k s).utterances s.nextUtterance =
        newUtterance (if 0 < k then T.drop k.toNat else T) sid
          (ensureRecord (pausePrevious env sid s) sid).2 k ∧
      (startReadingSection env sid k s).el = (pausePrevious env sid s).el ∧
      (startReadingSection env sid k s).supported = s.supported ∧
      (startReadingSection env sid k s).sections = s.sections := by
  have hT' : T.isEmpty = false := by cases T <;> simp_all
  obtain ⟨f1, f2, f3, f4, f5, f6, f7, f8, f9⟩ := pausePrevious_frame env sid s
  have hc : ((pausePrevious env sid s).el sid).content = some T := by rw [f8]; exact hT
  have hsup : (pausePrevious env sid s).supported = s.supported := by
    unfold pausePrevious
    cases previousToPause env sid s <;> simp [inlineCheckpoint]
  simp only [startReadingSection, State.engineWhen_fields, hc, hT']
  simp [beginUtterance, f3, f5, hsup]

theorem pausePrevious_button (env : Env) (sid : SectionId) (s : State) (i : SectionId) :
    ((pausePrevious env sid s).el i).button.isSome = (s.el i).button.isSome ∧
      hasIconButton ((pausePrevious env sid s).el i) = hasIconButton (s.el i) := by
  unfold pausePrevious
  cases h : previousToPause env sid s with
  | none => exact ⟨rfl, rfl⟩
  | some t =>
    simp only [inlineCheckpoint, State.setStore_fields, State.modEl_fields,
      State.modRec_fields, State.engineWhen_fields]
    split_ifs with hi
    · subst hi; simp
    · simp

theorem buttonIsPlaying_of_shows (e : SectionEl) (b : Button) (hb : e.button = some b)
    (h : showsAffordance e .playing = true) : buttonIsPlaying b = true := by
  simp [showsAffordance, hb] at h
  simp [buttonIsPlaying, h.1.1.1]

/-- C10: a section whose open resume menu holds its stored record, with saved offset `k`
(`0 < k < fullText.length`), is continued; its utterance starts at time `t1`; a click at a
later time `t2 ≥ t1` pauses it.  Afterwards the record is paused and its `charIndex` is at
least `k`. -/
theorem continue_then_pause_keeps_offset (env0 env1 env2 : Env) (s : State) (sid : SectionId)
    (m : Nat) (T : Text) (hs : s.supported = true) (hsec : sid ∈ s.sections)
    (hicon : hasIconButton (s.el sid) = true) (hmenu : (s.el sid).menu = some m)
    (hstore : s.readingState sid = some m) (hk0 : 0 < (s.heap m).charIndex)
    (hk1 : (s.heap m).charIndex < ((s.heap m).fullText.length : Int))
    (hT : (s.el sid).content = some T) (hne : T ≠ []) (h12 : env1.now ≤ env2.now) :
    (run s [(env0, .chooseContinue sid), (env1, .onstart s.nextUtterance),
        (env2, .click sid)]).readingState sid = some m ∧
      (s.heap m).charIndex ≤
        ((run s [(env0, .chooseContinue sid), (env1, .onstart s.nextUtterance),
          (env2, .click sid)]).heap m).charIndex ∧
      ((run s [(env0, .chooseContinue sid), (env1, .onstart s.nextUtterance),
          (env2, .click sid)]).heap m).paused = true ∧
      ((run s [(env0, .chooseContinue sid), (env1, .onstart s.nextUtterance),
          (env2, .click sid)]).heap m).playing = false := by
  -- the state in which `startReadingSection` is entered
  set s0 : State := s.modEl sid fun e => { e with menu := none } with hs0
  have hT0 : (s0.el sid).content = some T := by simp [hs0, hT]
  have hst0 : (pausePrevious env0 sid s0).readingState sid = some m := by
    rw [(pausePrevious_frame env0 sid s0).2.2.2.2.2.2.1]; simp [hs0, hstore]
  have hen : ensureRecord (pausePrevious env0 sid s0) sid = (pausePrevious env0 sid s0, m) := by
    simp [ensureRecord, hst0]
  have hft : ((pausePrevious env0 sid s0).heap m).fullText = (s.heap m).fullText := by
    rw [pausePrevious_fullText]; simp [hs0]
  have hfne : (s.heap m).fullText.isEmpty = false := by
    cases hf : (s.heap m).fullText with
    | nil => rw [hf] at hk1; simp at hk1; omega
    | cons a l => rfl
  have hkne : ((s.heap m).charIndex == 0) = false := by
    simp; omega
  obtain ⟨a1, a2, a3, a4, a5, a6, a7, a8⟩ :=
    startReadingSection_started env0 sid (s.heap m).charIndex s0 T hT0 hne
  rw [hen] at a1 a2 a5
  simp only [hft, hfne, hkne, Bool.or_false, hk0, if_true, Bool.false_eq_true, if_false] at a2
  have hnu : s0.nextUtterance = s.nextUtterance := rfl
  rw [hnu] at a2 a4 a5
  have e1 : step env0 (.chooseContinue sid) s = startReadingSection env0 sid (s.heap m).charIndex s0 := by
    simp [step, chooseContinue, hmenu, hs0]
  -- the state after `onstart`
  set s1 := startReadingSection env0 sid (s.heap m).charIndex s0 with hs1
  have g1 : s.nextUtterance < s1.nextUtterance ∧ (s1.utterances s.nextUtterance).onstart = true := by
    rw [a4, a5]; exact ⟨Nat.lt_succ_self _, rfl⟩
  have e2 : step env1 (.onstart s.nextUtterance) s1 = onstart env1 s.nextUtterance s1 := by
    simp [step, g1]
  set s2 := onstart env1 s.nextUtterance s1 with hs2
  have hicon1 : hasIconButton (s1.el sid) = true := by
    rw [a6, (pausePrevious_button env0 sid s0 sid).2]
    simpa [hs0, hasIconButton] using hicon
  have b1 : s2.readingState sid = some m := by
    simp [hs2, onstart, a1]
  have b2 : s2.heap m = { s1.heap m with playing := true, paused := false, startTime := some env1.now } := by
    simp [hs2, onstart, a5, newUtterance]
  have b3 : s2.currentReadingSection = some sid := by simp [hs2, onstart, a3]
  have b4 : showsAffordance (s2.el sid) .playing = true := by
    simp only [hs2, onstart, a5, newUtterance, State.announce_fields, State.setTimeout_fields,
      State.modEl_fields, if_true]
    apply updateReadingButton_shows
    simpa [hasIconButton] using hicon1
  have b5 : s2.supported = true := by simp [hs2, onstart, a7, hs0, hs]
  have b6 : s2.sections = s.sections := by simp [hs2, onstart, a8, hs0]
  -- the click
  obtain ⟨b, hb⟩ : ∃ b, (s2.el sid).button = some b := by
    cases hbb : (s2.el sid).button with
    | none => simp [showsAffordance, hbb] at b4
    | some b => exact ⟨b, rfl⟩
  have hplay : buttonIsPlaying b = true := buttonIsPlaying_of_shows _ b hb b4
  have hen2 : ensureRecord s2 sid = (s2, m) := by simp [ensureRecord, b1]
  have e3 : step env2 (.click sid) s2 = clickPause env2 sid m s2 := by
    simp [step, b6, hsec, hb, toggleSectionReading, b5, hen2, hasAnotherSectionPlaying,
      isThisSectionPlaying, b3, hplay]
  have c1 : (clickPause env2 sid m s2).heap m =
      checkpoint env2.now { s2.heap m with paused := true, playing := false } := by
    simp [clickPause]
  have hrun : run s [(env0, .chooseContinue sid), (env1, .onstart s.nextUtterance),
      (env2, .click sid)] = clickPause env2 sid m s2 := by
    simp only [run, e1, e2, e3]
  rw [hrun, c1]
  refine ⟨by simp [clickPause], ?_, by simp, by simp⟩
  have hci : (s.heap m).charIndex =
      ({ s2.heap m with paused := true, playing := false } : ReadingRecord).charIndex := by
    simp [b2, a2]
  rw [hci]
  apply checkpoint_charIndex_ge
  · simp [b2, a2]; omega
  · intro st hst
    simp [b2] at hst
    omega

set_option maxRecDepth 100000 in
/-- C10, witness: section 0, paused at offset 120 with its menu open, is continued at time
3000, starts speaking at 3100 and is paused by a click at the same instant; its offset is
still at least 120. -/
theorem continue_then_pause_keeps_offset_witness :
    ((run (demoPage 500) pausedWithMenu).heap 0).charIndex = 120 ∧
      ((run (demoPage 500) pausedWithMenu).heap 0).charIndex ≤
        ((run (run (demoPage 500) pausedWithMenu)
          [(pausedAt 3000, .chooseContinue 0), (speakingAt 3100, .onstart 1),
            (speakingAt 3100, .click 0)]).heap 0).charIndex :=
  ⟨by decide,
    (continue_then_pause_keeps_offset (pausedAt 3000) (speakingAt 3100) (speakingAt 3100)
      (run (demoPage 500) pausedWithMenu) 0 0 (List.replicate 500 'a') (by decide) (by decide)
      (by decide) (by decide) (by decide) (by decide) (by decide) (by decide) (by decide)
      (by decide)).2.1⟩

/-! ## Callbacks of a superseded utterance (C7, C8, C2) -/

set_option maxRecDepth 100000 in
/-- C7, the code at the failing input: after "Continue from Here" the record of section 0
holds utterance 1 as its handle, is playing, and the pointer names section 0.  The `onend`
handler of the superseded utterance 0 (the engine's end event for the cancelled utterance)
then sets `playing = false`, replaces the 'paused' affordance by 'stopped' and clears the
pointer. -/
theorem stale_onend_changes_state :
    ((recordOf (run (demoPage 500) continuedFromMenu) 0).map
        fun rec => (rec.utterance, rec.playing)) = some (some 1, true) ∧
      ((run (demoPage 500) continuedFromMenu).utterances 0).sectionId = 0 ∧
      (run (demoPage 500) continuedFromMenu).currentReadingSection = some 0 ∧
      showsAffordance ((run (demoPage 500) continuedFromMenu).el 0) .paused = true ∧
      ((recordOf (step (idleAt 3010) (.onend 0) (run (demoPage 500) continuedFromMenu)) 0).map
        fun rec => (rec.utterance, rec.playing)) = some (some 1, false) ∧
      (step (idleAt 3010) (.onend 0)
        (run (demoPage 500) continuedFromMenu)).currentReadingSection = none ∧
      showsAffordance ((step (idleAt 3010) (.onend 0)
        (run (demoPage 500) continuedFromMenu)).el 0) .stopped = true := by
  decide

set_option maxRecDepth 100000 in
/-- C8, the code at the failing input: section 1 is playing utterance 1 and section 0 has
its resume menu open; "Continue from Here" for section 0, with the engine speaking, issues
`pause`, `cancel` and `speak` of utterance 2, and at that point all six callback slots of
utterance 1 still hold their handlers and section 1's record still has utterance 1 as its
handle. -/
theorem inline_handoff_speaks_before_detach :
    ((recordOf (run (demoPage 500) secondSectionPlaying) 1).map
        fun rec => (rec.utterance, rec.playing)) = some (some 1, true) ∧
      (run (demoPage 500) secondSectionPlaying).currentReadingSection = some 1 ∧
      ((step (speakingAt 4000) (.chooseContinue 0)
        (run (demoPage 500) secondSectionPlaying)).engineLog.drop 4) =
          [.pause, .cancel, .speak 2] ∧
      ((step (speakingAt 4000) (.chooseContinue 0)
        (run (demoPage 500) secondSectionPlaying)).utterances 1) =
          newUtterance (List.replicate 500 'a') 1 1 0 ∧
      ((recordOf (step (speakingAt 4000) (.chooseContinue 0)
        (run (demoPage 500) secondSectionPlaying)) 1).map
          fun rec => (rec.utterance, rec.playing, rec.paused)) = some (some 1, false, true) := by
  decide

set_option maxRecDepth 100000 in
/-- C2, the code at the failing input `staleRecordTrace`: "Restart" (7 events) stores a second
record, of 100 characters; the `onend` of the cancelled utterance 0 (8 events) puts the first
record, at offset 120 of 500, back in the store; the second click (12 events) opens the menu
on the first record, checkpointed at 300; the `onpause` of utterance 1 (13 events) puts the
second record back; "Continue" then writes the menu record's offset into it: the stored
record of section 0 ends with `charIndex = 300` and a `fullText` of 100 characters. -/
theorem unclamped_startFromIndex_exceeds_text :
    ((run (demoPage 500) (staleRecordTrace.take 7)).readingState 0 = some 1 ∧
      ((recordOf (run (demoPage 500) (staleRecordTrace.take 7)) 0).map
        fun rec => (rec.charIndex, rec.fullText.length)) = some (0, 100)) ∧
    ((run (demoPage 500) (staleRecordTrace.take 8)).readingState 0 = some 0 ∧
      ((recordOf (run (demoPage 500) (staleRecordTrace.take 8)) 0).map
        fun rec => (rec.charIndex, rec.fullText.length)) = some (120, 500)) ∧
    (((run (demoPage 500) (staleRecordTrace.take 12)).el 0).menu = some 0 ∧
      ((recordOf (run (demoPage 500) (staleRecordTrace.take 12)) 0).map
        fun rec => (rec.charIndex, rec.fullText.length)) = some (300, 500)) ∧
    (run (demoPage 500) (staleRecordTrace.take 13)).readingState 0 = some 1 ∧
    ((recordOf (run (demoPage 500) staleRecordTrace) 0).map
        fun rec => (rec.charIndex, rec.fullText.length)) = some (300, 100) := by
  decide

/-! ## Offset monotonicity within a run (C9) -/

set_option maxRecDepth 100000 in
/-- C9, counterexample: section 0 plays; a word boundary sets its offset to 10; the engine's
pause at time 2000 extrapolates it to 160 and the resume at time 3000 marks it playing again;
the next word boundary, at offset 20, lowers `charIndex` from 160 to 20 while the section is
playing before and after. -/
theorem boundary_after_pause_lowers_offset :
    ((recordOf (run (demoPage 500) pausedAndResumed) 0).map
        fun rec => (rec.playing, rec.charIndex)) = some (true, 160) ∧
      ((recordOf (step (speakingAt 3100) (.onboundary 0 true (some 20))
        (run (demoPage 500) pausedAndResumed)) 0).map
          fun rec => (rec.playing, rec.charIndex)) = some (true, 20) := by
  decide

/-- C9, as amended: for the utterance `u` that is the current handle of the record `r` of its
section, with `charIndex ≤ fullText.length` and a clock not before `startTime`: the `onpause`
step does not lower `charIndex`, the `onresume` step leaves it unchanged, a click that pauses
the section does not lower it, and a word-boundary step does not lower it when the position
it reports, `startFromIndex + c`, is at least the current `charIndex`. -/
theorem charIndex_steps_monotone (env : Env) (s : State) (u r : Nat) (sid : SectionId)
    (hr : (s.utterances u).readingState = r) (hsid : (s.utterances u).sectionId = sid)
    (hst : s.readingState sid = some r) (hcur : (s.heap r).utterance = some u)
    (hb : (s.heap r).charIndex ≤ ((s.heap r).fullText.length : Int))
    (ht : ∀ st, (s.heap r).startTime = some st → st ≤ env.now) :
    (s.heap r).charIndex ≤ ((step env (.onpause u) s).heap r).charIndex ∧
      ((step env (.onresume u) s).heap r).charIndex = (s.heap r).charIndex ∧
      (∀ c : Nat, (s.heap r).charIndex ≤ (s.utterances u).startFromIndex + (c : Int) →
        (s.heap r).charIndex ≤ ((step env (.onboundary u true (some c)) s).heap r).charIndex) ∧
      (∀ b, s.supported = true → sid ∈ s.sections → (s.el sid).button = some b →
        buttonIsPlaying b = true → s.currentReadingSection = some sid →
        (s.heap r).charIndex ≤ ((step env (.click sid) s).heap r).charIndex) := by
  have hck : ∀ rec : ReadingRecord, rec.charIndex = (s.heap r).charIndex →
      rec.fullText = (s.heap r).fullText → rec.startTime = (s.heap r).startTime →
      (s.heap r).charIndex ≤ (checkpoint env.now rec).charIndex := by
    intro rec h1 h2 h3
    rw [← h1]
    apply checkpoint_charIndex_ge
    · rw [h1, h2]; exact hb
    · intro st hs; rw [h3] at hs; exact ht st hs
  refine ⟨?_, ?_, ?_, ?_⟩
  · simp only [step]
    split_ifs
    · simp only [onpause, hr, hsid, State.setStore_fields, State.modEl_fields,
        State.modRec_fields, if_true]
      exact hck _ rfl rfl rfl
    · exact le_refl _
  · simp only [step]
    split_ifs
    · simp [onresume, hr]
    · rfl
  · intro c hc
    simp only [step]
    split_ifs
    · simp only [onboundary, hsid, hst, hcur, beq_self_eq_true, if_true, hr,
        State.setStore_fields, State.modRec_fields]
      simp only [le_min_iff]
      exact ⟨hb, hc⟩
    · exact le_refl _
  · intro b hs hsec hbtn hplay hp
    have hen : ensureRecord s sid = (s, r) := by simp [ensureRecord, hst]
    have e : step env (.click sid) s = clickPause env sid r s := by
      simp [step, hsec, hbtn, toggleSectionReading, hs, hen, hasAnotherSectionPlaying,
        isThisSectionPlaying, hp, hplay]
    rw [e]
    simp only [clickPause, State.announce_fields, State.setStore_fields, State.modEl_fields,
      State.modRec_fields, if_true]
    exact hck _ rfl rfl rfl

set_option maxRecDepth 100000 in
/-- C9, witness of the amended statement: at the end of `pausedAndResumed` (offset 160 of
500, started at 3000) a pause at time 3100 does not lower the offset. -/
theorem charIndex_steps_monotone_witness :
    ((run (demoPage 500) pausedAndResumed).heap 0).charIndex ≤
      ((step (pausedAt 3100) (.onpause 0) (run (demoPage 500) pausedAndResumed)).heap
        0).charIndex :=
  (charIndex_steps_monotone (pausedAt 3100) (run (demoPage 500) pausedAndResumed) 0 0 0
    (by decide) (by decide) (by decide) (by decide) (by decide)
    (by intro st h; have h2 : st = 3000 := by
          have h3 : ((run (demoPage 500) pausedAndResumed).heap 0).startTime = some 3000 := by
            decide
          rw [h3] at h; exact (Option.some.inj h).symm
        rw [h2]; decide)).1

/-! ## Mutual exclusion (C1) -/

set_option maxRecDepth 100000 in
/-- C1, counterexample: in `raceTrace` (clicks, settle continuations and an `onstart`) the
click on section 2 (6 events) starts it at once, with the pointer on it and the second settle
continuation of the hand-off to section 1 still pending; that continuation, run while the
engine is reported silent, starts section 1 without a checkpoint: at the end the records of
sections 1 and 2 both have `playing = true`. -/
theorem two_sections_playing :
    (((recordOf (run (demoPage 500) (raceTrace.take 6)) 2).map fun rec => rec.playing) =
        some true ∧
      (run (demoPage 500) (raceTrace.take 6)).currentReadingSection = some 2 ∧
      (run (demoPage 500) (raceTrace.take 6)).timers = [.handoffStart 1 false]) ∧
    ((recordOf (run (demoPage 500) raceTrace) 1).map fun rec => rec.playing) = some true ∧
      ((recordOf (run (demoPage 500) raceTrace) 2).map fun rec => rec.playing) = some true := by
  decide

/-! ### Quiet changes -/

theorem Quiet.refl (s : State) : Quiet s s :=
  ⟨rfl, rfl, rfl, fun _ h => h, fun _ h => h, fun _ => rfl, fun _ => rfl, fun _ h => h,
    fun _ h => h⟩

theorem Quiet.trans {s t v : State} (a : Quiet s t) (b : Quiet t v) : Quiet s v :=
  ⟨b.store.trans a.store, b.nextRef.trans a.nextRef, b.sections.trans a.sections,
    fun r h => a.playing r (b.playing r h), fun r h => b.handle r (a.handle r h),
    fun i => (b.button i).trans (a.button i), fun i => (b.icon i).trans (a.icon i),
    fun i h => a.shown i (b.shown i h), fun i h => a.menu i (b.menu i h)⟩

/-- A change that touches neither the store, the heap nor the page is quiet. -/
theorem Quiet.of_eq {s t : State} (h1 : t.readingState = s.readingState)
    (h2 : t.nextRef = s.nextRef) (h3 : t.sections = s.sections) (h4 : t.heap = s.heap)
    (h5 : t.el = s.el) : Quiet s t :=
  ⟨h1, h2, h3, fun r h => by rw [← h4]; exact h, fun r h => by rw [h4]; exact h,
    fun i => by rw [h5], fun i => by rw [h5], fun i h => by rw [← h5]; exact h,
    fun i h => by rw [← h5]; exact h⟩

theorem quiet_engineWhen (s : State) (c : Bool) (op : EngineOp) : Quiet s (s.engineWhen c op) :=
  Quiet.of_eq rfl rfl rfl rfl rfl

theorem quiet_engine (s : State) (op : EngineOp) : Quiet s (s.engine op) :=
  Quiet.of_eq rfl rfl rfl rfl rfl

theorem quiet_announce (s : State) (m : Announcement) : Quiet s (s.announce m) :=
  Quiet.of_eq rfl rfl rfl rfl rfl

theorem quiet_setTimeout (s : State) (t : Timer) : Quiet s (s.setTimeout t) :=
  Quiet.of_eq rfl rfl rfl rfl rfl

theorem quiet_setPointer (s : State) (p : Option SectionId) : Quiet s (s.setPointer p) :=
  Quiet.of_eq rfl rfl rfl rfl rfl

theorem quiet_detachHandlers (s : State) (u : Option Nat) : Quiet s (s.detachHandlers u) :=
  Quiet.of_eq rfl rfl rfl rfl rfl

/-- Mutating a record without setting `playing` or giving it a handle is quiet. -/
theorem quiet_modRec (s : State) (r : Nat) (f : ReadingRecord → ReadingRecord)
    (hp : ∀ rec, (f rec).playing = true → rec.playing = true)
    (hu : ∀ rec, rec.utterance = none → (f rec).utterance = none) : Quiet s (s.modRec r f) := by
  refine ⟨rfl, rfl, rfl, fun i h => ?_, fun i h => ?_, fun _ => rfl, fun _ => rfl,
    fun _ h => h, fun _ h => h⟩
  · simp only [State.modRec_fields] at h
    split_ifs at h with e
    · exact hp _ h
    · exact h
  · simp only [State.modRec_fields]
    split_ifs with e
    · exact hu _ h
    · exact h

/-- Re-storing the record a section already has is quiet. -/
theorem quiet_setStore (s : State) (sid : SectionId) (r : Nat)
    (h : s.readingState sid = some r) : Quiet s (s.setStore sid r) := by
  refine Quiet.of_eq ?_ rfl rfl rfl rfl
  funext i
  simp only [State.setStore_fields]
  split_ifs with e
  · rw [e, h]
  · rfl

/-- Changing a section element without adding a button, a `reading-playing` class or a menu
is quiet. -/
theorem quiet_modEl (s : State) (sid : SectionId) (f : SectionEl → SectionEl)
    (h1 : ∀ e, (f e).button.isSome = e.button.isSome)
    (h2 : ∀ e, hasIconButton (f e) = hasIconButton e)
    (h3 : ∀ e, hasPlayingButton (f e) = true → hasPlayingButton e = true)
    (h4 : ∀ e, (f e).menu.isSome = true → e.menu.isSome = true) : Quiet s (s.modEl sid f) := by
  refine ⟨rfl, rfl, rfl, fun _ h => h, fun _ h => h, fun i => ?_, fun i => ?_, fun i h => ?_,
    fun i h => ?_⟩ <;> simp only [State.modEl_fields] at * <;> split_ifs at * <;>
    first | rfl | exact h1 _ | exact h2 _ | exact h3 _ h | exact h4 _ h | exact h

theorem hasPlayingButton_update (e : SectionEl) (a : Affordance) :
    hasPlayingButton (updateReadingButton e a) =
      if hasIconButton e then decide (a = .playing) else hasPlayingButton e := by
  unfold updateReadingButton hasPlayingButton hasIconButton
  cases hb : e.button with
  | none => simp [hb]
  | some b => cases hi : b.hasIcon <;> cases a <;> simp [hi, hb]

/-- Showing 'paused' or 'stopped' on a section is quiet. -/
theorem quiet_update (s : State) (sid : SectionId) (a : Affordance) (ha : a ≠ .playing)
    (g : SectionEl → SectionEl) (hg1 : ∀ e, (g e).button = e.button)
    (hg2 : ∀ e, (g e).menu = e.menu) :
    Quiet s (s.modEl sid fun e => updateReadingButton (g e) a) := by
  apply quiet_modEl
  · intro e; simp [hg1]
  · intro e
    rw [(updateReadingButton_frame (g e) a).2.2.2.2]
    simp [hasIconButton, hg1]
  · intro e h
    rw [hasPlayingButton_update] at h
    split_ifs at h with hi
    · simp [ha] at h
    · simpa [hasPlayingButton, hg1] using h
  · intro e h; simpa [hg2] using h

theorem quiet_checkpoint (s : State) (r : Nat) (now : Int) (c : Bool) :
    Quiet s (s.modRec r fun rec => if c then checkpoint now rec else rec) := by
  apply quiet_modRec
  · intro rec h; split_ifs at h <;> simpa using h
  · intro rec h; split_ifs <;> simpa using h

theorem quiet_inlineCheckpoint (env : Env) (ps : SectionId) (r : Nat) (s : State)
    (h : s.readingState ps = some r) : Quiet s (inlineCheckpoint env ps r s) := by
  unfold inlineCheckpoint
  refine Quiet.trans (Quiet.trans (Quiet.trans (Quiet.trans (quiet_engineWhen _ _ _)
    (quiet_checkpoint _ r env.now env.speaking)) (quiet_modRec _ r _ ?_ ?_))
    (quiet_update _ ps .paused (by decide) id (fun _ => rfl) (fun _ => rfl)))
    (quiet_setStore _ ps r (by simpa using h))
  · intro rec h; simp at h
  · intro rec h; exact h

theorem quiet_pausePrevious (env : Env) (sid : SectionId) (s : State) :
    Quiet s (pausePrevious env sid s) := by
  unfold pausePrevious
  cases h : previousToPause env sid s with
  | none => exact Quiet.refl s
  | some t =>
    obtain ⟨ps, r⟩ := t
    exact quiet_inlineCheckpoint env ps r s (previousToPause_spec env sid s ps r h).1

theorem quiet_handoffCheckpoint (env : Env) (ps : SectionId) (r : Nat) (s : State)
    (h : s.readingState ps = some r) : Quiet s (handoffCheckpoint env ps r s) := by
  unfold handoffCheckpoint
  refine Quiet.trans (Quiet.trans (Quiet.trans (Quiet.trans (Quiet.trans
    (quiet_detachHandlers _ _) (quiet_modRec _ r _ ?_ ?_)) (quiet_engineWhen _ _ _))
    (quiet_modRec _ r _ ?_ ?_))
    (quiet_update _ ps .paused (by decide) id (fun _ => rfl) (fun _ => rfl)))
    (quiet_setStore _ ps r (by simpa using h))
  · intro rec h; simpa using h
  · intro rec h; simpa using h
  · intro rec h; simp at h
  · intro rec _; rfl

theorem quiet_fallbackCheckpoint (env : Env) (ps : SectionId) (r : Nat) (s : State)
    (h : s.readingState ps = some r) : Quiet s (fallbackCheckpoint env ps r s) := by
  unfold fallbackCheckpoint
  refine Quiet.trans (Quiet.trans (Quiet.trans (Quiet.trans (quiet_engineWhen _ _ _)
    (quiet_modRec _ r _ ?_ ?_)) (quiet_modRec _ r _ ?_ ?_))
    (quiet_update _ ps .paused (by decide) id (fun _ => rfl) (fun _ => rfl)))
    (quiet_setStore _ ps r (by simpa using h))
  · intro rec h; simpa using h
  · intro rec h; simpa using h
  · intro rec h; simp at h
  · intro rec h; exact h

theorem quiet_clickPause (env : Env) (sid : SectionId) (r : Nat) (s : State)
    (h : s.readingState sid = some r) : Quiet s (clickPause env sid r s) := by
  unfold clickPause
  refine Quiet.trans (Quiet.trans (Quiet.trans (Quiet.trans (quiet_engineWhen _ _ _)
    (quiet_modRec _ r _ ?_ ?_))
    (quiet_update _ sid .paused (by decide) id (fun _ => rfl) (fun _ => rfl)))
    (quiet_setStore _ sid r (by simpa using h))) (quiet_announce _ _)
  · intro rec h; simp at h
  · intro rec h; simpa using h

theorem quiet_preserveSection (s : State) (j : SectionId) : Quiet s (preserveSection s j) := by
  unfold preserveSection
  split
  · rename_i r b hr hb
    split_ifs
    · refine Quiet.trans (Quiet.trans
        (quiet_update _ j .paused (by decide) id (fun _ => rfl) (fun _ => rfl))
        (quiet_modRec _ r _ ?_ ?_)) (quiet_setStore _ j r (by simpa using hr))
      · intro rec h; simp at h
      · intro rec h; exact h
    · exact Quiet.refl s
    · exact Quiet.refl s
  · exact Quiet.refl s

theorem quiet_preserveOther (s : State) : Quiet s (preserveOtherSectionsPausedState s) := by
  unfold preserveOtherSectionsPausedState
  generalize s.sections = l
  induction l generalizing s with
  | nil => exact Quiet.refl s
  | cons j l ih => exact Quiet.trans (quiet_preserveSection s j) (ih _)

theorem quiet_stopSection (s : State) (j : SectionId) : Quiet s (stopSection s j) := by
  unfold stopSection
  simp only []
  have q0 : Quiet s (s.modEl j fun e =>
      { e with clsReading := false, clsPlaying := false, clsPaused := false }) :=
    quiet_modEl _ _ _ (fun _ => rfl) (fun _ => rfl) (fun _ h => h) (fun _ h => h)
  split
  · exact q0
  · split_ifs
    · refine Quiet.trans (Quiet.trans q0 (quiet_modRec _ _ _ ?_ ?_))
        (quiet_update _ j .stopped (by decide) id (fun _ => rfl) (fun _ => rfl))
      · intro rec h; simp at h
      · intro rec h; exact h
    · refine Quiet.trans (Quiet.trans q0 (quiet_modRec _ _ _ ?_ ?_))
        (quiet_update _ j .paused (by decide) id (fun _ => rfl) (fun _ => rfl))
      · intro rec h; simp at h
      · intro rec h; exact h
  · exact Quiet.trans q0
      (quiet_update _ j .stopped (by decide) id (fun _ => rfl) (fun _ => rfl))

theorem quiet_foldl_stopSection (l : List SectionId) (s : State) :
    Quiet s (l.foldl stopSection s) := by
  induction l generalizing s with
  | nil => exact Quiet.refl s
  | cons j l ih => exact Quiet.trans (quiet_stopSection s j) (ih _)

theorem quiet_stopAllReading (s : State) : Quiet s (stopAllReading s) := by
  unfold stopAllReading
  split_ifs
  · exact Quiet.refl s
  · exact Quiet.trans (Quiet.trans (quiet_engine _ _) (quiet_setPointer _ _))
      (quiet_foldl_stopSection _ _)

theorem quiet_onerror (u : Nat) (s : State) : Quiet s (onerror u s) := by
  unfold onerror
  refine Quiet.trans (Quiet.trans (quiet_modRec _ _ _ ?_ ?_)
    (quiet_update _ _ .stopped (by decide) (fun e => { e with clsReading := false })
      (fun _ => rfl) (fun _ => rfl))) (quiet_announce _ _)
  · intro rec h; simp at h
  · intro rec h; exact h

theorem quiet_onend (u : Nat) (s : State) (h : isCurrent s u) : Quiet s (onend u s) := by
  unfold onend
  refine Quiet.trans (Quiet.trans (Quiet.trans (Quiet.trans (quiet_modRec _ _ _ ?_ ?_)
    (quiet_update _ _ .stopped (by decide)
      (fun e => { e with clsReading := false, clsPlaying := false, clsPaused := false })
      (fun _ => rfl) (fun _ => rfl))) (quiet_setStore _ _ _ (by simpa using h.1)))
    (quiet_setPointer _ _)) (quiet_announce _ _)
  · intro rec h; simp at h
  · intro rec h; exact h

theorem quiet_onpause (env : Env) (u : Nat) (s : State) (h : isCurrent s u) :
    Quiet s (onpause env u s) := by
  unfold onpause
  refine Quiet.trans (Quiet.trans (quiet_modRec _ _ _ ?_ ?_)
    (quiet_update _ _ .paused (by decide) id (fun _ => rfl) (fun _ => rfl)))
    (quiet_setStore _ _ _ (by simpa using h.1))
  · intro rec h; simp at h
  · intro rec h; simpa using h

theorem quiet_onboundary (u : Nat) (w : Bool) (c : Option Nat) (s : State) :
    Quiet s (onboundary u w c s) := by
  unfold onboundary
  simp only []
  cases hcur : s.readingState (s.utterances u).sectionId with
  | none => exact Quiet.refl s
  | some cur =>
    simp only []
    split_ifs
    · cases w <;> cases c <;> simp only [] <;> try exact Quiet.refl s
      refine Quiet.trans (Quiet.trans (quiet_modRec _ _ _ ?_ ?_) (quiet_modRec _ _ _ ?_ ?_))
        (quiet_setStore _ _ _ (by simpa using hcur))
      · intro rec h; exact h
      · intro rec h; exact h
      · intro rec h; exact h
      · intro rec h; exact h
    · exact Quiet.refl s

/-! ### The invariant under quiet changes -/

/-- A quiet change keeps the invariant when the pointer is kept, or cleared while nothing
plays and nothing shows `reading-playing`, and the timers are kept in order. -/
theorem Inv.quiet {s t : State} (h : Inv s) (q : Quiet s t)
    (hp : t.currentReadingSection = s.currentReadingSection ∨
      (t.currentReadingSection = none ∧
        (∀ sid r, t.readingState sid = some r → (t.heap r).playing = false) ∧
        (∀ i, hasPlayingButton (t.el i) = false)))
    (htv : ∀ x ∈ t.timers, ∀ sid, x.sectionId = some sid →
      sid ∈ s.sections ∧ (s.el sid).button.isSome = true)
    (hcount : (t.timers.filter Timer.isSettle).length ≤ 1)
    (hsettle : settling t = true → settling s = true ∨
      ((∀ sid r, t.readingState sid = some r → (t.heap r).playing = false) ∧
        (∀ i, hasPlayingButton (t.el i) = false) ∧
        (∀ p r, t.currentReadingSection = some p → t.readingState p = some r →
          (t.heap r).utterance = none)))
    (hstart : ∀ x ∈ t.timers, x.isStart = true → t.currentReadingSection = none) : Inv t := by
  have hnp : ∀ r, (s.heap r).playing = false → (t.heap r).playing = false := by
    intro r hr
    cases hc : (t.heap r).playing with
    | false => rfl
    | true => rw [q.playing r hc] at hr; exact absurd hr (by decide)
  have hns : ∀ i, hasPlayingButton (s.el i) = false → hasPlayingButton (t.el i) = false := by
    intro i hi
    cases hc : hasPlayingButton (t.el i) with
    | false => rfl
    | true => rw [q.shown i hc] at hi; exact absurd hi (by decide)
  refine ⟨?_, ?_, ?_, ?_, ?_, ?_, ?_, hcount, ?_, ?_, ?_, hstart⟩
  · intro sid r hr hpl
    rcases hp with hp | ⟨_, hn, _⟩
    · rw [hp]; exact h.playing_ptr sid r (by rw [← q.store]; exact hr) (q.playing r hpl)
    · rw [hn sid r hr] at hpl; exact absurd hpl (by decide)
  · intro a b r ha hb
    rw [q.store] at ha hb
    exact h.inj a b r ha hb
  · intro sid r hr
    rw [q.store] at hr; rw [q.nextRef]
    exact h.bound sid r hr
  · intro p hpp
    rcases hp with hp | ⟨hn, _, _⟩
    · rw [hp] at hpp
      obtain ⟨a, b, c⟩ := h.ptr_valid p hpp
      exact ⟨by rw [q.sections]; exact a, by rw [q.button]; exact b, by rw [q.store]; exact c⟩
    · rw [hn] at hpp; exact absurd hpp (by simp)
  · intro sid hs
    rcases hp with hp | ⟨_, _, hn⟩
    · obtain ⟨a, b⟩ := h.btn_ptr sid (q.shown sid hs)
      exact ⟨by rw [hp]; exact a, by rw [q.icon]; exact b⟩
    · rw [hn sid] at hs; exact absurd hs (by decide)
  · intro sid hm
    obtain ⟨a, b⟩ := h.menu_valid sid (q.menu sid hm)
    exact ⟨by rw [q.sections]; exact a, by rw [q.button]; exact b⟩
  · intro x hx sid hxs
    obtain ⟨a, b⟩ := htv x hx sid hxs
    exact ⟨by rw [q.sections]; exact a, by rw [q.button]; exact b⟩
  · intro hst sid r hr
    rcases hsettle hst with hs | ⟨a, _, _⟩
    · exact hnp r (h.settle_playing hs sid r (by rw [← q.store]; exact hr))
    · exact a sid r hr
  · intro hst i
    rcases hsettle hst with hs | ⟨_, b, _⟩
    · exact hns i (h.settle_button hs i)
    · exact b i
  · intro hst p r hpp hr
    rcases hsettle hst with hs | ⟨_, _, c⟩
    · rcases hp with hp | ⟨hn, _, _⟩
      · exact q.handle r (h.settle_handle hs p r (by rw [← hp]; exact hpp)
          (by rw [← q.store]; exact hr))
      · rw [hn] at hpp; exact absurd hpp (by simp)
    · exact c p r hpp hr

/-- A quiet change that keeps the pointer and the timers keeps the invariant. -/
theorem Inv.quiet_same {s t : State} (h : Inv s) (q : Quiet s t)
    (hp : t.currentReadingSection = s.currentReadingSection) (ht : t.timers = s.timers) :
    Inv t := by
  refine h.quiet q (Or.inl hp) ?_ ?_ ?_ ?_
  · intro x hx sid hs; rw [ht] at hx; exact h.timer_valid x hx sid hs
  · rw [ht]; exact h.settle_count
  · intro hs; left; unfold settling at *; rw [ht] at hs; exact hs
  · intro x hx hs; rw [ht] at hx; rw [hp]; exact h.start_pending x hx hs

/-! ### Timers -/

theorem settling_iff (s : State) : settling s = true ↔ ∃ x ∈ s.timers, x.isSettle = true := by
  unfold settling
  simp [List.any_eq_true]

theorem settling_false_iff (s : State) :
    settling s = false ↔ ∀ x ∈ s.timers, x.isSettle = false := by
  unfold settling
  simp [List.any_eq_false]

theorem filter_eraseIdx_of_settle (l : List Timer) (i : Nat) (t : Timer)
    (h : l.get? i = some t) (ht : t.isSettle = true)
    (hc : (l.filter Timer.isSettle).length ≤ 1) :
    (l.eraseIdx i).filter Timer.isSettle = [] := by
  induction l generalizing i with
  | nil => simp at h
  | cons x l ih =>
    cases i with
    | zero =>
      simp at h
      subst h
      simp [List.filter_cons, ht] at hc
      simpa [List.eraseIdx] using hc
    | succ i =>
      simp at h
      cases hx : x.isSettle with
      | true =>
        simp [List.filter_cons, hx] at hc
        have : t ∈ l := List.getElem?_mem (by simpa using h)
        exact absurd ht (by rw [hc t this]; decide)
      | false =>
        simp [List.filter_cons, hx] at hc
        have hc' : (l.filter Timer.isSettle).length ≤ 1 := by simpa using hc
        simpa [List.eraseIdx, List.filter_cons, hx] using ih i (by simpa using h) hc'

theorem Timer.isSettle_of_isStart (t : Timer) (h : t.isStart = true) : t.isSettle = true := by
  cases t <;> simp_all [Timer.isStart, Timer.isSettle]

/-- Removing a pending timer keeps the invariant. -/
theorem Inv.eraseTimer {s : State} (h : Inv s) (i : Nat) :
    Inv { s with timers := s.timers.eraseIdx i } := by
  have hsub : (s.timers.eraseIdx i).Sublist s.timers := List.eraseIdx_sublist _ _
  have hset : settling { s with timers := s.timers.eraseIdx i } = true → settling s = true := by
    intro hs
    rw [settling_iff] at hs ⊢
    obtain ⟨x, hx, hxs⟩ := hs
    exact ⟨x, hsub.subset hx, hxs⟩
  exact ⟨h.playing_ptr, h.inj, h.bound, h.ptr_valid, h.btn_ptr, h.menu_valid,
    fun x hx => h.timer_valid x (hsub.subset hx),
    le_trans (hsub.filter _).length_le h.settle_count,
    fun hs => h.settle_playing (hset hs), fun hs => h.settle_button (hset hs),
    fun hs => h.settle_handle (hset hs),
    fun x hx => h.start_pending x (hsub.subset hx)⟩

/-- Once the pending settle continuation is removed, none is pending. -/
theorem settling_eraseTimer {s : State} (h : Inv s) (i : Nat) (t : Timer)
    (hi : s.timers.get? i = some t) (ht : t.isSettle = true) :
    settling { s with timers := s.timers.eraseIdx i } = false := by
  rw [settling_false_iff]
  intro x hx
  have := filter_eraseIdx_of_settle s.timers i t hi ht h.settle_count
  cases hxs : x.isSettle with
  | false => rfl
  | true =>
    have : x ∈ (s.timers.eraseIdx i).filter Timer.isSettle := List.mem_filter.mpr ⟨hx, hxs⟩
    simp_all

/-! ### Allocation and menus -/

/-- Storing a new record for a section keeps the invariant. -/
theorem Inv.alloc {s : State} (h : Inv s) (sid : SectionId) : Inv (s.allocRecord sid) := by
  have hheap : ∀ a r, s.readingState a = some r → (s.allocRecord sid).heap r = s.heap r := by
    intro a r hr
    have := h.bound a r hr
    simp [Nat.ne_of_lt this]
  have hst : ∀ a r, (s.allocRecord sid).readingState a = some r →
      (a = sid ∧ r = s.nextRef) ∨ (a ≠ sid ∧ s.readingState a = some r) := by
    intro a r hr
    simp only [State.allocRecord_fields] at hr
    split_ifs at hr with e
    · left; exact ⟨e, (Option.some.inj hr).symm⟩
    · right; exact ⟨e, hr⟩
  have hfresh : (s.allocRecord sid).heap s.nextRef = freshRecord := by simp
  refine ⟨?_, ?_, ?_, ?_, h.btn_ptr, h.menu_valid, h.timer_valid, h.settle_count, ?_,
    h.settle_button, ?_, h.start_pending⟩
  · intro a r hr hp
    rcases hst a r hr with ⟨_, rfl⟩ | ⟨_, hr'⟩
    · rw [hfresh] at hp; simp [freshRecord] at hp
    · rw [hheap a r hr'] at hp; exact h.playing_ptr a r hr' hp
  · intro a b r ha hb
    rcases hst a r ha with ⟨rfl, rfl⟩ | ⟨_, ha'⟩ <;> rcases hst b _ hb with ⟨rfl, hb'⟩ | ⟨_, hb'⟩
    · rfl
    · exact absurd (h.bound b _ hb') (lt_irrefl _)
    · exact absurd (h.bound a _ ha') (by rw [hb']; exact lt_irrefl _)
    · exact h.inj a b r ha' hb'
  · intro a r hr
    rcases hst a r hr with ⟨_, rfl⟩ | ⟨_, hr'⟩
    · simp
    · have := h.bound a r hr'; simp; omega
  · intro p hp
    obtain ⟨a, b, c⟩ := h.ptr_valid p hp
    refine ⟨a, b, ?_⟩
    simp only [State.allocRecord_fields]
    split_ifs
    · rfl
    · exact c
  · intro hs a r hr
    rcases hst a r hr with ⟨_, rfl⟩ | ⟨_, hr'⟩
    · rw [hfresh]; rfl
    · rw [hheap a r hr']; exact h.settle_playing hs a r hr'
  · intro hs p r hp hr
    rcases hst p r hr with ⟨_, rfl⟩ | ⟨_, hr'⟩
    · rw [hfresh]; rfl
    · rw [hheap p r hr']; exact h.settle_handle hs p r hp hr'

/-- The state with a record for `sid` keeps the invariant. -/
theorem Inv.ensure {s : State} (h : Inv s) (sid : SectionId) :
    Inv (ensureRecord s sid).1 := by
  rcases (ensureRecord_store s sid).2.2.2.2 with ⟨_, e⟩ | ⟨_, _, e⟩
  · rw [e]; exact h
  · rw [e]; exact h.alloc sid

/-- Closing a menu is quiet. -/
theorem quiet_closeMenu (s : State) (sid : SectionId) :
    Quiet s (s.modEl sid fun e => { e with menu := none }) :=
  quiet_modEl _ _ _ (fun _ => rfl) (fun _ => rfl) (fun _ h => h)
    (fun _ h => by simp at h)

/-- Opening the menu of a section of the page that has a button keeps the invariant. -/
theorem Inv.openMenu {s : State} (h : Inv s) (sid : SectionId) (r : Nat)
    (h1 : sid ∈ s.sections) (h2 : (s.el sid).button.isSome = true) :
    Inv (s.modEl sid fun e => { e with menu := some r }) := by
  have hb : ∀ i, ((s.modEl sid fun e => { e with menu := some r }).el i).button =
      (s.el i).button := by
    intro i; simp only [State.modEl_fields]; split_ifs with e
    · rw [e]
    · rfl
  have hpl : ∀ i, hasPlayingButton ((s.modEl sid fun e => { e with menu := some r }).el i) =
      hasPlayingButton (s.el i) := by
    intro i; simp only [hasPlayingButton, hb]
  have hic : ∀ i, hasIconButton ((s.modEl sid fun e => { e with menu := some r }).el i) =
      hasIconButton (s.el i) := by
    intro i; simp only [hasIconButton, hb]
  refine ⟨h.playing_ptr, h.inj, h.bound, ?_, ?_, ?_, ?_, h.settle_count, h.settle_playing, ?_,
    h.settle_handle, h.start_pending⟩
  · intro p hp
    obtain ⟨a, b, c⟩ := h.ptr_valid p hp
    exact ⟨a, by rw [hb]; exact b, c⟩
  · intro i hi
    rw [hpl] at hi; rw [hic]
    exact h.btn_ptr i hi
  · intro i hi
    by_cases e : i = sid
    · subst e; exact ⟨h1, by rw [hb]; exact h2⟩
    · have : ((s.modEl sid fun e => { e with menu := some r }).el i).menu = (s.el i).menu := by
        simp [e]
      rw [this] at hi
      obtain ⟨a, b⟩ := h.menu_valid i hi
      exact ⟨a, by rw [hb]; exact b⟩
  · intro x hx i hi
    obtain ⟨a, b⟩ := h.timer_valid x hx i hi
    exact ⟨a, by rw [hb]; exact b⟩
  · intro hs i
    rw [hpl]; exact h.settle_button hs i

/-! ### Starting an utterance -/

/-- The fields of the state after `beginUtterance`. -/
theorem beginUtterance_fields (env : Env) (sid : SectionId) (k : Int) (T : Text) (s : State) :
    (∀ i, (beginUtterance env sid k T s).readingState i =
        (ensureRecord s sid).1.readingState i) ∧
      (beginUtterance env sid k T s).readingState sid = some (ensureRecord s sid).2 ∧
      (∀ i, i ≠ (ensureRecord s sid).2 →
        (beginUtterance env sid k T s).heap i = (ensureRecord s sid).1.heap i) ∧
      ((beginUtterance env sid k T s).heap (ensureRecord s sid).2).playing = true ∧
      ((beginUtterance env sid k T s).heap (ensureRecord s sid).2).utterance =
        some s.nextUtterance ∧
      (beginUtterance env sid k T s).currentReadingSection = some sid ∧
      (beginUtterance env sid k T s).nextRef = (ensureRecord s sid).1.nextRef ∧
      (beginUtterance env sid k T s).sections = s.sections ∧
      (beginUtterance env sid k T s).el = s.el ∧
      (beginUtterance env sid k T s).timers = s.timers ∧
      (beginUtterance env sid k T s).nextUtterance = s.nextUtterance + 1 ∧
      (beginUtterance env sid k T s).utterances s.nextUtterance =
        newUtterance (if 0 < k then T.drop k.toNat else T) sid (ensureRecord s sid).2 k ∧
      (∀ i, i ≠ s.nextUtterance →
        (beginUtterance env sid k T s).utterances i = s.utterances i) := by
  unfold beginUtterance
  simp only [State.engine_fields, State.setPointer_fields, State.setStore_fields,
    State.modRec_fields, ensureRecord_fields, if_true]
  refine ⟨fun i => ?_, trivial, fun i hi => by simp [hi], trivial, trivial, trivial, trivial,
    trivial, trivial, trivial, trivial, trivial, fun i hi => by simp [hi]⟩
  split_ifs with e
  · rw [e]; simp
  · rfl

/-- Starting the utterance of a section of the page, while no hand-off settles, no other
section's record is playing and no other section shows `reading-playing`, keeps the
invariant. -/
theorem Inv.begin {s : State} (h : Inv s) (env : Env) (sid : SectionId) (k : Int)
    (T : Text) (hsec : sid ∈ s.sections) (hbtn : (s.el sid).button.isSome = true)
    (hns : settling s = false)
    (hothers : ∀ a r, a ≠ sid → s.readingState a = some r → (s.heap r).playing = false)
    (hbtns : ∀ i, i ≠ sid → hasPlayingButton (s.el i) = false) :
    Inv (beginUtterance env sid k T s) := by
  obtain ⟨f1, f2, f3, f4, f5, f6, f7, f8, f9, f10, -, -, -⟩ :=
    beginUtterance_fields env sid k T s
  have he := h.ensure sid
  obtain ⟨e1, e2, -, -, -⟩ := ensureRecord_store s sid
  have hset : settling (beginUtterance env sid k T s) = false := by
    unfold settling; rw [f10]; exact hns
  have hstore : ∀ a r, (beginUtterance env sid k T s).readingState a = some r →
      (a = sid ∧ r = (ensureRecord s sid).2) ∨
        (a ≠ sid ∧ r ≠ (ensureRecord s sid).2 ∧ s.readingState a = some r) := by
    intro a r hr
    by_cases ha : a = sid
    · subst ha; rw [f2] at hr; exact Or.inl ⟨rfl, (Option.some.inj hr).symm⟩
    · right
      rw [f1] at hr
      refine ⟨ha, ?_, by rw [← e1 a ha]; exact hr⟩
      intro hrr
      subst hrr
      exact ha (he.inj a sid _ hr (by simp))
  refine ⟨?_, ?_, ?_, ?_, ?_, ?_, ?_, ?_, ?_, ?_, ?_, ?_⟩
  · intro a r hr hp
    rcases hstore a r hr with ⟨rfl, _⟩ | ⟨ha, hne, hr'⟩
    · exact f6
    · rw [f3 r hne, e2 r (h.bound a r hr'), hothers a r ha hr'] at hp
      exact absurd hp (by decide)
  · intro a b r ha hb
    rw [f1] at ha hb
    exact he.inj a b r ha hb
  · intro a r hr
    rw [f1] at hr; rw [f7]
    exact he.bound a r hr
  · intro p hp
    rw [f6] at hp
    have : p = sid := (Option.some.inj hp).symm
    subst this
    exact ⟨by rw [f8]; exact hsec, by rw [f9]; exact hbtn, by rw [f2]; rfl⟩
  · intro i hi
    rw [f9] at hi ⊢
    by_cases e : i = sid
    · subst e; exact ⟨f6, (h.btn_ptr i hi).2⟩
    · rw [hbtns i e] at hi; exact absurd hi (by decide)
  · intro i hi
    rw [f9] at hi ⊢; rw [f8]
    exact h.menu_valid i hi
  · intro x hx i hi
    rw [f10] at hx; rw [f9, f8]
    exact h.timer_valid x hx i hi
  · rw [f10]; exact h.settle_count
  · intro hs; rw [hset] at hs; exact absurd hs (by decide)
  · intro hs; rw [hset] at hs; exact absurd hs (by decide)
  · intro hs; rw [hset] at hs; exact absurd hs (by decide)
  · intro x hx hxs
    rw [f10] at hx
    have := (settling_false_iff s).mp hns x hx
    rw [x.isSettle_of_isStart hxs] at this
    exact absurd this (by decide)

/-- `startReadingSection` keeps the invariant for a section of the page, while no hand-off
settles, when after the inline checkpoint no other section's record is playing and no other
section shows `reading-playing`. -/
theorem Inv.start {s : State} (h : Inv s) (env : Env) (sid : SectionId) (k : Int)
    (hsec : sid ∈ s.sections) (hbtn : (s.el sid).button.isSome = true)
    (hns : settling s = false)
    (hothers : ∀ a r, a ≠ sid → (pausePrevious env sid s).readingState a = some r →
      ((pausePrevious env sid s).heap r).playing = false)
    (hbtns : ∀ i, i ≠ sid → hasPlayingButton ((pausePrevious env sid s).el i) = false) :
    Inv (startReadingSection env sid k s) := by
  obtain ⟨f1, -, -, -, f5, f6, -, -, -⟩ := pausePrevious_frame env sid s
  have q := quiet_pausePrevious env sid s
  have h1 : Inv (pausePrevious env sid s) := h.quiet_same q f1 f6
  have h2 : Inv ((pausePrevious env sid s).engineWhen env.speaking .cancel) :=
    h1.quiet_same (quiet_engineWhen _ _ _) rfl rfl
  unfold startReadingSection
  simp only []
  split
  · exact h2
  · split_ifs
    · exact h2
    · apply h2.begin
      · simpa [f5] using hsec
      · simpa [q.button] using hbtn
      · unfold settling at *; simpa [f6] using hns
      · intro a r ha hr; simpa using hothers a r ha (by simpa using hr)
      · intro i hi; simpa using hbtns i hi

/-! ### The inline checkpoint leaves nothing else playing -/

theorem lastPlayingButton_eq_none (s : State) (h : ∀ i, hasPlayingButton (s.el i) = false) :
    lastPlayingButton s = none ∧ firstPlayingButton s = none := by
  have : (s.sections.filter fun i => hasPlayingButton (s.el i)) = [] := by
    rw [List.filter_eq_nil_iff]
    intro a _
    simp [h a]
  unfold lastPlayingButton firstPlayingButton
  rw [this]
  exact ⟨rfl, rfl⟩

/-- With a null pointer, or the pointer on `sid`, no other section plays or shows
`reading-playing` after the inline checkpoint. -/
theorem calm_of_pointer {s : State} (h : Inv s) (env : Env) (sid : SectionId)
    (hp : s.currentReadingSection = none ∨ s.currentReadingSection = some sid) :
    (∀ a r, a ≠ sid → (pausePrevious env sid s).readingState a = some r →
      ((pausePrevious env sid s).heap r).playing = false) ∧
    (∀ i, i ≠ sid → hasPlayingButton ((pausePrevious env sid s).el i) = false) := by
  have q := quiet_pausePrevious env sid s
  constructor
  · intro a r ha hr
    cases hc : ((pausePrevious env sid s).heap r).playing with
    | false => rfl
    | true =>
      have := h.playing_ptr a r (by rw [← q.store]; exact hr) (q.playing r hc)
      rcases hp with hp | hp <;> rw [hp] at this
      · exact absurd this (by simp)
      · exact absurd (Option.some.inj this).symm ha
  · intro i hi
    cases hc : hasPlayingButton ((pausePrevious env sid s).el i) with
    | false => rfl
    | true =>
      have := (h.btn_ptr i (q.shown i hc)).1
      rcases hp with hp | hp <;> rw [hp] at this
      · exact absurd this (by simp)
      · exact absurd (Option.some.inj this).symm hi

/-- When nothing plays and nothing shows `reading-playing`, the same holds after the inline
checkpoint. -/
theorem calm_of_silent {s : State} (env : Env) (sid : SectionId)
    (h1 : ∀ a r, s.readingState a = some r → (s.heap r).playing = false)
    (h2 : ∀ i, hasPlayingButton (s.el i) = false) :
    (∀ a r, a ≠ sid → (pausePrevious env sid s).readingState a = some r →
      ((pausePrevious env sid s).heap r).playing = false) ∧
    (∀ i, i ≠ sid → hasPlayingButton ((pausePrevious env sid s).el i) = false) := by
  have q := quiet_pausePrevious env sid s
  constructor
  · intro a r _ hr
    cases hc : ((pausePrevious env sid s).heap r).playing with
    | false => rfl
    | true =>
      have := h1 a r (by rw [← q.store]; exact hr)
      rw [q.playing r hc] at this
      exact absurd this (by decide)
  · intro i _
    cases hc : hasPlayingButton ((pausePrevious env sid s).el i) with
    | false => rfl
    | true =>
      have := h2 i
      rw [q.shown i hc] at this
      exact absurd this (by decide)

/-- Under the invariant, with the engine speaking and not paused and the pointer on another
section, the inline checkpoint finds that section and its record. -/
theorem previousToPause_of_pointer {s : State} (h : Inv s) (env : Env) (sid p : SectionId)
    (hp : s.currentReadingSection = some p) (hne : p ≠ sid) (h1 : env.speaking = true)
    (h2 : env.paused = false) :
    ∃ r, previousToPause env sid s = some (p, r) ∧ s.readingState p = some r := by
  obtain ⟨a, b, c⟩ := h.ptr_valid p hp
  obtain ⟨r, hr⟩ := Option.isSome_iff_exists.mp c
  obtain ⟨bt, hb⟩ := Option.isSome_iff_exists.mp b
  refine ⟨r, ?_, hr⟩
  simp [previousToPause, hp, h1, h2, hne, findSection, a, hr, hb]

/-- The record and the button of the section checkpointed inline. -/
theorem inlineCheckpoint_clears (env : Env) (ps : SectionId) (r : Nat) (s : State) :
    ((inlineCheckpoint env ps r s).heap r).playing = false ∧
      (inlineCheckpoint env ps r s).el ps = updateReadingButton (s.el ps) .paused := by
  simp [inlineCheckpoint]

/-- With the engine speaking and not paused and the pointer on another section, nothing plays
or shows `reading-playing` after the inline checkpoint. -/
theorem calm_of_speaking {s : State} (h : Inv s) (env : Env) (sid p : SectionId)
    (hp : s.currentReadingSection = some p) (hne : p ≠ sid) (h1 : env.speaking = true)
    (h2 : env.paused = false) :
    (∀ a r, a ≠ sid → (pausePrevious env sid s).readingState a = some r →
      ((pausePrevious env sid s).heap r).playing = false) ∧
    (∀ i, i ≠ sid → hasPlayingButton ((pausePrevious env sid s).el i) = false) := by
  have q := quiet_pausePrevious env sid s
  obtain ⟨rp, htar, hrp⟩ := previousToPause_of_pointer h env sid p hp hne h1 h2
  have hpp : pausePrevious env sid s = inlineCheckpoint env p rp s := by
    simp [pausePrevious, htar]
  obtain ⟨c1, c2⟩ := inlineCheckpoint_clears env p rp s
  constructor
  · intro a r _ hr
    cases hc : ((pausePrevious env sid s).heap r).playing with
    | false => rfl
    | true =>
      have hr' : s.readingState a = some r := by rw [← q.store]; exact hr
      have := h.playing_ptr a r hr' (q.playing r hc)
      rw [hp] at this
      have hap : p = a := Option.some.inj this
      subst hap
      rw [hrp] at hr'
      have : rp = r := Option.some.inj hr'
      subst this
      rw [hpp, c1] at hc
      exact absurd hc (by decide)
  · intro i _
    cases hc : hasPlayingButton ((pausePrevious env sid s).el i) with
    | false => rfl
    | true =>
      obtain ⟨hi1, hi2⟩ := h.btn_ptr i (q.shown i hc)
      rw [hp] at hi1
      have hpi : p = i := Option.some.inj hi1
      subst hpi
      rw [hpp, c2, hasPlayingButton_update, hi2] at hc
      simp at hc

/-- A section that has a record keeps it through `startReadingSection`. -/
theorem startReadingSection_store (env : Env) (sid : SectionId) (k : Int) (s : State)
    (r : Nat) (h : s.readingState sid = some r) :
    (startReadingSection env sid k s).readingState sid = some r := by
  obtain ⟨-, -, -, -, -, -, f7, -, -⟩ := pausePrevious_frame env sid s
  have h1 : ((pausePrevious env sid s).engineWhen env.speaking .cancel).readingState sid =
      some r := by simp [f7, h]
  unfold startReadingSection
  simp only []
  split
  · exact h1
  · split_ifs
    · exact h1
    · rw [(beginUtterance_fields env sid k _ _).2.1]
      simp [ensureRecord, f7, h]

/-! ### The resume menu and the click -/

/-- `showReadingResumeOptions` keeps the invariant under the conditions of
`Inv.start`. -/
theorem Inv.showMenu {s : State} (h : Inv s) (env : Env) (sid : SectionId) (r : Nat)
    (hsec : sid ∈ s.sections) (hbtn : (s.el sid).button.isSome = true)
    (hns : settling s = false)
    (hothers : ∀ a r, a ≠ sid → (pausePrevious env sid s).readingState a = some r →
      ((pausePrevious env sid s).heap r).playing = false)
    (hbtns : ∀ i, i ≠ sid → hasPlayingButton ((pausePrevious env sid s).el i) = false) :
    Inv (showReadingResumeOptions env sid r s) := by
  unfold showReadingResumeOptions
  split
  · exact h.quiet_same (quiet_closeMenu s sid) rfl rfl
  · split_ifs
    · exact h.start env sid 0 hsec hbtn hns hothers hbtns
    · exact h.openMenu sid r hsec hbtn

/-- Past the hand-off test of `toggleSectionReading`, the pointer is null or names the
clicked section, and the fallback test of the stopped case fails. -/
theorem pointer_past_handoff (env : Env) (s : State) (sid : SectionId)
    (h : ¬ (hasAnotherSectionPlaying env s sid && !isThisSectionPlaying env s sid) = true) :
    (s.currentReadingSection = none ∨ s.currentReadingSection = some sid) ∧
      (isCurrentlySpeaking env && s.currentReadingSection != some sid) = false := by
  unfold hasAnotherSectionPlaying isThisSectionPlaying at h
  cases hp : s.currentReadingSection with
  | none =>
    cases hsp : isCurrentlySpeaking env <;> simp_all
  | some p =>
    by_cases e : p = sid
    · subst e; simp
    · simp_all

theorem filter_isSettle_eq_nil (s : State) (h : settling s = false) :
    s.timers.filter Timer.isSettle = [] := by
  rw [List.filter_eq_nil_iff]
  intro x hx
  simp [(settling_false_iff s).mp h x hx]

/-- The hand-off path keeps the invariant when no hand-off is settling yet. -/
theorem Inv.handoffPath {s : State} (h : Inv s) (env : Env) (sid : SectionId) (bp : Bool)
    (hsec : sid ∈ s.sections) (hbtn : (s.el sid).button.isSome = true)
    (hns : settling s = false) : Inv (handoff env sid bp s) := by
  have hfil := filter_isSettle_eq_nil s hns
  cases hp : s.currentReadingSection with
  | none =>
    have hnb : ∀ i, hasPlayingButton (s.el i) = false := by
      intro i
      cases hc : hasPlayingButton (s.el i) with
      | false => rfl
      | true => have := (h.btn_ptr i hc).1; rw [hp] at this; exact absurd this (by simp)
    have hnp : ∀ a r, s.readingState a = some r → (s.heap r).playing = false := by
      intro a r hr
      cases hc : (s.heap r).playing with
      | false => rfl
      | true => have := h.playing_ptr a r hr hc; rw [hp] at this; exact absurd this (by simp)
    obtain ⟨l1, l2⟩ := lastPlayingButton_eq_none s hnb
    have e : handoff env sid bp s = (s.setPointer none).setTimeout (.handoffCancel sid bp) := by
      simp [handoff, handoffTarget, handoffPointer, hp, l1, l2]
    rw [e]
    refine h.quiet (Quiet.trans (quiet_setPointer _ _) (quiet_setTimeout _ _))
      (Or.inl (by simp [hp])) ?_ ?_ ?_ ?_
    · intro x hx i hi
      simp only [State.setTimeout_fields, State.setPointer_fields, List.mem_append,
        List.mem_singleton] at hx
      rcases hx with hx | rfl
      · exact h.timer_valid x hx i hi
      · simp only [Timer.sectionId, Option.some.injEq] at hi; subst hi; exact ⟨hsec, hbtn⟩
    · simp [List.filter_append, hfil, Timer.isSettle]
    · intro _; right
      exact ⟨fun a r hr => hnp a r (by simpa using hr), fun i => by simpa using hnb i,
        fun p r hpp _ => by simp at hpp⟩
    · intro x hx hxs
      simp only [State.setTimeout_fields, State.setPointer_fields, List.mem_append,
        List.mem_singleton] at hx
      rcases hx with hx | rfl
      · have := (settling_false_iff s).mp hns x hx
        rw [x.isSettle_of_isStart hxs] at this; exact absurd this (by decide)
      · simp [Timer.isStart] at hxs
  | some p =>
    obtain ⟨a, b, c⟩ := h.ptr_valid p hp
    obtain ⟨r, hr⟩ := Option.isSome_iff_exists.mp c
    obtain ⟨bt, hb⟩ := Option.isSome_iff_exists.mp b
    have e : handoff env sid bp s =
        (handoffCheckpoint env p r (s.setPointer (some p))).setTimeout
          (.handoffCancel sid bp) := by
      simp [handoff, handoffTarget, handoffPointer, hp, findSection, a, hr, hb]
    have q : Quiet s (handoffCheckpoint env p r (s.setPointer (some p))) :=
      Quiet.trans (quiet_setPointer _ _) (quiet_handoffCheckpoint env p r _ (by simpa using hr))
    have k1 : ((handoffCheckpoint env p r (s.setPointer (some p))).heap r).playing = false ∧
        ((handoffCheckpoint env p r (s.setPointer (some p))).heap r).utterance = none ∧
        (handoffCheckpoint env p r (s.setPointer (some p))).el p =
          updateReadingButton (s.el p) .paused ∧
        (handoffCheckpoint env p r (s.setPointer (some p))).currentReadingSection = some p ∧
        (handoffCheckpoint env p r (s.setPointer (some p))).timers = s.timers := by
      simp [handoffCheckpoint]
    obtain ⟨k1, k2, k3, k4, k5⟩ := k1
    rw [e]
    refine h.quiet (Quiet.trans q (quiet_setTimeout _ _)) (Or.inl (by simp [k4, hp])) ?_ ?_ ?_ ?_
    · intro x hx i hi
      simp only [State.setTimeout_fields, k5, List.mem_append, List.mem_singleton] at hx
      rcases hx with hx | rfl
      · exact h.timer_valid x hx i hi
      · simp only [Timer.sectionId, Option.some.injEq] at hi; subst hi; exact ⟨hsec, hbtn⟩
    · simp [k5, List.filter_append, hfil, Timer.isSettle]
    · intro _; right
      refine ⟨fun a' r' hr' => ?_, fun i => ?_, fun p' r' hp' hr' => ?_⟩
      · simp only [State.setTimeout_fields] at hr' ⊢
        cases hc : ((handoffCheckpoint env p r (s.setPointer (some p))).heap r').playing with
        | false => rfl
        | true =>
          have hs' : s.readingState a' = some r' := by rw [← q.store]; exact hr'
          have := h.playing_ptr a' r' hs' (q.playing r' hc)
          rw [hp] at this
          have hap : p = a' := Option.some.inj this
          subst hap
          rw [hr] at hs'
          have : r = r' := Option.some.inj hs'
          subst this
          rw [k1] at hc; exact absurd hc (by decide)
      · simp only [State.setTimeout_fields]
        cases hc : hasPlayingButton ((handoffCheckpoint env p r (s.setPointer (some p))).el i) with
        | false => rfl
        | true =>
          obtain ⟨hi1, hi2⟩ := h.btn_ptr i (q.shown i hc)
          rw [hp] at hi1
          have hpi : p = i := Option.some.inj hi1
          subst hpi
          rw [k3, hasPlayingButton_update, hi2] at hc
          simp at hc
      · simp only [State.setTimeout_fields, k4] at hp' hr' ⊢
        have hpp : p = p' := Option.some.inj hp'
        subst hpp
        rw [q.store, hr] at hr'
        have : r = r' := Option.some.inj hr'
        subst this
        exact k2
    · intro x hx hxs
      simp only [State.setTimeout_fields, k5, List.mem_append, List.mem_singleton] at hx
      rcases hx with hx | rfl
      · have := (settling_false_iff s).mp hns x hx
        rw [x.isSettle_of_isStart hxs] at this; exact absurd this (by decide)
      · simp [Timer.isStart] at hxs

/-- A click keeps the invariant when no hand-off is settling. -/
theorem Inv.toggle {s : State} (h : Inv s) (env : Env) (sid : SectionId)
    (hsec : sid ∈ s.sections) (hbtn : (s.el sid).button.isSome = true)
    (hns : settling s = false) : Inv (toggleSectionReading env sid s) := by
  unfold toggleSectionReading
  split_ifs with hsup
  · exact h.quiet_same (quiet_announce _ _) rfl rfl
  · obtain ⟨b, hb⟩ := Option.isSome_iff_exists.mp hbtn
    simp only [hb]
    have h1 : Inv (ensureRecord s sid).1 := h.ensure sid
    have hr : (ensureRecord s sid).1.readingState sid = some (ensureRecord s sid).2 := by simp
    have hsec1 : sid ∈ (ensureRecord s sid).1.sections := by simpa using hsec
    have hbtn1 : ((ensureRecord s sid).1.el sid).button.isSome = true := by simpa using hbtn
    have hns1 : settling (ensureRecord s sid).1 = false := by
      unfold settling at *; simpa using hns
    split_ifs with c1 c2 c3 c4 c5
    · exact h1.handoffPath env sid _ hsec1 hbtn1 hns1
    · exact h1.quiet_same (quiet_clickPause env sid _ _ hr) (by simp [clickPause])
        (by simp [clickPause])
    · obtain ⟨x, y⟩ := calm_of_pointer h1 env sid (pointer_past_handoff env _ sid c1).1
      exact h1.showMenu env sid _ hsec1 hbtn1 hns1 x y
    · obtain ⟨x, y⟩ := calm_of_pointer h1 env sid (pointer_past_handoff env _ sid c1).1
      exact h1.start env sid 0 hsec1 hbtn1 hns1 x y
    · rw [(pointer_past_handoff env _ sid c1).2] at c5
      exact absurd c5 (by decide)
    · obtain ⟨x, y⟩ := calm_of_pointer h1 env sid (pointer_past_handoff env _ sid c1).1
      have h2 := h1.start env sid 0 hsec1 hbtn1 hns1 x y
      exact h2.quiet_same (quiet_setStore _ sid _ (startReadingSection_store env sid 0 _ _ hr))
        rfl rfl

/-! ### The menu choices -/

/-- A menu choice keeps the invariant when no hand-off is settling and, if the pointer names
another section, the engine is speaking and not paused. -/
theorem Inv.choose {s : State} (h : Inv s) (env : Env) (sid : SectionId) (k : Int)
    (hsec : sid ∈ s.sections) (hbtn : (s.el sid).button.isSome = true)
    (hns : settling s = false)
    (hk : ∀ p, s.currentReadingSection = some p → p ≠ sid →
      env.speaking = true ∧ env.paused = false) :
    Inv (startReadingSection env sid k s) := by
  cases hp : s.currentReadingSection with
  | none =>
    obtain ⟨x, y⟩ := calm_of_pointer h env sid (Or.inl hp)
    exact h.start env sid k hsec hbtn hns x y
  | some p =>
    by_cases e : p = sid
    · subst e
      obtain ⟨x, y⟩ := calm_of_pointer h env p (Or.inr hp)
      exact h.start env p k hsec hbtn hns x y
    · obtain ⟨k1, k2⟩ := hk p hp e
      obtain ⟨x, y⟩ := calm_of_speaking h env sid p hp e k1 k2
      exact h.start env sid k hsec hbtn hns x y

theorem Inv.restartChoice {s : State} (h : Inv s) (env : Env) (sid : SectionId)
    (hns : settling s = false)
    (hk : ∀ p, s.currentReadingSection = some p → p ≠ sid →
      env.speaking = true ∧ env.paused = false) : Inv (chooseRestart env sid s) := by
  unfold chooseRestart
  split
  · exact h
  · rename_i m hm
    obtain ⟨a, b⟩ := h.menu_valid sid (by simp [hm])
    have h1 : Inv (s.modEl sid fun e => { e with menu := none }) :=
      h.quiet_same (quiet_closeMenu s sid) rfl rfl
    have h2 := h1.alloc sid
    refine h2.choose env sid 0 (by simpa using a) ?_ (by unfold settling at *; simpa using hns)
      (by simpa using hk)
    simp only [State.allocRecord_fields, State.modEl_fields, if_true]
    exact b

theorem Inv.continueChoice {s : State} (h : Inv s) (env : Env) (sid : SectionId)
    (hns : settling s = false)
    (hk : ∀ p, s.currentReadingSection = some p → p ≠ sid →
      env.speaking = true ∧ env.paused = false) : Inv (chooseContinue env sid s) := by
  unfold chooseContinue
  split
  · exact h
  · rename_i m hm
    obtain ⟨a, b⟩ := h.menu_valid sid (by simp [hm])
    have h1 : Inv (s.modEl sid fun e => { e with menu := none }) :=
      h.quiet_same (quiet_closeMenu s sid) rfl rfl
    refine h1.choose env sid _ (by simpa using a) ?_ (by unfold settling at *; simpa using hns)
      (by simpa using hk)
    simp only [State.modEl_fields, if_true]
    exact b

/-! ### The engine events -/

/-- Scheduling the zero-delay continuation keeps the invariant. -/
theorem Inv.kick {s : State} (h : Inv s) : Inv (s.setTimeout .preserveKick) := by
  refine h.quiet (quiet_setTimeout _ _) (Or.inl rfl) ?_ ?_ ?_ ?_
  · intro x hx i hi
    simp only [State.setTimeout_fields, List.mem_append, List.mem_singleton] at hx
    rcases hx with hx | rfl
    · exact h.timer_valid x hx i hi
    · simp [Timer.sectionId] at hi
  · simpa [List.filter_append, Timer.isSettle] using h.settle_count
  · intro hs; left
    rw [settling_iff] at hs ⊢
    obtain ⟨x, hx, hxs⟩ := hs
    simp only [State.setTimeout_fields, List.mem_append, List.mem_singleton] at hx
    rcases hx with hx | rfl
    · exact ⟨x, hx, hxs⟩
    · simp [Timer.isSettle] at hxs
  · intro x hx hxs
    simp only [State.setTimeout_fields, List.mem_append, List.mem_singleton] at hx
    rcases hx with hx | rfl
    · exact h.start_pending x hx hxs
    · simp [Timer.isStart] at hxs

/-- Marking the pointer's record playing and showing 'playing' on its section keeps the
invariant while no hand-off settles. -/
theorem Inv.play {s : State} (h : Inv s) (sid : SectionId) (r : Nat)
    (hp : s.currentReadingSection = some sid) (hst : s.readingState sid = some r)
    (hns : settling s = false) (f : ReadingRecord → ReadingRecord)
    (g : SectionEl → SectionEl) (hg1 : ∀ e, (g e).button = e.button)
    (hg2 : ∀ e, (g e).menu = e.menu) :
    Inv ((s.modRec r f).modEl sid fun e => updateReadingButton (g e) .playing) := by
  have hset : settling ((s.modRec r f).modEl sid fun e =>
      updateReadingButton (g e) .playing) = false := hns
  have hb : ∀ i, (((s.modRec r f).modEl sid fun e =>
      updateReadingButton (g e) .playing).el i).button.isSome = (s.el i).button.isSome := by
    intro i
    simp only [State.modEl_fields, State.modRec_fields]
    split_ifs with e
    · subst e; simp [hg1]
    · rfl
  have hic : ∀ i, hasIconButton (((s.modRec r f).modEl sid fun e =>
      updateReadingButton (g e) .playing).el i) = hasIconButton (s.el i) := by
    intro i
    simp only [State.modEl_fields, State.modRec_fields]
    split_ifs with e
    · subst e
      rw [(updateReadingButton_frame _ _).2.2.2.2]
      simp [hasIconButton, hg1]
    · rfl
  refine ⟨?_, h.inj, h.bound, ?_, ?_, ?_, ?_, h.settle_count, ?_, ?_, ?_, h.start_pending⟩
  · intro a ρ hr hpl
    by_cases e : ρ = r
    · subst e
      rw [h.inj a sid ρ hr hst]; exact hp
    · have : (s.heap ρ).playing = true := by simpa [e] using hpl
      exact h.playing_ptr a ρ hr this
  · intro p hpp
    obtain ⟨a, b, c⟩ := h.ptr_valid p hpp
    exact ⟨a, by rw [hb]; exact b, c⟩
  · intro i hi
    rw [hic]
    by_cases e : i = sid
    · subst e
      refine ⟨hp, ?_⟩
      cases hc : hasIconButton (s.el i) with
      | true => rfl
      | false =>
        simp only [State.modEl_fields, State.modRec_fields, if_true] at hi
        rw [hasPlayingButton_update] at hi
        have hgi : hasIconButton (g (s.el i)) = false := by
          simpa [hasIconButton, hg1] using hc
        rw [hgi] at hi
        have : hasPlayingButton (s.el i) = true := by
          simpa [hasPlayingButton, hg1] using hi
        rw [(h.btn_ptr i this).2] at hc
        exact absurd hc (by decide)
    · have : hasPlayingButton (s.el i) = true := by simpa [e] using hi
      exact h.btn_ptr i this
  · intro i hi
    have hm : (s.el i).menu.isSome = true := by
      simp only [State.modEl_fields, State.modRec_fields] at hi
      split_ifs at hi with e
      · subst e; simpa [hg2] using hi
      · exact hi
    obtain ⟨a, b⟩ := h.menu_valid i hm
    exact ⟨a, by rw [hb]; exact b⟩
  · intro x hx i hi
    obtain ⟨a, b⟩ := h.timer_valid x hx i hi
    exact ⟨a, by rw [hb]; exact b⟩
  · intro hs; rw [hset] at hs; exact absurd hs (by decide)
  · intro hs; rw [hset] at hs; exact absurd hs (by decide)
  · intro hs; rw [hset] at hs; exact absurd hs (by decide)

/-- A live utterance exists only while no hand-off settles. -/
theorem not_settling_of_live {s : State} (h : Inv s) (u : Nat) (hl : isLive s u) :
    settling s = false := by
  cases hs : settling s with
  | false => rfl
  | true =>
    have := h.settle_handle hs _ _ hl.1 hl.2.1
    rw [hl.2.2] at this
    exact absurd this (by simp)

theorem Inv.onstartLive {s : State} (h : Inv s) (env : Env) (u : Nat) (hl : isLive s u) :
    Inv (onstart env u s) := by
  unfold onstart
  have h1 := h.play _ _ hl.1 hl.2.1 (not_settling_of_live h u hl)
    (fun rec => { rec with playing := true, paused := false, startTime := some env.now })
    (fun e => { e with clsReading := true }) (fun _ => rfl) (fun _ => rfl)
  exact (h1.kick).quiet_same (quiet_announce _ _) rfl rfl

theorem Inv.onresumeLive {s : State} (h : Inv s) (env : Env) (u : Nat) (hl : isLive s u) :
    Inv (onresume env u s) := by
  unfold onresume
  have h1 := h.play _ _ hl.1 hl.2.1 (not_settling_of_live h u hl)
    (fun rec => { rec with paused := false, playing := true, startTime := some env.now })
    id (fun _ => rfl) (fun _ => rfl)
  exact h1.quiet_same (quiet_setStore _ _ _ (by simpa using hl.2.1)) rfl rfl

theorem Inv.onendCurrent {s : State} (h : Inv s) (u : Nat) (hc : isCurrent s u) :
    Inv (onend u s) := by
  have q := quiet_onend u s hc
  have k : (onend u s).timers = s.timers ∧
      (onend u s).currentReadingSection =
        (if s.currentReadingSection == some (s.utterances u).sectionId then none
          else s.currentReadingSection) ∧
      ((onend u s).heap (s.utterances u).readingState).playing = false ∧
      (onend u s).el (s.utterances u).sectionId =
        updateReadingButton { s.el (s.utterances u).sectionId with
          clsReading := false, clsPlaying := false, clsPaused := false } .stopped := by
    simp [onend]
  obtain ⟨k1, k2, k3, k4⟩ := k
  by_cases e : s.currentReadingSection = some (s.utterances u).sectionId
  · have kp : (onend u s).currentReadingSection = none := by rw [k2]; simp [e]
    refine h.quiet q (Or.inr ⟨kp, ?_, ?_⟩) ?_ ?_ ?_ ?_
    · intro a r hr
      cases hpl : ((onend u s).heap r).playing with
      | false => rfl
      | true =>
        have hr' : s.readingState a = some r := by rw [← q.store]; exact hr
        have := h.playing_ptr a r hr' (q.playing r hpl)
        rw [e] at this
        have ha : (s.utterances u).sectionId = a := Option.some.inj this
        rw [← ha, hc.1] at hr'
        have : (s.utterances u).readingState = r := Option.some.inj hr'
        rw [← this, k3] at hpl
        exact absurd hpl (by decide)
    · intro i
      cases hsh : hasPlayingButton ((onend u s).el i) with
      | false => rfl
      | true =>
        obtain ⟨a, b⟩ := h.btn_ptr i (q.shown i hsh)
        rw [e] at a
        have ha : (s.utterances u).sectionId = i := Option.some.inj a
        rw [← ha, k4, hasPlayingButton_update] at hsh
        have : hasIconButton { s.el (s.utterances u).sectionId with
            clsReading := false, clsPlaying := false, clsPaused := false } = true := by
          rw [← ha] at b; simpa [hasIconButton] using b
        rw [this] at hsh
        simp at hsh
    · intro x hx i hi; rw [k1] at hx; exact h.timer_valid x hx i hi
    · rw [k1]; exact h.settle_count
    · intro hs; left; unfold settling at *; rw [k1] at hs; exact hs
    · intro x hx hxs; exact kp
  · exact h.quiet_same q (by rw [k2]; simp [e]) k1

/-- What the reconcile pass leaves untouched. -/
theorem preserveOther_frame (s : State) :
    (preserveOtherSectionsPausedState s).currentReadingSection = s.currentReadingSection ∧
      (preserveOtherSectionsPausedState s).timers = s.timers := by
  unfold preserveOtherSectionsPausedState
  generalize s.sections = l
  induction l generalizing s with
  | nil => exact ⟨rfl, rfl⟩
  | cons j l ih =>
    have : (preserveSection s j).currentReadingSection = s.currentReadingSection ∧
        (preserveSection s j).timers = s.timers := by
      unfold preserveSection
      split
      · split_ifs <;> simp
      · exact ⟨rfl, rfl⟩
    simp only [List.foldl]
    rw [(ih _).1, (ih _).2]
    exact this

/-! ### The timers -/

/-- When nothing plays and nothing shows `reading-playing`, clearing the pointer, quietly,
and scheduling the start continuation of the settling hand-off keeps the invariant. -/
theorem Inv.settleStep {s t : State} (h : Inv s) (q : Quiet s t) (x : Timer)
    (hx : x.isSettle = true) (hxv : ∀ sid, x.sectionId = some sid →
      sid ∈ s.sections ∧ (s.el sid).button.isSome = true)
    (hp : t.currentReadingSection = none) (ht : t.timers = s.timers)
    (hns : settling s = false)
    (h1 : ∀ a r, s.readingState a = some r → (s.heap r).playing = false)
    (h2 : ∀ i, hasPlayingButton (s.el i) = false) : Inv (t.setTimeout x) := by
  have g1 : ∀ a r, t.readingState a = some r → (t.heap r).playing = false := by
    intro a r hr
    cases hc : (t.heap r).playing with
    | false => rfl
    | true =>
      have := h1 a r (by rw [← q.store]; exact hr)
      rw [q.playing r hc] at this; exact absurd this (by decide)
  have g2 : ∀ i, hasPlayingButton (t.el i) = false := by
    intro i
    cases hc : hasPlayingButton (t.el i) with
    | false => rfl
    | true => have := h2 i; rw [q.shown i hc] at this; exact absurd this (by decide)
  refine h.quiet (Quiet.trans q (quiet_setTimeout _ _)) (Or.inr ⟨hp, g1, g2⟩) ?_ ?_ ?_ ?_
  · intro y hy i hi
    simp only [State.setTimeout_fields, ht, List.mem_append, List.mem_singleton] at hy
    rcases hy with hy | rfl
    · exact h.timer_valid y hy i hi
    · exact hxv i hi
  · simp [ht, List.filter_append, filter_isSettle_eq_nil s hns, hx]
  · intro _; right
    exact ⟨g1, g2, fun p r hpp _ => by simp [hp] at hpp⟩
  · intro _ _ _; exact hp

/-- Running a pending continuation keeps the invariant. -/
theorem Inv.timerStep {s : State} (h : Inv s) (env : Env) (i : Nat) (t : Timer)
    (hi : s.timers.get? i = some t) :
    Inv (runTimer env t { s with timers := s.timers.eraseIdx i }) := by
  have h0 := h.eraseTimer i
  have hmem : t ∈ s.timers := List.get?_mem hi
  have hval := h.timer_valid t hmem
  have hsil : t.isSettle = true →
      settling { s with timers := s.timers.eraseIdx i } = false ∧
      (∀ a r, s.readingState a = some r → (s.heap r).playing = false) ∧
      (∀ j, hasPlayingButton (s.el j) = false) := by
    intro ht
    have hs : settling s = true := (settling_iff s).mpr ⟨t, hmem, ht⟩
    exact ⟨settling_eraseTimer h i t hi ht, h.settle_playing hs, h.settle_button hs⟩
  cases t with
  | handoffCancel sid p =>
    obtain ⟨a, b, c⟩ := hsil rfl
    obtain ⟨f1, f2⟩ := preserveOther_frame
      (({ s with timers := s.timers.eraseIdx i }.engine .cancel).setPointer none)
    simp only [runTimer, handoffCancel]
    refine h0.settleStep ?_ (.handoffStart sid p) rfl ?_ ?_ ?_ a b c
    · exact Quiet.trans (Quiet.trans (Quiet.trans (quiet_engine _ _) (quiet_setPointer _ _))
        (quiet_preserveOther _)) (Quiet.of_eq rfl rfl rfl rfl rfl)
    · intro x hx; exact hval x (by simpa [Timer.sectionId] using hx)
    · simp [startPausedStatePreserver, f1]
    · simp [startPausedStatePreserver, f2]
  | handoffStart sid p =>
    obtain ⟨a, b, c⟩ := hsil rfl
    obtain ⟨v1, v2⟩ := hval sid rfl
    obtain ⟨f1, f2⟩ := preserveOther_frame { s with timers := s.timers.eraseIdx i }
    have qp := quiet_preserveOther { s with timers := s.timers.eraseIdx i }
    have hpre : Inv (preserveOtherSectionsPausedState
        { s with timers := s.timers.eraseIdx i }) := h0.quiet_same qp f1 f2
    have hstart : Inv (startReadingSection env sid 0
        (preserveOtherSectionsPausedState { s with timers := s.timers.eraseIdx i })) := by
      obtain ⟨x, y⟩ := calm_of_silent (s := preserveOtherSectionsPausedState
        { s with timers := s.timers.eraseIdx i }) env sid
        (fun a' r' hr' => by
          cases hc : ((preserveOtherSectionsPausedState
              { s with timers := s.timers.eraseIdx i }).heap r').playing with
          | false => rfl
          | true =>
            have := b a' r' (by rw [qp.store] at hr'; exact hr')
            rw [← this]; exact (qp.playing r' hc).symm)
        (fun j => by
          cases hc : hasPlayingButton ((preserveOtherSectionsPausedState
              { s with timers := s.timers.eraseIdx i }).el j) with
          | false => rfl
          | true => have := c j; rw [← this]; exact (qp.shown j hc).symm)
      refine hpre.start env sid 0 (by rw [qp.sections]; exact v1)
        (by rw [qp.button]; exact v2) ?_ x y
      unfold settling at *; rw [f2]; exact a
    simp only [runTimer, handoffStart]
    split
    · split_ifs
      · obtain ⟨x, y⟩ := calm_of_silent (s := { s with timers := s.timers.eraseIdx i }) env sid b c
        exact h0.showMenu env sid _ v1 v2 a x y
      · exact hstart
    · exact hstart
  | fallbackCancel sid =>
    obtain ⟨a, b, c⟩ := hsil rfl
    simp only [runTimer, fallbackCancel]
    refine h0.settleStep ?_ (.fallbackStart sid) rfl ?_ rfl rfl a b c
    · exact Quiet.trans (quiet_engine _ _) (quiet_setPointer _ _)
    · intro x hx; exact hval x (by simpa [Timer.sectionId] using hx)
  | fallbackStart sid =>
    obtain ⟨a, b, c⟩ := hsil rfl
    obtain ⟨v1, v2⟩ := hval sid rfl
    obtain ⟨x, y⟩ := calm_of_silent (s := { s with timers := s.timers.eraseIdx i }) env sid b c
    simp only [runTimer]
    exact h0.start env sid 0 v1 v2 a x y
  | preserveKick =>
    obtain ⟨f1, f2⟩ := preserveOther_frame { s with timers := s.timers.eraseIdx i }
    simp only [runTimer]
    exact h0.quiet_same (Quiet.trans (quiet_preserveOther _) (Quiet.of_eq rfl rfl rfl rfl rfl))
      (by simp [startPausedStatePreserver, f1]) (by simp [startPausedStatePreserver, f2])

/-! ### Stop-all and the remaining events -/

theorem stopSection_timers (s : State) (j : SectionId) :
    (stopSection s j).timers = s.timers := by
  unfold stopSection
  simp only []
  split
  · rfl
  · split_ifs <;> rfl
  · rfl

theorem foldl_stopSection_timers (l : List SectionId) (s : State) :
    (l.foldl stopSection s).timers = s.timers := by
  induction l generalizing s with
  | nil => rfl
  | cons j l ih => simp [List.foldl, ih, stopSection_timers]

theorem not_playing_of_shows (e : SectionEl) (a : Affordance) (ha : a ≠ .playing)
    (h : showsAffordance e a = true) : hasPlayingButton e = false := by
  unfold showsAffordance at h
  unfold hasPlayingButton
  cases hb : e.button with
  | none => rfl
  | some b =>
    rw [hb] at h
    cases a with
    | playing => exact absurd rfl ha
    | paused => simp at h; simp [h.1.1.1]
    | stopped => simp at h; simp [h.1.1.1]

/-- With an engine present, `stopAllReading` clears the pointer. -/
theorem stopAllReading_pointer (s : State) (hs : s.supported = true) :
    (stopAllReading s).currentReadingSection = none := by
  unfold stopAllReading
  simp only [hs, Bool.not_true, Bool.false_eq_true, if_false]
  rw [(foldl_stopSection s.sections ((s.engine .cancel).setPointer none)).2.1]
  rfl

theorem Inv.hidden {s : State} (h : Inv s) : Inv (stopAllReading s) := by
  have q := quiet_stopAllReading s
  cases hsup : s.supported with
  | false =>
    have : stopAllReading s = s := by simp [stopAllReading, hsup]
    rw [this]; exact h
  | true =>
    have k1 := stopAllReading_pointer s hsup
    have e : stopAllReading s =
        s.sections.foldl stopSection ((s.engine .cancel).setPointer none) := by
      simp [stopAllReading, hsup]
    have kt : (stopAllReading s).timers = s.timers := by
      rw [e, foldl_stopSection_timers]; rfl
    obtain ⟨-, -, k3⟩ := foldl_stopSection s.sections ((s.engine .cancel).setPointer none)
    have key : ∀ p, s.currentReadingSection = some p → ∀ r, s.readingState p = some r →
        ((stopAllReading s).heap r).playing = false ∧
          hasPlayingButton ((stopAllReading s).el p) = false := by
      intro p hp r hr
      obtain ⟨a, b, -⟩ := h.ptr_valid p hp
      obtain ⟨-, c2, -, c4⟩ := k3 p r (by simpa using b) (by simpa using hr)
        (Or.inl (by simpa using a))
      rw [← e] at c2 c4
      refine ⟨c2, ?_⟩
      cases hc : hasPlayingButton ((stopAllReading s).el p) with
      | false => rfl
      | true =>
        have hic := (h.btn_ptr p (q.shown p hc)).2
        have := not_playing_of_shows _ _ (by split_ifs <;> decide) (c4 (by simpa using hic))
        rw [this] at hc; exact absurd hc (by decide)
    refine h.quiet q (Or.inr ⟨k1, ?_, ?_⟩) ?_ ?_ ?_ ?_
    · intro a r hr
      cases hpl : ((stopAllReading s).heap r).playing with
      | false => rfl
      | true =>
        have hr' : s.readingState a = some r := by rw [← q.store]; exact hr
        have hp := h.playing_ptr a r hr' (q.playing r hpl)
        rw [(key a hp r hr').1] at hpl; exact absurd hpl (by decide)
    · intro i
      cases hc : hasPlayingButton ((stopAllReading s).el i) with
      | false => rfl
      | true =>
        have hp := (h.btn_ptr i (q.shown i hc)).1
        obtain ⟨-, -, c⟩ := h.ptr_valid i hp
        obtain ⟨r, hr⟩ := Option.isSome_iff_exists.mp c
        rw [(key i hp r hr).2] at hc; exact absurd hc (by decide)
    · intro x hx i hi; rw [kt] at hx; exact h.timer_valid x hx i hi
    · rw [kt]; exact h.settle_count
    · intro hs; left; unfold settling at *; rw [kt] at hs; exact hs
    · intro _ _ _; exact k1

theorem Inv.tick {s : State} (h : Inv s) : Inv (intervalTick s) := by
  unfold intervalTick
  split
  · exact h
  · obtain ⟨f1, f2⟩ := preserveOther_frame s
    exact h.quiet_same (Quiet.trans (quiet_preserveOther s) (Quiet.of_eq rfl rfl rfl rfl rfl))
      f1 f2

/-- A freshly loaded page satisfies the invariant. -/
theorem Inv.initial {s : State} (h : Initial s) : Inv s := by
  obtain ⟨-, h2, h3, -, -, h6, -, -, -, h10, h11⟩ := h
  refine ⟨?_, ?_, ?_, ?_, ?_, ?_, ?_, ?_, ?_, ?_, ?_, ?_⟩
  · intro a r hr; rw [h2] at hr; exact absurd hr (by simp)
  · intro a b r hr; rw [h2] at hr; exact absurd hr (by simp)
  · intro a r hr; rw [h2] at hr; exact absurd hr (by simp)
  · intro p hp; rw [h3] at hp; exact absurd hp (by simp)
  · intro i hi; rw [h11] at hi; exact absurd hi (by decide)
  · intro i hi; rw [h10] at hi; exact absurd hi (by simp)
  · intro x hx; rw [h6] at hx; exact absurd hx (by simp)
  · rw [h6]; simp
  · intro hs; unfold settling at hs; rw [h6] at hs; exact absurd hs (by simp)
  · intro hs; unfold settling at hs; rw [h6] at hs; exact absurd hs (by simp)
  · intro hs; unfold settling at hs; rw [h6] at hs; exact absurd hs (by simp)
  · intro x hx; rw [h6] at hx; exact absurd hx (by simp)

/-- Every orderly step keeps the invariant. -/
theorem Inv.orderlyStep {s : State} (h : Inv s) (env : Env) (ev : Event)
    (ho : Orderly env ev s) : Inv (step env ev s) := by
  cases ev with
  | click sid =>
    simp only [step]
    split_ifs with hc
    · exact h.toggle env sid hc.1 hc.2 ho
    · exact h
  | timer i =>
    simp only [step]
    split
    · exact h
    · rename_i t ht
      exact h.timerStep env i t ht
  | chooseRestart sid =>
    refine h.restartChoice env sid ho.1 fun p hp hne => ho.2 ?_
    simp [pointerElsewhere, hp, hne]
  | chooseContinue sid =>
    refine h.continueChoice env sid ho.1 fun p hp hne => ho.2 ?_
    simp [pointerElsewhere, hp, hne]
  | dismissMenu sid => exact h.quiet_same (quiet_closeMenu s sid) rfl rfl
  | onstart u =>
    simp only [step]
    split_ifs
    · exact h.onstartLive env u ho
    · exact h
  | onend u =>
    simp only [step]
    split_ifs
    · exact h.onendCurrent u ho
    · exact h
  | onerror u =>
    simp only [step]
    split_ifs
    · exact h.quiet_same (quiet_onerror u s) (by simp [onerror]) (by simp [onerror])
    · exact h
  | onboundary u w c =>
    simp only [step]
    split_ifs
    · refine h.quiet_same (quiet_onboundary u w c s) ?_ ?_ <;>
        · unfold onboundary
          simp only []
          split
          · rfl
          · split_ifs
            · split <;> rfl
            · rfl
    · exact h
  | onpause u =>
    simp only [step]
    split_ifs
    · exact h.quiet_same (quiet_onpause env u s ho) (by simp [onpause]) (by simp [onpause])
    · exact h
  | onresume u =>
    simp only [step]
    split_ifs
    · exact h.onresumeLive env u ho
    · exact h
  | hidden => exact h.hidden
  | tick => exact h.tick
  | contentChanged sid c =>
    exact h.quiet_same (quiet_modEl s sid (fun e => { e with content := c }) (fun _ => rfl)
      (fun _ => rfl) (fun _ h => h) (fun _ h => h)) rfl rfl

/-- Every state of an orderly run satisfies the invariant. -/
theorem Reachable.inv {s : State} (h : Reachable s) : Inv s := by
  induction h with
  | init s hi => exact Inv.initial hi
  | step s env ev _ ho ih => exact ih.orderlyStep env ev ho

/-- C1, as amended: in every state reached from a freshly loaded page by an orderly run
(clicks and menu choices only when no settle continuation is pending; a menu choice for a
section other than the pointer's only while the engine reports speaking and not paused;
`start` and `resume` only for the current utterance of the pointer's section; `end` and
`pause` only for an utterance that is the current handle of its section's record; timers,
`error`, boundaries, stop-all, interval ticks and text changes at any time, with any engine
status), at most one section's stored record has `playing = true`. -/
theorem mutual_exclusion (s : State) (h : Reachable s) (a b : SectionId) (ra rb : Nat)
    (ha : s.readingState a = some ra) (hb : s.readingState b = some rb)
    (hpa : (s.heap ra).playing = true) (hpb : (s.heap rb).playing = true) : a = b := by
  have hi := h.inv
  have h1 := hi.playing_ptr a ra ha hpa
  have h2 := hi.playing_ptr b rb hb hpb
  rw [h1] at h2
  exact Option.some.inj h2

/-- An orderly trace from a reachable state ends in a reachable state. -/
theorem Reachable.run {s : State} (h : Reachable s) (trace : List (Env × Event))
    (ho : OrderlyRun s trace) : Reachable (run s trace) := by
  induction trace generalizing s with
  | nil => exact h
  | cons e rest ih =>
    obtain ⟨env, ev⟩ := e
    exact ih (Reachable.step s env ev h ho.1) ho.2

set_option maxRecDepth 100000 in
/-- C1, witness of the amended statement: `handoffTrace` is an orderly run of the example
page; at its end section 1 is playing and it is the only section whose record is playing. -/
theorem mutual_exclusion_witness :
    ((recordOf (run (demoPage 500) handoffTrace) 1).map fun rec => rec.playing) = some true ∧
      ∀ b rb, (run (demoPage 500) handoffTrace).readingState b = some rb →
        ((run (demoPage 500) handoffTrace).heap rb).playing = true → 1 = b :=
  ⟨by decide, fun b rb hb hpb =>
    mutual_exclusion (run (demoPage 500) handoffTrace)
      (Reachable.run (Reachable.init (demoPage 500)
          ⟨rfl, fun _ => rfl, rfl, rfl, rfl, rfl, rfl, rfl, rfl, fun _ => rfl, fun _ => rfl⟩)
        handoffTrace (by decide))
      1 b 1 rb (by decide) hb (by decide) hpb⟩

/-! ## Flag exclusivity (C11) -/

theorem flagsExclusive_congr {a b : ReadingRecord} (h1 : a.playing = b.playing)
    (h2 : a.paused = b.paused) : flagsExclusive a = flagsExclusive b := by
  simp [flagsExclusive, h1, h2]

theorem FlagSafe.unchanged (s : State) : FlagSafe s s :=
  ⟨fun _ => Or.inr ⟨rfl, rfl⟩, fun _ _ h => Or.inl h⟩

theorem FlagSafe.andThen {s t v : State} (a : FlagSafe s t) (b : FlagSafe t v) : FlagSafe s v := by
  refine ⟨fun r => ?_, fun sid r h => ?_⟩
  · rcases b.cells r with h | ⟨h1, h2⟩
    · exact Or.inl h
    · rcases a.cells r with h3 | ⟨h3, h4⟩
      · left; rw [flagsExclusive_congr h1 h2]; exact h3
      · right; exact ⟨h1.trans h3, h2.trans h4⟩
  · rcases b.store sid r h with h1 | h1
    · rcases a.store sid r h1 with h2 | h2
      · exact Or.inl h2
      · right
        rcases b.cells r with h3 | ⟨h3, h4⟩
        · exact h3
        · rw [flagsExclusive_congr h3 h4]; exact h2
    · exact Or.inr h1

/-- A change that touches neither the store nor the heap. -/
theorem FlagSafe.sameRecords {s t v : State} (h : FlagSafe s t) (h1 : v.readingState = t.readingState)
    (h2 : v.heap = t.heap) : FlagSafe s v :=
  ⟨fun r => by rw [h2]; exact h.cells r, fun sid r hr => by
    rw [h1] at hr; rw [h2]; exact h.store sid r hr⟩

/-- A write to a record that keeps the two flags or leaves an exclusive pair. -/
theorem FlagSafe.modRec {s t : State} (h : FlagSafe s t) (r : Nat)
    (f : ReadingRecord → ReadingRecord)
    (hf : ∀ rec, flagsExclusive (f rec) = true ∨
      ((f rec).playing = rec.playing ∧ (f rec).paused = rec.paused)) :
    FlagSafe s (t.modRec r f) := by
  refine h.andThen ⟨fun i => ?_, fun sid i hi => Or.inl hi⟩
  simp only [State.modRec_fields]
  split_ifs
  · exact hf _
  · exact Or.inr ⟨rfl, rfl⟩

/-- Storing, for a section, the record it had at the start. -/
theorem FlagSafe.restore {s t : State} (h : FlagSafe s t) (sid : SectionId) (r : Nat)
    (hs : s.readingState sid = some r) : FlagSafe s (t.setStore sid r) := by
  refine ⟨h.cells, fun i x hx => ?_⟩
  simp only [State.setStore_fields] at hx
  split_ifs at hx with e
  · subst e
    cases hx
    exact Or.inl hs
  · exact h.store i x hx

/-- Storing a record whose flag pair is exclusive. -/
theorem FlagSafe.storeWritten {s t : State} (h : FlagSafe s t) (sid : SectionId) (r : Nat)
    (hx : flagsExclusive (t.heap r) = true) : FlagSafe s (t.setStore sid r) := by
  refine ⟨h.cells, fun i x hi => ?_⟩
  simp only [State.setStore_fields] at hi
  split_ifs at hi with e
  · cases hi
    exact Or.inr hx
  · exact h.store i x hi

theorem FlagSafe.allocated {s t : State} (h : FlagSafe s t) (sid : SectionId) :
    FlagSafe s (t.allocRecord sid) := by
  refine h.andThen ⟨fun i => ?_, fun j i hi => ?_⟩
  · simp only [State.allocRecord_fields]
    split_ifs
    · exact Or.inl rfl
    · exact Or.inr ⟨rfl, rfl⟩
  · simp only [State.allocRecord_fields] at hi ⊢
    split_ifs at hi with e
    · cases hi
      right
      simp [flagsExclusive, freshRecord]
    · exact Or.inl hi

theorem FlagSafe.ensured {s t : State} (h : FlagSafe s t) (sid : SectionId) :
    FlagSafe s (ensureRecord t sid).1 := by
  unfold ensureRecord
  cases t.readingState sid with
  | none => exact h.allocated sid
  | some r => exact h

theorem FlagSafe.engineWhen {s t : State} (h : FlagSafe s t) (c : Bool) (op : EngineOp) :
    FlagSafe s (t.engineWhen c op) := h.sameRecords rfl rfl

theorem FlagSafe.engine {s t : State} (h : FlagSafe s t) (op : EngineOp) :
    FlagSafe s (t.engine op) := h.sameRecords rfl rfl

theorem FlagSafe.announce {s t : State} (h : FlagSafe s t) (m : Announcement) :
    FlagSafe s (t.announce m) := h.sameRecords rfl rfl

theorem FlagSafe.setTimeout {s t : State} (h : FlagSafe s t) (x : Timer) :
    FlagSafe s (t.setTimeout x) := h.sameRecords rfl rfl

theorem FlagSafe.setPointer {s t : State} (h : FlagSafe s t) (p : Option SectionId) :
    FlagSafe s (t.setPointer p) := h.sameRecords rfl rfl

theorem FlagSafe.detachHandlers {s t : State} (h : FlagSafe s t) (u : Option Nat) :
    FlagSafe s (t.detachHandlers u) := h.sameRecords rfl rfl

theorem FlagSafe.modEl {s t : State} (h : FlagSafe s t) (sid : SectionId)
    (f : SectionEl → SectionEl) : FlagSafe s (t.modEl sid f) := h.sameRecords rfl rfl

/-- A write of the pair `(playing, paused)` with at most one flag set. -/
theorem FlagSafe.write {s t : State} (h : FlagSafe s t) (r : Nat)
    (f : ReadingRecord → ReadingRecord) (hf : ∀ rec, flagsExclusive (f rec) = true) :
    FlagSafe s (t.modRec r f) :=
  h.modRec r f fun rec => Or.inl (hf rec)

/-- A write that leaves both flags as they are. -/
theorem FlagSafe.keep {s t : State} (h : FlagSafe s t) (r : Nat)
    (f : ReadingRecord → ReadingRecord)
    (hf : ∀ rec, (f rec).playing = rec.playing ∧ (f rec).paused = rec.paused) :
    FlagSafe s (t.modRec r f) :=
  h.modRec r f fun rec => Or.inr (hf rec)

theorem flagSafe_inlineCheckpoint {s t : State} (h : FlagSafe s t) (env : Env) (ps : SectionId)
    (r : Nat) : FlagSafe s (inlineCheckpoint env ps r t) := by
  unfold inlineCheckpoint
  refine ((((h.engineWhen _ _).keep r _ ?_).write r _ ?_).modEl ps _).storeWritten ps r ?_
  · intro rec; split_ifs <;> simp
  · intro rec; simp [flagsExclusive]
  · simp [flagsExclusive]

theorem flagSafe_pausePrevious {s t : State} (h : FlagSafe s t) (env : Env) (sid : SectionId) :
    FlagSafe s (pausePrevious env sid t) := by
  unfold pausePrevious
  split
  · exact flagSafe_inlineCheckpoint h env _ _
  · exact h

theorem FlagSafe.addUtterance {s t : State} (h : FlagSafe s t) (f : Nat → Utterance) (n : Nat) :
    FlagSafe s { t with utterances := f, nextUtterance := n } := h.sameRecords rfl rfl

theorem flagSafe_beginUtterance {s t : State} (h : FlagSafe s t) (env : Env) (sid : SectionId)
    (k : Int) (T : Text) : FlagSafe s (beginUtterance env sid k T t) := by
  unfold beginUtterance
  refine (((((h.ensured sid).write _ _ ?_).addUtterance _ _).storeWritten sid _ ?_).setPointer
    _).engine _
  · intro rec; simp [flagsExclusive]
  · simp [flagsExclusive]

theorem flagSafe_startReadingSection {s t : State} (h : FlagSafe s t) (env : Env)
    (sid : SectionId) (k : Int) : FlagSafe s (startReadingSection env sid k t) := by
  unfold startReadingSection
  have h1 := (flagSafe_pausePrevious h env sid).engineWhen env.speaking .cancel
  simp only []
  split
  · exact h1
  · split_ifs
    · exact h1
    · exact flagSafe_beginUtterance h1 env sid k _

theorem flagSafe_onstart {s t : State} (h : FlagSafe s t) (env : Env) (u : Nat) :
    FlagSafe s (onstart env u t) := by
  unfold onstart
  refine ((((h.write _ _ ?_).modEl _ _).setTimeout _).announce _)
  intro rec; simp [flagsExclusive]

theorem flagSafe_onend {s t : State} (h : FlagSafe s t) (u : Nat) :
    FlagSafe s (onend u t) := by
  unfold onend
  refine (((((h.write _ _ ?_).modEl _ _).storeWritten _ _ ?_).setPointer _).announce _)
  · intro rec; simp [flagsExclusive]
  · simp [flagsExclusive]

theorem flagSafe_onerror {s t : State} (h : FlagSafe s t) (u : Nat) :
    FlagSafe s (onerror u t) := by
  unfold onerror
  refine (((h.write _ _ ?_).modEl _ _).announce _)
  intro rec; simp [flagsExclusive]

theorem flagSafe_onpause {s t : State} (h : FlagSafe s t) (env : Env) (u : Nat) :
    FlagSafe s (onpause env u t) := by
  unfold onpause
  refine (((h.write _ _ ?_).modEl _ _).storeWritten _ _ ?_)
  · intro rec; simp [flagsExclusive]
  · simp [flagsExclusive]

theorem flagSafe_onresume {s t : State} (h : FlagSafe s t) (env : Env) (u : Nat) :
    FlagSafe s (onresume env u t) := by
  unfold onresume
  refine (((h.write _ _ ?_).modEl _ _).storeWritten _ _ ?_)
  · intro rec; simp [flagsExclusive]
  · simp [flagsExclusive]

theorem flagSafe_onboundary (s : State) (u : Nat) (w : Bool) (c : Option Nat) :
    FlagSafe s (onboundary u w c s) := by
  unfold onboundary
  simp only []
  cases hcur : s.readingState (s.utterances u).sectionId with
  | none => exact FlagSafe.unchanged s
  | some cur =>
    simp only []
    split_ifs
    · cases w <;> cases c <;> simp only [] <;> try exact FlagSafe.unchanged s
      refine ((((FlagSafe.unchanged s).keep _ _ ?_).keep _ _ ?_).restore _ _ hcur)
      · intro rec; exact ⟨rfl, rfl⟩
      · intro rec; exact ⟨rfl, rfl⟩
    · exact FlagSafe.unchanged s

theorem flagSafe_preserveSection {s t : State} (h : FlagSafe s t) (j : SectionId) :
    FlagSafe s (preserveSection t j) := by
  unfold preserveSection
  split
  · split_ifs
    · refine (((h.modEl _ _).write _ _ ?_).storeWritten _ _ ?_)
      · intro rec; simp [flagsExclusive]
      · simp [flagsExclusive]
    · exact h
    · exact h
  · exact h

theorem flagSafe_preserveOther {s t : State} (h : FlagSafe s t) :
    FlagSafe s (preserveOtherSectionsPausedState t) := by
  unfold preserveOtherSectionsPausedState
  generalize t.sections = l
  induction l generalizing t with
  | nil => exact h
  | cons j l ih => exact ih (flagSafe_preserveSection h j)

theorem FlagSafe.preserver {s t : State} (h : FlagSafe s t) :
    FlagSafe s (startPausedStatePreserver t) := h.sameRecords rfl rfl

theorem flagSafe_intervalTick (s : State) : FlagSafe s (intervalTick s) := by
  unfold intervalTick
  split
  · exact FlagSafe.unchanged s
  · exact (flagSafe_preserveOther (FlagSafe.unchanged s)).sameRecords rfl rfl

theorem flagSafe_stopSection {s t : State} (h : FlagSafe s t) (j : SectionId) :
    FlagSafe s (stopSection t j) := by
  unfold stopSection
  simp only []
  split
  · exact h.modEl _ _
  · split_ifs
    · refine (((h.modEl _ _).write _ _ ?_).modEl _ _)
      intro rec; simp [flagsExclusive]
    · refine (((h.modEl _ _).write _ _ ?_).modEl _ _)
      intro rec; simp [flagsExclusive]
  · exact (h.modEl _ _).modEl _ _

theorem flagSafe_foldl_stopSection (l : List SectionId) {s t : State} (h : FlagSafe s t) :
    FlagSafe s (l.foldl stopSection t) := by
  induction l generalizing t with
  | nil => exact h
  | cons j l ih => exact ih (flagSafe_stopSection h j)

theorem flagSafe_stopAllReading (s : State) : FlagSafe s (stopAllReading s) := by
  unfold stopAllReading
  split_ifs
  · exact FlagSafe.unchanged s
  · exact flagSafe_foldl_stopSection _ (((FlagSafe.unchanged s).engine _).setPointer _)

theorem flagSafe_showReadingResumeOptions {s t : State} (h : FlagSafe s t) (env : Env)
    (sid : SectionId) (r : Nat) : FlagSafe s (showReadingResumeOptions env sid r t) := by
  unfold showReadingResumeOptions
  split
  · exact h.modEl _ _
  · split_ifs
    · exact flagSafe_startReadingSection h env sid 0
    · exact h.modEl _ _

theorem flagSafe_chooseRestart (s : State) (env : Env) (sid : SectionId) :
    FlagSafe s (chooseRestart env sid s) := by
  unfold chooseRestart
  split
  · exact FlagSafe.unchanged s
  · exact flagSafe_startReadingSection (((FlagSafe.unchanged s).modEl _ _).allocated sid) env sid 0

theorem flagSafe_chooseContinue (s : State) (env : Env) (sid : SectionId) :
    FlagSafe s (chooseContinue env sid s) := by
  unfold chooseContinue
  split
  · exact FlagSafe.unchanged s
  · exact flagSafe_startReadingSection ((FlagSafe.unchanged s).modEl _ _) env sid _

theorem flagSafe_handoffCheckpoint {s t : State} (h : FlagSafe s t) (env : Env)
    (ps : SectionId) (r : Nat) : FlagSafe s (handoffCheckpoint env ps r t) := by
  unfold handoffCheckpoint
  refine ((((((h.detachHandlers _).keep r _ ?_).engineWhen _ _).write r _ ?_).modEl ps
    _).storeWritten ps r ?_)
  · intro rec; simp
  · intro rec; simp [flagsExclusive]
  · simp [flagsExclusive]

theorem flagSafe_handoff {s t : State} (h : FlagSafe s t) (env : Env) (sid : SectionId)
    (bp : Bool) : FlagSafe s (handoff env sid bp t) := by
  unfold handoff
  simp only []
  split
  · exact (flagSafe_handoffCheckpoint (h.setPointer _) env _ _).setTimeout _
  · exact (h.setPointer _).setTimeout _

theorem flagSafe_handoffCancel (s : State) (sid : SectionId) (bp : Bool) :
    FlagSafe s (handoffCancel sid bp s) := by
  unfold handoffCancel
  exact (flagSafe_preserveOther (((FlagSafe.unchanged s).engine _).setPointer _)).preserver.setTimeout
    _

theorem flagSafe_handoffStart (s : State) (env : Env) (sid : SectionId) (bp : Bool) :
    FlagSafe s (handoffStart env sid bp s) := by
  unfold handoffStart
  split
  · split_ifs
    · exact flagSafe_showReadingResumeOptions (FlagSafe.unchanged s) env sid _
    · exact flagSafe_startReadingSection (flagSafe_preserveOther (FlagSafe.unchanged s)) env sid 0
  · exact flagSafe_startReadingSection (flagSafe_preserveOther (FlagSafe.unchanged s)) env sid 0

theorem flagSafe_clickPause {s t : State} (h : FlagSafe s t) (env : Env) (sid : SectionId)
    (r : Nat) : FlagSafe s (clickPause env sid r t) := by
  unfold clickPause
  refine (((((h.engineWhen _ _).write r _ ?_).modEl sid _).storeWritten sid r ?_).announce _)
  · intro rec
    rw [flagsExclusive_congr (checkpoint_frame _ _).1 (checkpoint_frame _ _).2.1]
    simp [flagsExclusive]
  · simp [flagsExclusive]

theorem flagSafe_fallbackCheckpoint {s t : State} (h : FlagSafe s t) (env : Env)
    (ps : SectionId) (r : Nat) : FlagSafe s (fallbackCheckpoint env ps r t) := by
  unfold fallbackCheckpoint
  refine (((((h.engineWhen _ _).keep r _ ?_).write r _ ?_).modEl ps _).storeWritten ps r ?_)
  · intro rec; simp
  · intro rec; simp [flagsExclusive]
  · simp [flagsExclusive]

theorem flagSafe_fallback {s t : State} (h : FlagSafe s t) (env : Env) (sid : SectionId) :
    FlagSafe s (fallback env sid t) := by
  unfold fallback
  simp only []
  split
  · exact (flagSafe_fallbackCheckpoint (h.setPointer _) env _ _).setTimeout _
  · exact (h.setPointer _).setTimeout _

theorem flagSafe_toggleSectionReading (s : State) (env : Env) (sid : SectionId) :
    FlagSafe s (toggleSectionReading env sid s) := by
  unfold toggleSectionReading
  have h0 : FlagSafe s (ensureRecord s sid).1 := (FlagSafe.unchanged s).ensured sid
  have hst : (ensureRecord s sid).1.readingState sid = some (ensureRecord s sid).2 :=
    (ensureRecord_fields s sid).2.2.2.2.2.2.2.2.2.2
  split_ifs
  · exact (FlagSafe.unchanged s).announce _
  · split
    · exact FlagSafe.unchanged s
    · simp only []
      split_ifs
      · exact flagSafe_handoff h0 env sid _
      · exact flagSafe_clickPause h0 env sid _
      · exact flagSafe_showReadingResumeOptions h0 env sid _
      · exact flagSafe_startReadingSection h0 env sid 0
      · exact h0.andThen ((flagSafe_fallback (FlagSafe.unchanged _) env sid).restore sid _ hst)
      · exact h0.andThen ((flagSafe_startReadingSection (FlagSafe.unchanged _) env sid 0).restore sid _
          hst)

theorem flagSafe_runTimer (s : State) (env : Env) (x : Timer) : FlagSafe s (runTimer env x s) := by
  cases x with
  | handoffCancel sid bp => exact flagSafe_handoffCancel s sid bp
  | handoffStart sid bp => exact flagSafe_handoffStart s env sid bp
  | fallbackCancel sid => exact (((FlagSafe.unchanged s).engine _).setPointer _).setTimeout _
  | fallbackStart sid => exact flagSafe_startReadingSection (FlagSafe.unchanged s) env sid 0
  | preserveKick => exact (flagSafe_preserveOther (FlagSafe.unchanged s)).preserver

/-- Every handler of the module is flag-safe. -/
theorem flagSafe_step (s : State) (env : Env) (ev : Event) : FlagSafe s (step env ev s) := by
  cases ev with
  | click sid =>
    simp only [step]
    split_ifs
    · exact flagSafe_toggleSectionReading s env sid
    · exact FlagSafe.unchanged s
  | timer i =>
    simp only [step]
    split
    · exact FlagSafe.unchanged s
    · rename_i x _
      have h1 : FlagSafe s { s with timers := s.timers.eraseIdx i } :=
        (FlagSafe.unchanged s).sameRecords rfl rfl
      exact h1.andThen (flagSafe_runTimer _ env x)
  | chooseRestart sid => exact flagSafe_chooseRestart s env sid
  | chooseContinue sid => exact flagSafe_chooseContinue s env sid
  | dismissMenu sid => exact (FlagSafe.unchanged s).sameRecords rfl rfl
  | onstart u =>
    simp only [step]
    split_ifs
    · exact flagSafe_onstart (FlagSafe.unchanged s) env u
    · exact FlagSafe.unchanged s
  | onend u =>
    simp only [step]
    split_ifs
    · exact flagSafe_onend (FlagSafe.unchanged s) u
    · exact FlagSafe.unchanged s
  | onerror u =>
    simp only [step]
    split_ifs
    · exact flagSafe_onerror (FlagSafe.unchanged s) u
    · exact FlagSafe.unchanged s
  | onboundary u w c =>
    simp only [step]
    split_ifs
    · exact flagSafe_onboundary s u w c
    · exact FlagSafe.unchanged s
  | onpause u =>
    simp only [step]
    split_ifs
    · exact flagSafe_onpause (FlagSafe.unchanged s) env u
    · exact FlagSafe.unchanged s
  | onresume u =>
    simp only [step]
    split_ifs
    · exact flagSafe_onresume (FlagSafe.unchanged s) env u
    · exact FlagSafe.unchanged s
  | hidden => exact flagSafe_stopAllReading s
  | tick => exact flagSafe_intervalTick s
  | contentChanged sid c => exact (FlagSafe.unchanged s).sameRecords rfl rfl

theorem StoreExclusive.of_flagSafe {s t : State} (h : StoreExclusive s) (q : FlagSafe s t) :
    StoreExclusive t := by
  intro sid r hr
  rcases q.store sid r hr with h1 | h1
  · rcases q.cells r with h2 | ⟨h2, h3⟩
    · exact h2
    · rw [flagsExclusive_congr h2 h3]; exact h sid r h1
  · exact h1

theorem StoreExclusive.afterRun {s : State} (h : StoreExclusive s) (trace : List (Env × Event)) :
    StoreExclusive (run s trace) := by
  induction trace generalizing s with
  | nil => exact h
  | cons e rest ih =>
    obtain ⟨env, ev⟩ := e
    exact ih (h.of_flagSafe (flagSafe_step s env ev))

/-- C11: from a freshly loaded page, after any run of events (clicks, timers, menu choices,
utterance callbacks current or stale, stop-all, interval ticks, text changes, with any engine
status), no record of the store has `playing = true` and `paused = true` together; and from
the state reached, whatever handler runs next leaves every record object either with its two
flags as they were or with a pair among `(false, false)`, `(true, false)`, `(false, true)`. -/
theorem flag_exclusivity (s : State) (trace : List (Env × Event)) (hi : Initial s) :
    (∀ sid r, (run s trace).readingState sid = some r →
        ¬ (((run s trace).heap r).playing = true ∧ ((run s trace).heap r).paused = true)) ∧
      ∀ env ev r, flagsExclusive ((step env ev (run s trace)).heap r) = true ∨
        (((step env ev (run s trace)).heap r).playing = ((run s trace).heap r).playing ∧
          ((step env ev (run s trace)).heap r).paused = ((run s trace).heap r).paused) := by
  have h0 : StoreExclusive s := by
    intro sid r hr
    rw [hi.2.1 sid] at hr
    cases hr
  refine ⟨fun sid r hr hb => ?_, fun env ev r => (flagSafe_step _ env ev).cells r⟩
  have := h0.afterRun trace sid r hr
  simp [flagsExclusive, hb.1, hb.2] at this

set_option maxRecDepth 100000 in
/-- C11, witness: the example page is freshly loaded; after `raceTrace`, the run that leaves
two sections playing, the three stored records have the flag pairs `(false, true)`,
`(true, false)` and `(true, false)`, none of them `(true, true)`. -/
theorem flag_exclusivity_witness :
    Initial (demoPage 500) ∧
      ((List.range 3).map fun sid =>
        (recordOf (run (demoPage 500) raceTrace) sid).map fun rec => (rec.playing, rec.paused)) =
        [some (false, true), some (true, false), some (true, false)] ∧
      ∀ sid r, (run (demoPage 500) raceTrace).readingState sid = some r →
        ¬ (((run (demoPage 500) raceTrace).heap r).playing = true ∧
          ((run (demoPage 500) raceTrace).heap r).paused = true) :=
  ⟨⟨rfl, fun _ => rfl, rfl, rfl, rfl, rfl, rfl, rfl, rfl, fun _ => rfl, fun _ => rfl⟩,
    by decide,
    (flag_exclusivity (demoPage 500) raceTrace
      ⟨rfl, fun _ => rfl, rfl, rfl, rfl, rfl, rfl, rfl, rfl, fun _ => rfl, fun _ => rfl⟩).1⟩

/-! ## A section without text (C12) -/

set_option maxRecDepth 100000 in
/-- C12, counterexample: section 0 is playing (pointer on section 0, engine speaking) and
section 1 has no `.section-content` child.  `startReadingSection` for section 1 at time 3000
pauses section 0 (its record goes from playing at offset 0 to paused at offset 300) and calls
`pause` and `cancel` on the engine. -/
theorem missing_text_still_pauses_and_cancels :
    ((run (demoPage 500) playingBesideEmpty).el 1).content = none ∧
      (run (demoPage 500) playingBesideEmpty).currentReadingSection = some 0 ∧
      ((recordOf (run (demoPage 500) playingBesideEmpty) 0).map
        fun rec => (rec.playing, rec.paused, rec.charIndex)) = some (true, false, 0) ∧
      (run (demoPage 500) playingBesideEmpty).engineLog = [.speak 0] ∧
      ((recordOf (startReadingSection (speakingAt 3000) 1 0
          (run (demoPage 500) playingBesideEmpty)) 0).map
        fun rec => (rec.playing, rec.paused, rec.charIndex)) = some (false, true, 300) ∧
      (startReadingSection (speakingAt 3000) 1 0
          (run (demoPage 500) playingBesideEmpty)).engineLog = [.speak 0, .pause, .cancel] := by
  decide

theorem pausePrevious_silent (env : Env) (sid : SectionId) (s : State)
    (h : env.speaking = false) : pausePrevious env sid s = s := by
  unfold pausePrevious previousToPause
  cases s.currentReadingSection <;> simp [h]

theorem pausePrevious_engineLog (env : Env) (sid : SectionId) (s : State) :
    (pausePrevious env sid s).engineLog =
      s.engineLog ++ (if (previousToPause env sid s).isSome then [.pause] else []) := by
  unfold pausePrevious
  cases h : previousToPause env sid s with
  | none => simp
  | some t =>
    obtain ⟨ps, r⟩ := t
    obtain ⟨_, _, ⟨h1, h2⟩, _⟩ := previousToPause_spec env sid s ps r h
    simp [inlineCheckpoint, h1, h2]

theorem pausePrevious_heap (env : Env) (sid : SectionId) (s : State) (r : Nat)
    (h : ∀ ps, previousToPause env sid s ≠ some (ps, r)) :
    (pausePrevious env sid s).heap r = s.heap r := by
  unfold pausePrevious
  cases hp : previousToPause env sid s with
  | none => rfl
  | some t =>
    obtain ⟨ps, x⟩ := t
    have hne : r ≠ x := fun e => h ps (by rw [hp, e])
    simp [inlineCheckpoint, hne]

/-- C12, as amended: when the section has no `.section-content` child or its text is empty,
`startReadingSection` creates no utterance and calls no `speak`, and leaves the global pointer
and the store's mapping from sections to records as they were; with an engine that is not
speaking it leaves the whole state unchanged.  With an engine that is speaking it calls
`cancel`, preceded by `pause` when the engine is not paused and the pointer names another
section with a record and a button; the record of that section is the only one it changes. -/
theorem missing_text_starts_nothing (env : Env) (sid : SectionId) (k : Int) (s : State)
    (h : (s.el sid).content = none ∨ (s.el sid).content = some []) :
    (startReadingSection env sid k s).currentReadingSection = s.currentReadingSection ∧
      (∀ i, (startReadingSection env sid k s).readingState i = s.readingState i) ∧
      (startReadingSection env sid k s).nextUtterance = s.nextUtterance ∧
      (startReadingSection env sid k s).utterances = s.utterances ∧
      (startReadingSection env sid k s).engineLog =
        s.engineLog ++ (if (previousToPause env sid s).isSome then [.pause] else []) ++
          (if env.speaking then [.cancel] else []) ∧
      (∀ r, (∀ ps, previousToPause env sid s ≠ some (ps, r)) →
        (startReadingSection env sid k s).heap r = s.heap r) ∧
      (env.speaking = false → startReadingSection env sid k s = s) := by
  obtain ⟨f1, f2, f3, f4, f5, f6, f7, f8, f9⟩ := pausePrevious_frame env sid s
  have hstart : startReadingSection env sid k s =
      (pausePrevious env sid s).engineWhen env.speaking .cancel := by
    unfold startReadingSection
    simp only [State.engineWhen_fields]
    rcases h with h | h
    · rw [f8, h]
    · rw [f8, h]; rfl
  rw [hstart]
  refine ⟨by simp [f1], fun i => by simp [f7], by simp [f3], by simp [f4], ?_, fun r hr => ?_,
    fun hsp => ?_⟩
  · simp only [State.engineWhen_fields, pausePrevious_engineLog]
    cases env.speaking <;> simp
  · simp [pausePrevious_heap env sid s r hr]
  · rw [pausePrevious_silent env sid s hsp, hsp]
    rfl

set_option maxRecDepth 100000 in
/-- C12, witness of the amended statement: section 1 of the example page has lost its text
while section 0 is the pointer; `startReadingSection` for section 1 with a silent engine
changes nothing, and with the engine speaking it keeps the pointer on section 0 and creates no
utterance. -/
theorem missing_text_starts_nothing_witness :
    ((run (demoPage 500) playingBesideEmpty).el 1).content = none ∧
      startReadingSection (idleAt 3000) 1 0 (run (demoPage 500) playingBesideEmpty) =
        run (demoPage 500) playingBesideEmpty ∧
      (startReadingSection (speakingAt 3000) 1 0
        (run (demoPage 500) playingBesideEmpty)).currentReadingSection = some 0 ∧
      (startReadingSection (speakingAt 3000) 1 0
        (run (demoPage 500) playingBesideEmpty)).nextUtterance = 1 :=
  ⟨by decide,
    (missing_text_starts_nothing (idleAt 3000) 1 0 (run (demoPage 500) playingBesideEmpty)
      (Or.inl (by decide))).2.2.2.2.2.2 rfl,
    by decide, by decide⟩

/-! ## The handle of a section that is handed off (C13) -/

set_option maxRecDepth 100000 in
/-- C13, the code at the failing input: section 1 is playing utterance 1 and section 0 has
its resume menu open.  "Restart from Beginning" for section 0 at time 4000, with the engine
speaking, runs the inline checkpoint-and-pause of `startReadingSection`: section 1's record is
checkpointed at offset 180 and paused, and its handle is still utterance 1.  A click on
section 2 in the same state, which takes the hand-off path of `toggleSectionReading`, leaves
the same record with a null handle. -/
theorem inline_handoff_keeps_handle :
    ((recordOf (run (demoPage 500) secondSectionPlaying) 1).map
        fun rec => (rec.playing, rec.paused, rec.charIndex, rec.utterance)) =
      some (true, false, 0, some 1) ∧
    (run (demoPage 500) secondSectionPlaying).currentReadingSection = some 1 ∧
    ((recordOf (step (speakingAt 4000) (.chooseRestart 0)
        (run (demoPage 500) secondSectionPlaying)) 1).map
        fun rec => (rec.playing, rec.paused, rec.charIndex, rec.utterance)) =
      some (false, true, 180, some 1) ∧
    (step (speakingAt 4000) (.chooseRestart 0)
        (run (demoPage 500) secondSectionPlaying)).currentReadingSection = some 0 ∧
    ((recordOf (step (speakingAt 4000) (.click 2)
        (run (demoPage 500) secondSectionPlaying)) 1).map
        fun rec => (rec.playing, rec.paused, rec.charIndex, rec.utterance)) =
      some (false, true, 180, none) :=
  ⟨by decide, by decide, by decide, by decide, by decide⟩

/-! ## An utterance error (C14) -/

/-- C14: the `onerror` callback of the utterance `u` of section `S`, whose record `r` is the
one the store holds for `S`, leaves that record with `playing = false` and `paused = false`
and its other fields as they were, shows 'stopped' on `S`'s button (which has its icon span),
and leaves the store, the global pointer and the engine alone: every record object other than
`r` is unchanged, so every other section keeps its record (flags, `charIndex`, `fullText`,
`utterance`) as it was. -/
theorem onerror_contained (env : Env) (s : State) (u r : Nat) (S : SectionId)
    (hu : u < s.nextUtterance) (hslot : (s.utterances u).onerror = true)
    (hS : (s.utterances u).sectionId = S) (hr : (s.utterances u).readingState = r)
    (hstore : s.readingState S = some r) (hicon : hasIconButton (s.el S) = true) :
    recordOf (step env (.onerror u) s) S =
        some { s.heap r with playing := false, paused := false } ∧
      showsAffordance ((step env (.onerror u) s).el S) .stopped = true ∧
      (∀ T, (step env (.onerror u) s).readingState T = s.readingState T) ∧
      (∀ x, x ≠ r → (step env (.onerror u) s).heap x = s.heap x) ∧
      (∀ T x, T ≠ S → s.readingState T = some x → x ≠ r →
        recordOf (step env (.onerror u) s) T = some (s.heap x)) ∧
      (step env (.onerror u) s).currentReadingSection = s.currentReadingSection ∧
      (step env (.onerror u) s).engineLog = s.engineLog := by
  have e : step env (.onerror u) s = onerror u s := by simp [step, hu, hslot]
  rw [e]
  unfold onerror
  simp only [hS, hr]
  refine ⟨by simp [recordOf, hstore], ?_, fun T => by simp, fun x hx => by simp [hx],
    fun T x _ hT hx => by simp [recordOf, hT, hx], by simp, by simp⟩
  simp only [State.announce_fields, State.modEl_fields, if_true]
  apply updateReadingButton_shows
  simpa [hasIconButton] using hicon

set_option maxRecDepth 100000 in
/-- C14, witness: section 1 of the example page is playing utterance 1 while section 0 is
paused at offset 345.  The error callback of utterance 1 leaves section 1 stopped and section
0's record as it was. -/
theorem onerror_contained_witness :
    ((recordOf (step (idleAt 5000) (.onerror 1) (run (demoPage 500) secondSectionPlaying)) 1).map
        fun rec => (rec.playing, rec.paused)) = some (false, false) ∧
      showsAffordance ((step (idleAt 5000) (.onerror 1)
        (run (demoPage 500) secondSectionPlaying)).el 1) .stopped = true ∧
      recordOf (step (idleAt 5000) (.onerror 1) (run (demoPage 500) secondSectionPlaying)) 0 =
        recordOf (run (demoPage 500) secondSectionPlaying) 0 ∧
      ((recordOf (run (demoPage 500) secondSectionPlaying) 0).map
        fun rec => (rec.playing, rec.paused, rec.charIndex)) = some (false, true, 345) := by
  have h := onerror_contained (idleAt 5000) (run (demoPage 500) secondSectionPlaying) 1 1 1
    (by decide) (by decide) (by decide) (by decide) (by decide) (by decide)
  refine ⟨?_, h.2.1, ?_, by decide⟩
  · rw [h.1]; decide
  · simp only [recordOf]
    rw [h.2.2.1 0]
    have h0 : (run (demoPage 500) secondSectionPlaying).readingState 0 = some 0 := by decide
    rw [h0]
    simp only [Option.map_some']
    rw [h.2.2.2.1 0 (by decide)]

/-! ## A platform without a speech engine (C15) -/

set_option maxRecDepth 100000 in
/-- C15, the code at the failing input: on the example page without a speech engine a click
on section 0 only announces that speech is not supported (no engine call, no record stored),
whereas `stopAllReading` ends in the `TypeError` of its unguarded call of
`window.speechSynthesis.cancel()`. -/
theorem stopAllReading_without_engine_throws :
    pageWithoutEngine.supported = false ∧
      (step (idleAt 1000) (.click 0) pageWithoutEngine).engineLog = [] ∧
      (step (idleAt 1000) (.click 0) pageWithoutEngine).announcements = [.notSupported] ∧
      ((List.range 3).map (step (idleAt 1000) (.click 0) pageWithoutEngine).readingState) =
        [none, none, none] ∧
      (match stopAllReadingResult pageWithoutEngine with
        | .error .typeError => true
        | .ok _ => false) = true :=
  ⟨by decide, by decide, by decide, by decide, by decide⟩

/-! ## A click on a finished section (C16) -/

set_option maxRecDepth 100000 in
/-- C16, the code at the failing input: after `finishedAtOffset` section 0 shows 'stopped',
its record is neither playing nor paused, with offset 480 of 500, and the pointer is null.  A
click on section 0 at time 5000 with an idle engine opens the resume menu on that record:
no utterance is created, no engine call is made and the offset stays 480.  After
`finishedAtZero`, where the offset is 0, the same click starts utterance 1 on the whole
text. -/
theorem finished_section_click_opens_menu :
    (showsAffordance ((run (demoPage 500) finishedAtOffset).el 0) .stopped = true ∧
      ((recordOf (run (demoPage 500) finishedAtOffset) 0).map
        fun rec => (rec.playing, rec.paused, rec.charIndex, rec.fullText.length)) =
        some (false, false, 480, 500) ∧
      (run (demoPage 500) finishedAtOffset).currentReadingSection = none ∧
      ((run (demoPage 500) finishedAtOffset).el 0).menu = none) ∧
    (((step (idleAt 5000) (.click 0) (run (demoPage 500) finishedAtOffset)).el 0).menu =
        some 0 ∧
      (step (idleAt 5000) (.click 0) (run (demoPage 500) finishedAtOffset)).nextUtterance = 1 ∧
      (step (idleAt 5000) (.click 0) (run (demoPage 500) finishedAtOffset)).engineLog =
        [.speak 0] ∧
      ((recordOf (step (idleAt 5000) (.click 0) (run (demoPage 500) finishedAtOffset)) 0).map
        fun rec => (rec.playing, rec.paused, rec.charIndex)) = some (false, false, 480)) ∧
    (((step (idleAt 5000) (.click 0) (run (demoPage 500) finishedAtZero)).el 0).menu = none ∧
      (step (idleAt 5000) (.click 0) (run (demoPage 500) finishedAtZero)).engineLog =
        [.speak 0, .speak 1] ∧
      ((step (idleAt 5000) (.click 0) (run (demoPage 500) finishedAtZero)).utterances 1).text =
        List.replicate 500 'a' ∧
      ((recordOf (step (idleAt 5000) (.click 0) (run (demoPage 500) finishedAtZero)) 0).map
        fun rec => (rec.playing, rec.paused, rec.charIndex)) = some (true, false, 0)) :=
  ⟨⟨by decide, by decide, by decide, by decide⟩, ⟨by decide, by decide, by decide, by decide⟩,
    ⟨by decide, by decide, by decide, by decide⟩⟩

/-! ## The trigger of the hand-off path (C17) -/

set_option maxRecDepth 100000 in
/-- C17, counterexample: after `pausedAtOffset` the pointer names section 0, which is paused,
and the engine reports paused.  A click on section 1 at time 2500 takes the hand-off path all
the same: it checkpoints section 0 again (offset 120 becomes 345) and schedules the settle
continuation; so does a click with the engine silent. -/
theorem handoff_taken_while_engine_paused :
    (run (demoPage 500) pausedAtOffset).currentReadingSection = some 0 ∧
      ((recordOf (run (demoPage 500) pausedAtOffset) 0).map
        fun rec => (rec.paused, rec.charIndex)) = some (true, 120) ∧
      (run (demoPage 500) pausedAtOffset).timers = [] ∧
      (step (pausedAt 2500) (.click 1) (run (demoPage 500) pausedAtOffset)).timers =
        [.handoffCancel 1 false] ∧
      ((recordOf (step (pausedAt 2500) (.click 1) (run (demoPage 500) pausedAtOffset)) 0).map
        fun rec => (rec.paused, rec.charIndex)) = some (true, 345) ∧
      tookHandoffPath (run (demoPage 500) pausedAtOffset)
        (step (idleAt 2500) (.click 1) (run (demoPage 500) pausedAtOffset)) 1 = true :=
  ⟨by decide, by decide, by decide, by decide, by decide, by decide⟩

theorem startReadingSection_timers (env : Env) (sid : SectionId) (k : Int) (s : State) :
    (startReadingSection env sid k s).timers = s.timers := by
  have h := (pausePrevious_frame env sid s).2.2.2.2.2.1
  unfold startReadingSection
  simp only []
  split
  · simpa using h
  · split_ifs
    · simpa using h
    · simpa [beginUtterance] using h

theorem showReadingResumeOptions_timers (env : Env) (sid : SectionId) (r : Nat) (s : State) :
    (showReadingResumeOptions env sid r s).timers = s.timers := by
  unfold showReadingResumeOptions
  split
  · simp
  · split_ifs
    · exact startReadingSection_timers env sid 0 s
    · simp

theorem handoff_timers (env : Env) (sid : SectionId) (bp : Bool) (s : State) :
    (handoff env sid bp s).timers = s.timers ++ [.handoffCancel sid bp] := by
  unfold handoff
  simp only []
  split <;> simp [handoffCheckpoint]

theorem fallback_timers (env : Env) (sid : SectionId) (s : State) :
    (fallback env sid s).timers = s.timers ++ [.fallbackCancel sid] := by
  unfold fallback
  simp only []
  split <;> simp [fallbackCheckpoint]

theorem tookHandoffPath_iff (s t : State) (sid : SectionId) :
    tookHandoffPath s t sid = true ↔ ∃ bp, t.timers = s.timers ++ [.handoffCancel sid bp] := by
  unfold tookHandoffPath
  simp only [Bool.or_eq_true, decide_eq_true_eq]
  constructor
  · intro h
    rcases h with h | h
    · exact ⟨true, h⟩
    · exact ⟨false, h⟩
  · intro h
    obtain ⟨bp, h⟩ := h
    cases bp
    · exact Or.inr h
    · exact Or.inl h

/-- C17, as amended: a click on section `S` (with a reader button, on a platform with an
engine) takes the hand-off path of `toggleSectionReading` exactly when the global pointer
names a section other than `S`, whatever the engine reports, or the pointer is unset and the
engine reports speaking and not paused; and then the click is that path and nothing else. -/
theorem handoff_trigger (env : Env) (s : State) (S : SectionId) (b : Button)
    (hs : s.supported = true) (hb : (s.el S).button = some b) :
    (tookHandoffPath s (toggleSectionReading env S s) S = true ↔
        (pointerElsewhere s S = true ∨
          (s.currentReadingSection = none ∧ env.speaking = true ∧ env.paused = false))) ∧
      ((pointerElsewhere s S = true ∨
          (s.currentReadingSection = none ∧ env.speaking = true ∧ env.paused = false)) →
        toggleSectionReading env S s =
          handoff env S (buttonIsPaused b) (ensureRecord s S).1) := by
  have hcond : (hasAnotherSectionPlaying env (ensureRecord s S).1 S &&
      !isThisSectionPlaying env (ensureRecord s S).1 S) = true ↔
      (pointerElsewhere s S = true ∨
        (s.currentReadingSection = none ∧ env.speaking = true ∧ env.paused = false)) := by
    simp only [hasAnotherSectionPlaying, isThisSectionPlaying, isCurrentlySpeaking,
      pointerElsewhere, ensureRecord_fields]
    cases hp : s.currentReadingSection with
    | none => simp
    | some p =>
      by_cases hpS : p = S
      · subst hpS; simp
      · simp [hpS]
  have htm : (ensureRecord s S).1.timers = s.timers := by simp
  refine ⟨?_, fun hc => ?_⟩
  · rw [tookHandoffPath_iff, ← hcond]
    unfold toggleSectionReading
    simp only [hs, Bool.not_true, Bool.false_eq_true, if_false, hb]
    split_ifs with h1 h2 h3 h4 h5
    · exact ⟨fun _ => h1, fun _ => ⟨_, by rw [handoff_timers, htm]⟩⟩
    · exact ⟨fun ⟨bp, h⟩ => absurd h (by simp [clickPause, htm]), fun h => absurd h h1⟩
    · exact ⟨fun ⟨bp, h⟩ => absurd h (by simp [showReadingResumeOptions_timers, htm]),
        fun h => absurd h h1⟩
    · exact ⟨fun ⟨bp, h⟩ => absurd h (by simp [startReadingSection_timers, htm]),
        fun h => absurd h h1⟩
    · exact ⟨fun ⟨bp, h⟩ => absurd h (by simp [fallback_timers, htm]), fun h => absurd h h1⟩
    · exact ⟨fun ⟨bp, h⟩ => absurd h (by simp [startReadingSection_timers, htm]),
        fun h => absurd h h1⟩
  · unfold toggleSectionReading
    simp only [hs, Bool.not_true, Bool.false_eq_true, if_false, hb]
    rw [if_pos (hcond.mpr hc)]

set_option maxRecDepth 100000 in
/-- C17, witness of the amended statement: on the example page with section 0 paused and
still the pointer, a click on section 1 with the engine silent takes the hand-off path. -/
theorem handoff_trigger_witness :
    pointerElsewhere (run (demoPage 500) pausedAtOffset) 1 = true ∧
      tookHandoffPath (run (demoPage 500) pausedAtOffset)
        (toggleSectionReading (idleAt 2500) 1 (run (demoPage 500) pausedAtOffset)) 1 = true :=
  ⟨by decide,
    (handoff_trigger (idleAt 2500) (run (demoPage 500) pausedAtOffset) 1 demoButton
      (by decide) (by decide)).1.mpr (Or.inl (by decide))⟩

/-! ## Click-pause (C18) -/

set_option maxRecDepth 100000 in
/-- C18, counterexample to the exact formula: section 0 shows 'playing', is the pointer and
was started at time 1000 with offset 0; a click on it at time 1820 (`t = 820`) with the engine
speaking pauses it at offset 122, while `min(500, 0 + floor(820 * 150 / 1000))` is 123. -/
theorem click_pause_exact_formula_counterexample :
    showsAffordance ((run (demoPage 500) (pausedAtOffset.take 3)).el 0) .playing = true ∧
      (run (demoPage 500) (pausedAtOffset.take 3)).currentReadingSection = some 0 ∧
      ((recordOf (run (demoPage 500) (pausedAtOffset.take 3)) 0).map
        fun rec => (rec.charIndex, rec.fullText.length, rec.startTime)) =
        some (0, 500, some 1000) ∧
      ((recordOf (step (speakingAt 1820) (.click 0)
          (run (demoPage 500) (pausedAtOffset.take 3))) 0).map
        fun rec => (rec.playing, rec.paused, rec.charIndex)) = some (false, true, 122) ∧
      min (500 : Int) (0 + (820 * 150) / 1000) = 123 :=
  ⟨by decide, by decide, by decide, by decide, by decide⟩

/-- C18, as amended: a click on section `S`, which shows 'playing' (its button having the
icon span), is the global pointer and has a record `r` with a truthy `startTime = st`, while
the engine is speaking and not paused, leaves `r` with `playing = false`, `paused = true`
and `charIndex = min(fullText.length, charIndex + Math.floor((now - st) / 1000 * 150))` (the
floor of the double-precision product), shows 'paused' on `S`, announces "Reading paused",
calls `pause` on the engine and nothing else, creates no utterance, and leaves the store and
every other record object as they were. -/
theorem click_pauses_playing (env : Env) (s : State) (S : SectionId) (r : Nat) (b : Button)
    (st : Int) (hs : s.supported = true) (hS : S ∈ s.sections)
    (hb : (s.el S).button = some b) (hicon : b.hasIcon = true)
    (hshow : showsAffordance (s.el S) .playing = true)
    (hp : s.currentReadingSection = some S) (hsp : env.speaking = true)
    (hnp : env.paused = false) (hr : s.readingState S = some r)
    (hst : (s.heap r).startTime = some st) (h0 : st ≠ 0) :
    recordOf (step env (.click S) s) S =
        some { s.heap r with
          playing := false, paused := true,
          charIndex := min ((s.heap r).fullText.length : Int)
            ((s.heap r).charIndex + estimatedChars (env.now - st)) } ∧
      showsAffordance ((step env (.click S) s).el S) .paused = true ∧
      (step env (.click S) s).announcements = s.announcements ++ [.readingPaused] ∧
      (step env (.click S) s).engineLog = s.engineLog ++ [.pause] ∧
      (step env (.click S) s).nextUtterance = s.nextUtterance ∧
      (∀ T, (step env (.click S) s).readingState T = s.readingState T) ∧
      (∀ x, x ≠ r → (step env (.click S) s).heap x = s.heap x) ∧
      (step env (.click S) s).currentReadingSection = some S := by
  have hplay : buttonIsPlaying b = true := buttonIsPlaying_of_shows _ b hb hshow
  have hen : ensureRecord s S = (s, r) := by simp [ensureRecord, hr]
  have e : step env (.click S) s = clickPause env S r s := by
    simp [step, hS, hb, toggleSectionReading, hs, hen, hasAnotherSectionPlaying,
      isThisSectionPlaying, isCurrentlySpeaking, hp, hplay, hsp, hnp]
  rw [e]
  unfold clickPause
  refine ⟨by simp [recordOf, hr, checkpoint, hst, h0], ?_, by simp, by simp [hsp, hnp], by simp,
    fun T => ?_, fun x hx => by simp [hx], by simp [hp]⟩
  · simp only [State.announce_fields, State.setStore_fields, State.modEl_fields, if_true]
    apply updateReadingButton_shows
    simp [hasIconButton, hb, hicon]
  · simp only [State.announce_fields, State.setStore_fields, State.modEl_fields,
      State.modRec_fields, State.engineWhen_fields]
    split_ifs with h
    · rw [h, hr]
    · rfl

set_option maxRecDepth 100000 in
/-- C18, witness of the amended statement: section 0 of the example page, playing from offset
0 since time 1000, is clicked at time 3000 and paused at offset 300. -/
theorem click_pauses_playing_witness :
    ((recordOf (step (speakingAt 3000) (.click 0)
        (run (demoPage 500) (pausedAtOffset.take 3))) 0).map
      fun rec => (rec.playing, rec.paused, rec.charIndex)) = some (false, true, 300) ∧
    showsAffordance ((step (speakingAt 3000) (.click 0)
        (run (demoPage 500) (pausedAtOffset.take 3))).el 0) .paused = true := by
  have h := click_pauses_playing (speakingAt 3000) (run (demoPage 500) (pausedAtOffset.take 3))
    0 0 { hasIcon := true, iconText := .pauseGlyph, readingPlaying := true,
          readingPaused := false, readingStopped := false } 1000
    (by decide) (by decide) (by decide) (by decide) (by decide) (by decide) (by decide)
    (by decide) (by decide) (by decide) (by decide)
  refine ⟨?_, h.2.1⟩
  rw [h.1]
  decide

/-! ## A paused section without a resumable offset (C19) -/

/-- The engine log after `startReadingSection` on a section with a non-empty text. -/
theorem startReadingSection_speaks (env : Env) (sid : SectionId) (k : Int) (s : State)
    (T : Text) (hT : (s.el sid).content = some T) (hne : T ≠ []) :
    (startReadingSection env sid k s).engineLog =
      s.engineLog ++ (if (previousToPause env sid s).isSome then [.pause] else []) ++
        (if env.speaking then [.cancel] else []) ++ [.speak s.nextUtterance] := by
  have hT' : T.isEmpty = false := by cases T <;> simp_all
  obtain ⟨f1, f2, f3, f4, f5, f6, f7, f8, f9⟩ := pausePrevious_frame env sid s
  have hc : ((pausePrevious env sid s).el sid).content = some T := by rw [f8]; exact hT
  simp only [startReadingSection, State.engineWhen_fields, hc, hT']
  simp only [beginUtterance, State.engine_fields, State.setPointer_fields,
    State.setStore_fields, State.modRec_fields, ensureRecord_fields, State.engineWhen_fields,
    pausePrevious_engineLog, f3, Bool.false_eq_true, if_false]
  cases env.speaking <;> simp

theorem not_buttonIsPlaying_of_paused (e : SectionEl) (b : Button) (hb : e.button = some b)
    (h : showsAffordance e .paused = true) :
    buttonIsPlaying b = false ∧ buttonIsPaused b = true := by
  simp [showsAffordance, hb] at h
  obtain ⟨⟨⟨h1, h2⟩, h3⟩, h4⟩ := h
  constructor
  · simp only [buttonIsPlaying, iconTextOf, h1, Bool.false_or]
    cases b.hasIcon <;> simp [h4]
  · simp [buttonIsPaused, h2]

/-- C19: a click on section `S`, which shows 'paused', has the non-empty rendered text `T` and
a record `r` whose offset is not resumable (not `0 < charIndex < fullText.length`), while no
other section is active (the pointer is unset or names `S`, and with an unset pointer the
engine is not speaking unpaused), opens no prompt and starts `S` afresh: `r` is still `S`'s
record and has `charIndex = 0`, `fullText = T`, `playing = true`, `paused = false`; the
pointer names `S`; the last engine call is `speak` of a new utterance whose text is `T`. -/
theorem paused_without_offset_starts_fresh (env : Env) (s : State) (S : SectionId) (r : Nat)
    (b : Button) (T : Text) (hs : s.supported = true) (hS : S ∈ s.sections)
    (hb : (s.el S).button = some b) (hshow : showsAffordance (s.el S) .paused = true)
    (hptr : pointerElsewhere s S = false)
    (hidle : s.currentReadingSection = none → (env.speaking && !env.paused) = false)
    (hr : s.readingState S = some r) (hT : (s.el S).content = some T) (hne : T ≠ [])
    (hnr : ¬ (0 < (s.heap r).charIndex ∧
      (s.heap r).charIndex < ((s.heap r).fullText.length : Int))) :
    (step env (.click S) s).readingState S = some r ∧
      ((step env (.click S) s).heap r).charIndex = 0 ∧
      ((step env (.click S) s).heap r).fullText = T ∧
      ((step env (.click S) s).heap r).playing = true ∧
      ((step env (.click S) s).heap r).paused = false ∧
      (step env (.click S) s).currentReadingSection = some S ∧
      ((step env (.click S) s).el S).menu = (s.el S).menu ∧
      (step env (.click S) s).engineLog.getLast? = some (.speak s.nextUtterance) ∧
      ((step env (.click S) s).utterances s.nextUtterance).text = T := by
  obtain ⟨hbp, hbq⟩ := not_buttonIsPlaying_of_paused _ b hb hshow
  have hen : ensureRecord s S = (s, r) := by simp [ensureRecord, hr]
  have hres : resumable (s.heap r) = false := by
    unfold resumable
    by_cases h1 : 0 < (s.heap r).charIndex
    · by_cases h2 : (s.heap r).charIndex < ((s.heap r).fullText.length : Int)
      · exact absurd ⟨h1, h2⟩ hnr
      · simp [h2]
    · simp [h1]
  have hrule1 : (hasAnotherSectionPlaying env s S && !isThisSectionPlaying env s S) = false := by
    unfold pointerElsewhere at hptr
    cases hp : s.currentReadingSection with
    | none =>
      have := hidle hp
      simp [hasAnotherSectionPlaying, isThisSectionPlaying, isCurrentlySpeaking, hp] at this ⊢
      exact this
    | some p =>
      have hpS : p = S := by simpa [hp] using hptr
      subst hpS
      simp [hasAnotherSectionPlaying, isThisSectionPlaying, hp]
  have e : step env (.click S) s = startReadingSection env S 0 s := by
    simp only [step, hS, hb, Option.isSome_some, and_self, if_true, toggleSectionReading, hs,
      Bool.not_true, Bool.false_eq_true, if_false, hen, hrule1, hbp, Bool.false_and, hbq, hres]
  rw [e]
  obtain ⟨f1, f2, f3, f4, f5, f6, f7, f8, f9⟩ := pausePrevious_frame env S s
  have hen2 : ensureRecord (pausePrevious env S s) S = (pausePrevious env S s, r) := by
    simp [ensureRecord, f7, hr]
  obtain ⟨a1, a2, a3, a4, a5, a6, a7, a8⟩ := startReadingSection_started env S 0 s T hT hne
  rw [hen2] at a1 a2 a5
  refine ⟨a1, by rw [a2]; simp, by rw [a2]; simp, by rw [a2], by rw [a2], a3, ?_, ?_, ?_⟩
  · rw [a6, f9]
  · rw [startReadingSection_speaks env S 0 s T hT hne]
    simp
  · rw [a5]; simp [newUtterance]

set_option maxRecDepth 100000 in
/-- C19, witness: section 0 of the example page shows 'paused' with offset 0 and is the
pointer; a click at time 2000, the engine being paused, starts it afresh with the whole text
and opens no menu. -/
theorem paused_without_offset_starts_fresh_witness :
    (showsAffordance ((run (demoPage 500) pausedAtZero).el 0) .paused = true ∧
      ((recordOf (run (demoPage 500) pausedAtZero) 0).map
        fun rec => (rec.playing, rec.paused, rec.charIndex)) = some (false, true, 0)) ∧
    (((step (pausedAt 2000) (.click 0) (run (demoPage 500) pausedAtZero)).heap 0).charIndex = 0 ∧
      ((step (pausedAt 2000) (.click 0) (run (demoPage 500) pausedAtZero)).heap 0).fullText =
        List.replicate 500 'a' ∧
      ((step (pausedAt 2000) (.click 0) (run (demoPage 500) pausedAtZero)).heap 0).playing =
        true ∧
      ((step (pausedAt 2000) (.click 0) (run (demoPage 500) pausedAtZero)).el 0).menu = none) := by
  have h := paused_without_offset_starts_fresh (pausedAt 2000) (run (demoPage 500) pausedAtZero)
    0 0 { hasIcon := true, iconText := .playGlyph, readingPlaying := false,
          readingPaused := true, readingStopped := false } (List.replicate 500 'a')
    (by decide) (by decide) (by decide) (by decide) (by decide) (by decide) (by decide)
    (by decide) (by decide) (by decide)
  refine ⟨⟨by decide, by decide⟩, h.2.1, h.2.2.1, h.2.2.2.1, ?_⟩
  rw [h.2.2.2.2.2.2.1]
  decide

/-! ## The text spoken by "continue" (C20) -/

set_option maxRecDepth 100000 in
/-- C20, counterexample: section 0 is paused at offset 120 with the memoized text of 500
characters `a`, and its rendered text is now 200 characters `b`.  `startReadingSection` with
`startFromIndex = 120` keeps the memoized text and sets `charIndex = 120`, but the utterance it
hands to the engine has the text of the rendered one from offset 120 on (80 characters `b`),
not that of the memoized one (380 characters `a`). -/
theorem continue_speaks_rendered_text :
    ((recordOf (run (demoPage 500) pausedThenRewritten) 0).map
        fun rec => (rec.charIndex, rec.fullText)) = some (120, List.replicate 500 'a') ∧
      ((run (demoPage 500) pausedThenRewritten).el 0).content =
        some (List.replicate 200 'b') ∧
      ((recordOf (startReadingSection (pausedAt 3000) 0 120
          (run (demoPage 500) pausedThenRewritten)) 0).map
        fun rec => (rec.charIndex, rec.fullText)) = some (120, List.replicate 500 'a') ∧
      (startReadingSection (pausedAt 3000) 0 120
          (run (demoPage 500) pausedThenRewritten)).engineLog.getLast? = some (.speak 1) ∧
      ((startReadingSection (pausedAt 3000) 0 120
          (run (demoPage 500) pausedThenRewritten)).utterances 1).text =
        List.replicate 80 'b' ∧
      (List.replicate 500 'a').drop 120 = List.replicate 380 'a' :=
  ⟨by decide, by decide, by decide, by decide, by decide, by decide⟩

/-- C20, as amended: for a section `S` whose record `r` has the non-empty memoized text `F`
and whose rendered text `R` is not empty, `startReadingSection` with `startFromIndex = k > 0`
leaves `r` as `S`'s record with `fullText = F`, sets its `charIndex` to `k`, and its last
engine call is `speak` of a new utterance whose text is `R.substring(k)`: the suffix of the
rendered text, which is `F.substring(k)` when the rendered text is still `F`. -/
theorem continue_speaks_rendered_suffix (env : Env) (s : State) (S : SectionId) (r : Nat)
    (k : Int) (F R : Text) (hr : s.readingState S = some r) (hF : (s.heap r).fullText = F)
    (hFne : F ≠ []) (hk : 0 < k) (hR : (s.el S).content = some R) (hRne : R ≠ []) :
    (startReadingSection env S k s).readingState S = some r ∧
      ((startReadingSection env S k s).heap r).fullText = F ∧
      ((startReadingSection env S k s).heap r).charIndex = k ∧
      (startReadingSection env S k s).engineLog.getLast? = some (.speak s.nextUtterance) ∧
      ((startReadingSection env S k s).utterances s.nextUtterance).text = R.drop k.toNat ∧
      (R = F →
        ((startReadingSection env S k s).utterances s.nextUtterance).text = F.drop k.toNat) := by
  obtain ⟨f1, f2, f3, f4, f5, f6, f7, f8, f9⟩ := pausePrevious_frame env S s
  have hen : ensureRecord (pausePrevious env S s) S = (pausePrevious env S s, r) := by
    simp [ensureRecord, f7, hr]
  have hft : ((pausePrevious env S s).heap r).fullText = F := by
    rw [pausePrevious_fullText, hF]
  have hFe : F.isEmpty = false := by cases F <;> simp_all
  have hk0 : (k == 0) = false := by simp; omega
  obtain ⟨a1, a2, a3, a4, a5, a6, a7, a8⟩ := startReadingSection_started env S k s R hR hRne
  rw [hen] at a1 a2 a5
  simp only [hft, hFe, hk0, Bool.or_false, Bool.false_eq_true, if_false, hk, if_true] at a2 a5
  have htext : ((startReadingSection env S k s).utterances s.nextUtterance).text =
      R.drop k.toNat := by rw [a5]; rfl
  refine ⟨a1, by rw [a2], by rw [a2], ?_, htext, fun e => by rw [htext, e]⟩
  rw [startReadingSection_speaks env S k s R hR hRne]
  simp

set_option maxRecDepth 100000 in
/-- C20, witness of the amended statement: with the rendered text of section 0 rewritten to
200 characters, continuing from offset 120 keeps the memoized 500 characters and speaks the
80 characters of the rendered text from offset 120 on. -/
theorem continue_speaks_rendered_suffix_witness :
    ((startReadingSection (pausedAt 3000) 0 120
        (run (demoPage 500) pausedThenRewritten)).heap 0).fullText = List.replicate 500 'a' ∧
      ((startReadingSection (pausedAt 3000) 0 120
        (run (demoPage 500) pausedThenRewritten)).utterances 1).text =
        (List.replicate 200 'b').drop 120 := by
  have h := continue_speaks_rendered_suffix (pausedAt 3000)
    (run (demoPage 500) pausedThenRewritten) 0 0 120 (List.replicate 500 'a')
    (List.replicate 200 'b') (by decide) (by decide) (by decide) (by decide) (by decide)
    (by decide)
  exact ⟨h.2.1, h.2.2.2.2.1⟩

/-! ## The boundary callback (C21) -/

/-- C21: for an utterance `u` of section `S` started with `startFromIndex = k` whose
`onboundary` slot is attached: a boundary event with name `'word'` and offset `c`, delivered
while `u` is the handle of the record the store holds for `S`, leaves that record with
`charIndex = min(fullText.length, k + c)` and its other fields as they were; a boundary event
whose name is not `'word'` (or that carries no offset), or one delivered when `u` is not the
handle of `S`'s stored record, leaves the whole state unchanged. -/
theorem boundary_updates_offset (env : Env) (s : State) (u : Nat) (S : SectionId) (k : Int)
    (hu : u < s.nextUtterance) (hslot : (s.utterances u).onboundary = true)
    (hS : (s.utterances u).sectionId = S) (hk : (s.utterances u).startFromIndex = k) :
    (∀ (cur c : Nat), s.readingState S = some cur → (s.heap cur).utterance = some u →
        recordOf (step env (.onboundary u true (some c)) s) S =
          some { s.heap cur with
            charIndex := min ((s.heap cur).fullText.length : Int) (k + (c : Int)) }) ∧
      (∀ (w : Bool) (co : Option Nat), w = false ∨ co = none →
        step env (.onboundary u w co) s = s) ∧
      (∀ (w : Bool) (co : Option Nat),
        (∀ cur, s.readingState S = some cur → (s.heap cur).utterance ≠ some u) →
        step env (.onboundary u w co) s = s) := by
  have e : ∀ w co, step env (.onboundary u w co) s = onboundary u w co s := by
    intro w co; simp [step, hu, hslot]
  refine ⟨fun cur c hcur hh => ?_, fun w co h => ?_, fun w co h => ?_⟩
  · rw [e]
    unfold onboundary
    simp only [hS, hcur, hh, beq_self_eq_true, if_true, hk]
    by_cases hr : cur = (s.utterances u).readingState
    · simp [recordOf, ← hr, hh]
    · simp [recordOf, hr, hh]
  · rw [e]
    unfold onboundary
    simp only [hS]
    cases hcur : s.readingState S with
    | none => rfl
    | some cur =>
      simp only []
      split_ifs
      · rcases h with h | h
        · subst h; rfl
        · subst h; cases w <;> rfl
      · rfl
  · rw [e]
    unfold onboundary
    simp only [hS]
    cases hcur : s.readingState S with
    | none => rfl
    | some cur =>
      have := h cur hcur
      simp [this]

set_option maxRecDepth 100000 in
/-- C21, witness: utterance 0 of section 0 of the example page was started from offset 0 and
is the record's handle; a word boundary at offset 10 sets `charIndex` to 10, and a boundary
that is not a word changes nothing. -/
theorem boundary_updates_offset_witness :
    ((recordOf (step (speakingAt 1100) (.onboundary 0 true (some 10))
        (run (demoPage 500) (pausedAtOffset.take 3))) 0).map fun rec => rec.charIndex) =
      some 10 ∧
    step (speakingAt 1100) (.onboundary 0 false (some 10))
        (run (demoPage 500) (pausedAtOffset.take 3)) =
      run (demoPage 500) (pausedAtOffset.take 3) := by
  have h := boundary_updates_offset (speakingAt 1100)
    (run (demoPage 500) (pausedAtOffset.take 3)) 0 0 0 (by decide) (by decide) (by decide)
    (by decide)
  refine ⟨?_, h.2.1 false (some 10) (Or.inl rfl)⟩
  rw [h.1 0 10 (by decide) (by decide)]
  decide

/-! ## The reconcile pass (C22) -/

theorem Reconciled.self (a : ReadingRecord) : Reconciled a a := Or.inl rfl

theorem Reconciled.fields {a b : ReadingRecord} (h : Reconciled a b) :
    b.paused = a.paused ∧ b.charIndex = a.charIndex ∧ b.fullText = a.fullText ∧
      b.utterance = a.utterance ∧ b.startTime = a.startTime := by
  rcases h with h | ⟨_, _, h⟩ <;> subst h <;> simp

theorem Reconciled.chain {a b c : ReadingRecord} (h1 : Reconciled a b) (h2 : Reconciled b c) :
    Reconciled a c := by
  rcases h1 with h1 | ⟨p1, q1, h1⟩
  · subst h1; exact h2
  · rcases h2 with h2 | ⟨p2, q2, h2⟩
    · subst h2; exact Or.inr ⟨p1, q1, h1⟩
    · right
      refine ⟨p1, q1, ?_⟩
      subst h2 h1
      rfl

theorem updateReadingButton_idem (e : SectionEl) (a : Affordance) :
    updateReadingButton (updateReadingButton e a) a = updateReadingButton e a := by
  unfold updateReadingButton
  cases hb : e.button with
  | none => simp [hb]
  | some b => cases hi : b.hasIcon <;> cases a <;> simp [hb, hi]

/-- One iteration of the reconcile pass: the store is kept, every record is kept or has
`playing` cleared, the other sections' elements are kept, and the element of the section is
kept or rewritten to 'paused'. -/
theorem preserveSection_effect (s : State) (j : SectionId) :
    (∀ i, (preserveSection s j).readingState i = s.readingState i) ∧
      (∀ r, Reconciled (s.heap r) ((preserveSection s j).heap r)) ∧
      (∀ i, i ≠ j → (preserveSection s j).el i = s.el i) ∧
      ((preserveSection s j).el j = s.el j ∨
        (pausedWithOffset s j ∧ (preserveSection s j).el j =
          updateReadingButton (s.el j) .paused)) ∧
      (∀ b, (s.el j).button = some b → pausedWithOffset s j →
        (b.readingPaused = true ∧ (preserveSection s j).el j = s.el j) ∨
          (preserveSection s j).el j = updateReadingButton (s.el j) .paused) := by
  cases hr : s.readingState j with
  | none =>
    have hval : preserveSection s j = s := by unfold preserveSection; simp [hr]
    rw [hval]
    refine ⟨fun _ => rfl, fun _ => Or.inl rfl, fun _ _ => rfl, Or.inl rfl, fun b _ hp => ?_⟩
    obtain ⟨r, h, _⟩ := hp
    rw [hr] at h
    cases h
  | some r =>
    cases hb : (s.el j).button with
    | none =>
      have hval : preserveSection s j = s := by unfold preserveSection; simp [hr, hb]
      rw [hval]
      exact ⟨fun _ => rfl, fun _ => Or.inl rfl, fun _ _ => rfl, Or.inl rfl,
        fun b h _ => by cases h⟩
    | some b =>
      by_cases hc : ((s.heap r).paused && decide (0 < (s.heap r).charIndex)) = true
      · have hc' : (s.heap r).paused = true ∧ 0 < (s.heap r).charIndex := by simpa using hc
        by_cases hq : b.readingPaused = true
        · have hval : preserveSection s j = s := by
            unfold preserveSection; simp [hr, hb, hc'.1, hc'.2, hq]
          rw [hval]
          exact ⟨fun _ => rfl, fun _ => Or.inl rfl, fun _ _ => rfl, Or.inl rfl,
            fun b' hb' _ => Or.inl ⟨by cases hb'; exact hq, rfl⟩⟩
        · have hq' : b.readingPaused = false := by simpa using hq
          have hval : preserveSection s j =
              ((s.modEl j fun e => updateReadingButton e .paused).modRec r fun rec =>
                { rec with paused := true, playing := false }).setStore j r := by
            unfold preserveSection; simp [hr, hb, hc'.1, hc'.2, hq']
          rw [hval]
          refine ⟨fun i => ?_, fun x => ?_, fun i hi => by simp [hi],
            Or.inr ⟨⟨r, hr, hc'.1, hc'.2⟩, by simp⟩, fun _ _ _ => Or.inr (by simp)⟩
          · simp only [State.setStore_fields, State.modRec_fields, State.modEl_fields]
            split_ifs with e
            · rw [e, hr]
            · rfl
          · simp only [State.setStore_fields, State.modRec_fields, State.modEl_fields]
            split_ifs with e
            · subst e
              right
              refine ⟨hc'.1, hc'.2, ?_⟩
              cases hx : s.heap x
              simp [hx] at hc'
              simp [hc'.1]
            · exact Or.inl rfl
      · have hval : preserveSection s j = s := by
          unfold preserveSection
          simp only [hr, hb]
          rw [if_neg hc]
        rw [hval]
        refine ⟨fun _ => rfl, fun _ => Or.inl rfl, fun _ _ => rfl, Or.inl rfl, fun b' _ hp => ?_⟩
        obtain ⟨r', h1, h2, h3⟩ := hp
        rw [hr] at h1
        cases h1
        exact absurd (by simp [h2, h3]) hc

theorem pausedWithOffset_congr {s t : State} (hs : ∀ i, t.readingState i = s.readingState i)
    (hh : ∀ r, Reconciled (s.heap r) (t.heap r)) (i : SectionId) :
    pausedWithOffset t i ↔ pausedWithOffset s i := by
  unfold pausedWithOffset
  constructor
  · rintro ⟨r, h1, h2, h3⟩
    obtain ⟨p, q, _⟩ := (hh r).fields
    exact ⟨r, by rw [← hs]; exact h1, by rw [← p]; exact h2, by rw [← q]; exact h3⟩
  · rintro ⟨r, h1, h2, h3⟩
    obtain ⟨p, q, _⟩ := (hh r).fields
    exact ⟨r, by rw [hs]; exact h1, by rw [p]; exact h2, by rw [q]; exact h3⟩

/-- The pass over a list of sections: the store is kept, every record is kept or has `playing`
cleared, and every section's element is kept or rewritten to 'paused'. -/
theorem foldl_preserveSection_effect (l : List SectionId) (s : State) :
    (∀ i, (l.foldl preserveSection s).readingState i = s.readingState i) ∧
      (∀ r, Reconciled (s.heap r) ((l.foldl preserveSection s).heap r)) ∧
      (∀ i, (l.foldl preserveSection s).el i = s.el i ∨
        (pausedWithOffset s i ∧
          (l.foldl preserveSection s).el i = updateReadingButton (s.el i) .paused)) := by
  induction l generalizing s with
  | nil => exact ⟨fun _ => rfl, fun _ => Or.inl rfl, fun _ => Or.inl rfl⟩
  | cons j l ih =>
    obtain ⟨a1, a2, a3, a4, -⟩ := preserveSection_effect s j
    obtain ⟨b1, b2, b3⟩ := ih (preserveSection s j)
    simp only [List.foldl]
    refine ⟨fun i => (b1 i).trans (a1 i), fun r => (a2 r).chain (b2 r), fun i => ?_⟩
    have hel : (preserveSection s j).el i = s.el i ∨
        (pausedWithOffset s i ∧ (preserveSection s j).el i =
          updateReadingButton (s.el i) .paused) := by
      by_cases e : i = j
      · subst e; exact a4
      · exact Or.inl (a3 i e)
    rcases b3 i with h | ⟨hp, h⟩
    · rw [h]; exact hel
    · have hp' : pausedWithOffset s i := (pausedWithOffset_congr a1 a2 i).mp hp
      rcases hel with h1 | ⟨_, h1⟩
      · exact Or.inr ⟨hp', by rw [h, h1]⟩
      · exact Or.inr ⟨hp', by rw [h, h1, updateReadingButton_idem]⟩

/-- A section of the list with a button and a paused record with an offset either had the
class `reading-paused` and keeps its element, or has its element rewritten to 'paused'. -/
theorem foldl_preserveSection_marks (l : List SectionId) (s : State) (i : SectionId)
    (hi : i ∈ l) (b : Button) (hb : (s.el i).button = some b) (hp : pausedWithOffset s i) :
    (b.readingPaused = true ∧ (l.foldl preserveSection s).el i = s.el i) ∨
      (l.foldl preserveSection s).el i = updateReadingButton (s.el i) .paused := by
  induction l generalizing s with
  | nil => cases hi
  | cons j l ih =>
    obtain ⟨a1, a2, a3, a4, a5⟩ := preserveSection_effect s j
    obtain ⟨b1, b2, b3⟩ := foldl_preserveSection_effect l (preserveSection s j)
    simp only [List.foldl]
    by_cases e : i = j
    · subst e
      rcases a5 b hb hp with ⟨hq, h1⟩ | h1
      · rcases b3 i with h | ⟨_, h⟩
        · exact Or.inl ⟨hq, by rw [h, h1]⟩
        · exact Or.inr (by rw [h, h1])
      · rcases b3 i with h | ⟨_, h⟩
        · exact Or.inr (by rw [h, h1])
        · exact Or.inr (by rw [h, h1, updateReadingButton_idem])
    · have hi' : i ∈ l := by
        rcases List.mem_cons.mp hi with h | h
        · exact absurd h e
        · exact h
      have hel := a3 i e
      have := ih (preserveSection s j) hi' (by rw [hel]; exact hb)
        ((pausedWithOffset_congr a1 a2 i).mpr hp)
      rw [hel] at this
      exact this

theorem buttonState_of_readingPaused (b : Button) (h : b.readingPaused = true) :
    buttonState b = .paused := by
  simp [buttonState, h]

/-- C22: after `preserveOtherSectionsPausedState`, every section of the page with a reader
button (with its icon span) whose record has `paused = true` and `charIndex > 0` is displayed
as paused: its button has the class `reading-paused`, and it shows the 'paused' affordance
(a button that already had the class is taken to show it).  The element of a section whose
record does not satisfy the condition, and its record, are unchanged; the store is unchanged
and every record object keeps its `charIndex`, `fullText` and `utterance`. -/
theorem reconcile_spec (s : State) :
    (∀ i ∈ s.sections, ∀ b, (s.el i).button = some b → b.hasIcon = true →
        pausedWithOffset s i →
        (∃ b', ((preserveOtherSectionsPausedState s).el i).button = some b' ∧
          buttonState b' = .paused) ∧
        ((b.readingPaused = true → showsAffordance (s.el i) .paused = true) →
          showsAffordance ((preserveOtherSectionsPausedState s).el i) .paused = true)) ∧
      (∀ j, ¬ pausedWithOffset s j →
        (preserveOtherSectionsPausedState s).el j = s.el j ∧
          recordOf (preserveOtherSectionsPausedState s) j = recordOf s j) ∧
      (∀ j, (preserveOtherSectionsPausedState s).readingState j = s.readingState j) ∧
      (∀ r, ((preserveOtherSectionsPausedState s).heap r).charIndex = (s.heap r).charIndex ∧
        ((preserveOtherSectionsPausedState s).heap r).fullText = (s.heap r).fullText ∧
        ((preserveOtherSectionsPausedState s).heap r).utterance = (s.heap r).utterance) := by
  unfold preserveOtherSectionsPausedState
  obtain ⟨b1, b2, b3⟩ := foldl_preserveSection_effect s.sections s
  refine ⟨fun i hi b hb hicon hp => ?_, fun j hj => ⟨?_, ?_⟩, b1, fun r => ?_⟩
  · have hU : showsAffordance (updateReadingButton (s.el i) .paused) .paused = true :=
      updateReadingButton_shows _ _ (by simp [hasIconButton, hb, hicon])
    have hUb : ∃ b', (updateReadingButton (s.el i) .paused).button = some b' ∧
        buttonState b' = .paused := by
      simp [updateReadingButton, hb, hicon, buttonState]
    rcases foldl_preserveSection_marks s.sections s i hi b hb hp with ⟨hq, h⟩ | h
    · rw [h]
      exact ⟨⟨b, hb, buttonState_of_readingPaused b hq⟩, fun hwf => hwf hq⟩
    · rw [h]
      exact ⟨hUb, fun _ => hU⟩
  · rcases b3 j with h | ⟨hp, _⟩
    · exact h
    · exact absurd hp hj
  · simp only [recordOf, b1 j]
    cases hr : s.readingState j with
    | none => rfl
    | some r =>
      simp only [Option.map_some']
      rcases b2 r with h | ⟨h1, h2, _⟩
      · rw [h]
      · exact absurd ⟨r, hr, h1, h2⟩ hj
  · obtain ⟨_, h2, h3, h4, _⟩ := (b2 r).fields
    exact ⟨h2, h3, h4⟩

set_option maxRecDepth 100000 in
/-- C22, witness: after `pausedButShownStopped` the record of section 0 is paused at offset
120 while its button shows 'stopped'; the reconcile pass makes it show 'paused' and leaves the
record's offset, and section 1, which has no record, keeps its element. -/
theorem reconcile_spec_witness :
    (((recordOf (run (demoPage 500) pausedButShownStopped) 0).map
        fun rec => (rec.paused, rec.charIndex)) = some (true, 120) ∧
      showsAffordance ((run (demoPage 500) pausedButShownStopped).el 0) .stopped = true) ∧
    showsAffordance ((preserveOtherSectionsPausedState
        (run (demoPage 500) pausedButShownStopped)).el 0) .paused = true ∧
    (preserveOtherSectionsPausedState (run (demoPage 500) pausedButShownStopped)).el 1 =
      (run (demoPage 500) pausedButShownStopped).el 1 := by
  have h := reconcile_spec (run (demoPage 500) pausedButShownStopped)
  refine ⟨⟨by decide, by decide⟩, ?_, ?_⟩
  · exact (h.1 0 (by decide)
      { hasIcon := true, iconText := .playGlyph, readingPlaying := false,
        readingPaused := false, readingStopped := true }
      (by decide) (by decide) ⟨1, by decide, by decide, by decide⟩).2 (by decide)
  · refine (h.2.1 1 ?_).1
    rintro ⟨r, hr, _⟩
    have : (run (demoPage 500) pausedButShownStopped).readingState 1 = none := by decide
    rw [this] at hr
    cases hr

/-! ## The preserver interval (C23) -/

theorem Preserver.single_initial : Preserver.initial.Single :=
  ⟨by decide, Or.inl ⟨rfl, rfl⟩⟩

theorem Preserver.single_start {p : Preserver} (h : p.Single) :
    p.start.Single ∧ p.start.active = [(p.nextHandle, 0)] ∧
      p.start.handle = some p.nextHandle ∧ p.start.passes = p.passes := by
  obtain ⟨hn, hp⟩ := h
  rcases hp with ⟨h1, h2⟩ | ⟨x, c, h1, h2, h3, h4, h5⟩
  · have e : p.start.active = [(p.nextHandle, 0)] := by simp [Preserver.start, h1, h2]
    refine ⟨⟨by simp [Preserver.start], Or.inr ⟨p.nextHandle, 0, rfl, e, hn, ?_, by decide⟩⟩,
      e, rfl, rfl⟩
    simp [Preserver.start]
  · have hx : (x != 0) = true := by simp; omega
    have e : p.start.active = [(p.nextHandle, 0)] := by
      simp [Preserver.start, h1, h2, hx, Preserver.clearNamed]
    refine ⟨⟨by simp [Preserver.start], Or.inr ⟨p.nextHandle, 0, rfl, e, hn, ?_, by decide⟩⟩,
      e, rfl, rfl⟩
    simp [Preserver.start]

/-- A firing in a state with a single interval: only the active interval runs a pass; the
pass that brings its counter to 20 clears it. -/
theorem Preserver.single_tick {p : Preserver} (h : p.Single) (k : Nat) :
    (p.tick k).Single ∧
      (∀ x c, p.active = [(x, c)] → k = x →
        (p.tick k).passes = p.passes + 1 ∧
          (c + 1 < 20 → (p.tick k).active = [(x, c + 1)] ∧ (p.tick k).handle = p.handle) ∧
          (20 ≤ c + 1 → (p.tick k).active = [] ∧ (p.tick k).handle = none)) ∧
      ((∀ x c, p.active = [(x, c)] → k ≠ x) → p.tick k = p) := by
  obtain ⟨hn, hp⟩ := h
  rcases hp with ⟨h1, h2⟩ | ⟨x, c, h1, h2, h3, h4, h5⟩
  · have e : p.tick k = p := by simp [Preserver.tick, h2]
    rw [e]
    refine ⟨⟨hn, Or.inl ⟨h1, h2⟩⟩, fun x c hx => ?_, fun _ => rfl⟩
    rw [h2] at hx
    cases hx
  · by_cases hk : k = x
    · subst hk
      by_cases hc : 20 ≤ c + 1
      · have e1 : (p.tick k).active = [] := by
          simp [Preserver.tick, h2, hc, Preserver.clearNamed, h1]
        have e2 : (p.tick k).handle = none := by simp [Preserver.tick, h2, hc]
        have e3 : (p.tick k).passes = p.passes + 1 := by simp [Preserver.tick, h2, hc]
        have e4 : (p.tick k).nextHandle = p.nextHandle := by simp [Preserver.tick, h2, hc]
        refine ⟨⟨by rw [e4]; exact hn, Or.inl ⟨e2, e1⟩⟩, fun y d hy hky => ?_, fun hne => ?_⟩
        · rw [h2] at hy
          simp only [List.cons.injEq, Prod.mk.injEq, and_true] at hy
          obtain ⟨-, rfl⟩ := hy
          exact ⟨e3, fun hlt => absurd hc (by omega), fun _ => ⟨e1, e2⟩⟩
        · exact absurd rfl (hne k c h2)
      · have hc' : ¬ 20 ≤ c + 1 := hc
        have e1 : (p.tick k).active = [(k, c + 1)] := by
          simp [Preserver.tick, h2, hc']
        have e2 : (p.tick k).handle = p.handle := by simp [Preserver.tick, h2, hc']
        have e3 : (p.tick k).passes = p.passes + 1 := by simp [Preserver.tick, h2, hc']
        have e4 : (p.tick k).nextHandle = p.nextHandle := by simp [Preserver.tick, h2, hc']
        refine ⟨⟨by rw [e4]; exact hn,
          Or.inr ⟨k, c + 1, by rw [e2, h1], e1, h3, by rw [e4]; exact h4, by omega⟩⟩,
          fun y d hy hky => ?_, fun hne => ?_⟩
        · rw [h2] at hy
          simp only [List.cons.injEq, Prod.mk.injEq, and_true] at hy
          obtain ⟨hy1, rfl⟩ := hy
          subst hy1
          exact ⟨e3, fun _ => ⟨e1, e2⟩, fun hge => absurd hge hc'⟩
        · exact absurd rfl (hne k c h2)
    · have hkx : (x == k) = false := by simp; exact fun e => hk e.symm
      have e : p.tick k = p := by simp [Preserver.tick, h2, hkx]
      rw [e]
      refine ⟨⟨hn, Or.inr ⟨x, c, h1, h2, h3, h4, h5⟩⟩, fun y d hy hky => ?_, fun _ => rfl⟩
      rw [h2] at hy
      simp only [List.cons.injEq, Prod.mk.injEq, and_true] at hy
      exact absurd (hky.trans hy.1.symm) hk

theorem Preserver.single_run {p : Preserver} (h : p.Single) (ops : List PreserverOp) :
    (p.run ops).Single := by
  induction ops generalizing p with
  | nil => exact h
  | cons op rest ih =>
    cases op with
    | start => exact ih (Preserver.single_start h).1
    | tick k => exact ih (Preserver.single_tick h k).1

theorem Preserver.Single.length_le {p : Preserver} (h : p.Single) : p.active.length ≤ 1 := by
  rcases h.2 with ⟨_, h2⟩ | ⟨x, c, _, h2, _⟩ <;> simp [h2]

/-- The first `n ≤ 20` firings of a freshly started interval. -/
theorem Preserver.ticks_after_start {p : Preserver} (h : p.Single) (x c n : Nat)
    (ha : p.active = [(x, c)]) (hn : c + n ≤ 20) :
    (p.run (List.replicate n (.tick x))).passes = p.passes + n ∧
      (p.run (List.replicate n (.tick x))).Single ∧
      (c + n < 20 → (p.run (List.replicate n (.tick x))).active = [(x, c + n)]) ∧
      (c + n = 20 → 0 < n → (p.run (List.replicate n (.tick x))).active = [] ∧
        (p.run (List.replicate n (.tick x))).handle = none) := by
  induction n generalizing p c with
  | zero =>
    refine ⟨rfl, h, fun _ => ha, fun _ h0 => absurd h0 (by decide)⟩
  | succ n ih =>
    obtain ⟨s1, s2, -⟩ := Preserver.single_tick h x
    obtain ⟨t1, t2, t3⟩ := s2 x c ha rfl
    simp only [List.replicate_succ, Preserver.run]
    by_cases hc : c + 1 < 20
    · obtain ⟨u1, u2, u3, u4⟩ := ih s1 (c + 1) (t2 hc).1 (by omega)
      refine ⟨by rw [u1, t1]; omega, u2, fun hlt => ?_, fun heq h0 => ?_⟩
      · rw [u3 (by omega)]; congr 2; omega
      · have hn0 : 0 < n := by omega
        exact u4 (by omega) hn0
    · have hn0 : n = 0 := by omega
      subst hn0
      obtain ⟨v1, v2⟩ := t3 (by omega)
      simp only [List.replicate_zero, Preserver.run]
      exact ⟨t1, s1, fun hlt => absurd hlt (by omega), fun _ _ => ⟨v1, v2⟩⟩

/-- The field `State.pausedStatePreserverInterval` follows the preserver: it is `some 0` after
`startPausedStatePreserver`, and a firing of the active interval updates it as `intervalTick`
does. -/
theorem Preserver.checks_follow {p : Preserver} (h : p.Single) (s : State)
    (hs : s.pausedStatePreserverInterval = p.checks) :
    (startPausedStatePreserver s).pausedStatePreserverInterval = p.start.checks ∧
      ∀ x c, p.active = [(x, c)] →
        (intervalTick s).pausedStatePreserverInterval = (p.tick x).checks := by
  refine ⟨?_, fun x c ha => ?_⟩
  · rw [Preserver.checks, (Preserver.single_start h).2.1]
    rfl
  · obtain ⟨-, s2, -⟩ := Preserver.single_tick h x
    obtain ⟨-, t2, t3⟩ := s2 x c ha rfl
    have hc : s.pausedStatePreserverInterval = some c := by
      rw [hs, Preserver.checks, ha]; rfl
    unfold intervalTick
    simp only [hc]
    by_cases h20 : 20 ≤ c + 1
    · rw [Preserver.checks, (t3 h20).1]
      simp [h20]
    · rw [Preserver.checks, (t2 (by omega)).1]
      simp [h20]

/-- C23: after any sequence of `startPausedStatePreserver` calls and interval firings from
the loaded module, at most one interval is active.  An interval started then and not
superseded runs the reconcile pass once on each of its first `n ≤ 20` firings; after the 20th
it is cleared and the variable is `null`, and no later firing, of any handle, runs a pass. -/
theorem preserver_single_and_bounded (ops : List PreserverOp) :
    (Preserver.initial.run ops).active.length ≤ 1 ∧
      (∀ n, n ≤ 20 →
        (((Preserver.initial.run ops).start).run
          (List.replicate n (.tick (Preserver.initial.run ops).nextHandle))).passes =
            (Preserver.initial.run ops).passes + n) ∧
      (((Preserver.initial.run ops).start).run
        (List.replicate 20 (.tick (Preserver.initial.run ops).nextHandle))).active = [] ∧
      (((Preserver.initial.run ops).start).run
        (List.replicate 20 (.tick (Preserver.initial.run ops).nextHandle))).handle = none ∧
      ∀ k, ((((Preserver.initial.run ops).start).run
        (List.replicate 20 (.tick (Preserver.initial.run ops).nextHandle))).tick k).passes =
          (Preserver.initial.run ops).passes + 20 := by
  have hp := Preserver.single_run Preserver.single_initial ops
  obtain ⟨q1, q2, q3, q4⟩ := Preserver.single_start hp
  have key := fun n (hn : n ≤ 20) =>
    Preserver.ticks_after_start q1 (Preserver.initial.run ops).nextHandle 0 n q2 (by omega)
  obtain ⟨k1, k2, -, k4⟩ := key 20 (le_refl _)
  obtain ⟨e1, e2⟩ := k4 (by omega) (by decide)
  refine ⟨hp.length_le, fun n hn => by rw [(key n hn).1, q4], e1, e2, fun k => ?_⟩
  have := (Preserver.single_tick k2 k).2.2 (fun x c hx => by rw [e1] at hx; cases hx)
  rw [this, k1, q4]

set_option maxRecDepth 100000 in
/-- The preserver on a concrete sequence: started, fired 5 times, started again (the first
interval is cleared: its handle 1 no longer fires), then the second fired 20 times and once
more: 25 passes in all, no interval left. -/
theorem preserver_example :
    (Preserver.initial.run
      ([.start] ++ List.replicate 5 (.tick 1) ++ [.start, .tick 1] ++
        List.replicate 21 (.tick 2))) =
      { active := [], handle := none, nextHandle := 3, passes := 25 } := by
  decide

set_option maxRecDepth 100000 in
/-- C23, witness: after `preserverDemo`, a start and 5 firings (5 passes so far, the next
handle is 2), at most one interval is active, and a new interval that fires 20 times adds 20
passes. -/
theorem preserver_single_and_bounded_witness :
    (Preserver.initial.run preserverDemo).active.length ≤ 1 ∧
      ((Preserver.initial.run preserverDemo).passes = 5 ∧
        (Preserver.initial.run preserverDemo).nextHandle = 2) ∧
      (((Preserver.initial.run preserverDemo).start).run
        (List.replicate 20 (.tick (Preserver.initial.run preserverDemo).nextHandle))).passes =
        (Preserver.initial.run preserverDemo).passes + 20 :=
  ⟨(preserver_single_and_bounded preserverDemo).1, ⟨by decide, by decide⟩,
    (preserver_single_and_bounded preserverDemo).2.1 20 (le_refl 20)⟩

/-! ## The resume prompt toggles (C24) -/

theorem menusStep_length (menus : List Nat) (op : MenuOp) (h : menus.length ≤ 1) :
    (menusStep menus op).length ≤ 1 := by
  cases op with
  | showOptions r rec =>
    unfold menusStep showMenus
    cases menus with
    | nil => simp only []; split_ifs <;> simp
    | cons a rest =>
      have h' : rest.length + 1 ≤ 1 := h
      show rest.length ≤ 1
      omega
  | remove i =>
    unfold menusStep
    exact (List.length_eraseIdx_le _ _).trans h
  | removeAll => simp [menusStep]

theorem foldl_menusStep_length (ops : List MenuOp) (menus : List Nat) (h : menus.length ≤ 1) :
    (ops.foldl menusStep menus).length ≤ 1 := by
  induction ops generalizing menus with
  | nil => exact h
  | cons op rest ih => exact ih _ (menusStep_length menus op h)

/-- The field `SectionEl.menu` follows the counted menus: when the section has at most one
menu and the field holds it, the field after `showReadingResumeOptions` holds the menu that
is left. -/
theorem showMenus_follow (env : Env) (sid : SectionId) (r : Nat) (s : State)
    (menus : List Nat) (hl : menus.length ≤ 1) (hm : (s.el sid).menu = menus.head?) :
    ((showReadingResumeOptions env sid r s).el sid).menu =
      (showMenus menus r (s.heap r)).head? := by
  cases menus with
  | nil =>
    have hm' : (s.el sid).menu = none := hm
    unfold showReadingResumeOptions showMenus
    simp only [hm']
    split_ifs
    · rw [startReadingSection_menu]
      simp [hm']
    · simp
  | cons a rest =>
    have hr : rest = [] := by
      cases rest with
      | nil => rfl
      | cons b l => simp at hl
    subst hr
    have hm' : (s.el sid).menu = some a := hm
    unfold showReadingResumeOptions showMenus
    simp [hm']

/-- C24: `showReadingResumeOptions` for a section that has an open resume menu removes the
menu and does nothing else: the store, the records, the global pointer, the engine log, the
utterances, the timers and every other section are as before.  And whatever sequence of
calls of `showReadingResumeOptions` and removals happens to a section that starts without a
menu, it never has more than one. -/
theorem prompt_toggle_closes (env : Env) (s : State) (sid : SectionId) (r m : Nat)
    (hm : (s.el sid).menu = some m) :
    showReadingResumeOptions env sid r s = (s.modEl sid fun e => { e with menu := none }) ∧
      ((showReadingResumeOptions env sid r s).el sid).menu = none ∧
      (showReadingResumeOptions env sid r s).readingState = s.readingState ∧
      (showReadingResumeOptions env sid r s).heap = s.heap ∧
      (showReadingResumeOptions env sid r s).currentReadingSection = s.currentReadingSection ∧
      (showReadingResumeOptions env sid r s).engineLog = s.engineLog ∧
      (showReadingResumeOptions env sid r s).nextUtterance = s.nextUtterance ∧
      (showReadingResumeOptions env sid r s).utterances = s.utterances ∧
      (showReadingResumeOptions env sid r s).timers = s.timers ∧
      (∀ i, i ≠ sid → (showReadingResumeOptions env sid r s).el i = s.el i) ∧
      ∀ ops, (menusAfter ops).length ≤ 1 := by
  have e : showReadingResumeOptions env sid r s =
      (s.modEl sid fun e => { e with menu := none }) := by
    unfold showReadingResumeOptions
    simp [hm]
  rw [e]
  exact ⟨rfl, by simp, rfl, rfl, rfl, rfl, rfl, rfl, rfl, fun i hi => by simp [hi],
    fun ops => foldl_menusStep_length ops [] (by simp)⟩

set_option maxRecDepth 100000 in
/-- C24, witness: section 0 of the example page is paused at offset 120 with its menu open;
`showReadingResumeOptions` for it closes the menu and leaves the record and the engine log as
they were. -/
theorem prompt_toggle_closes_witness :
    ((run (demoPage 500) pausedWithMenu).el 0).menu = some 0 ∧
      ((showReadingResumeOptions (pausedAt 2100) 0 0
        (run (demoPage 500) pausedWithMenu)).el 0).menu = none ∧
      (showReadingResumeOptions (pausedAt 2100) 0 0
        (run (demoPage 500) pausedWithMenu)).engineLog =
          (run (demoPage 500) pausedWithMenu).engineLog :=
  ⟨by decide,
    (prompt_toggle_closes (pausedAt 2100) (run (demoPage 500) pausedWithMenu) 0 0 0
      (by decide)).2.1,
    (prompt_toggle_closes (pausedAt 2100) (run (demoPage 500) pausedWithMenu) 0 0 0
      (by decide)).2.2.2.2.2.1⟩

/-! ## The stopped-button fallback is never taken (C25) -/

theorem preserveOther_timers (s : State) :
    (preserveOtherSectionsPausedState s).timers = s.timers :=
  (preserveOther_frame s).2

theorem stopAllReading_timers (s : State) : (stopAllReading s).timers = s.timers := by
  unfold stopAllReading
  split_ifs
  · rfl
  · rw [foldl_stopSection_timers]
    rfl

/-- No handler schedules the first continuation of the fallback, apart from the fallback
itself. -/
theorem runTimer_fallbackCancel (env : Env) (t : Timer) (s : State) (x : SectionId)
    (h : Timer.fallbackCancel x ∈ (runTimer env t s).timers) :
    Timer.fallbackCancel x ∈ s.timers := by
  cases t with
  | handoffCancel sid bp =>
    simp only [runTimer, handoffCancel, State.setTimeout_fields, startPausedStatePreserver,
      preserveOther_timers, State.setPointer_fields, State.engine_fields] at h
    simpa using h
  | handoffStart sid bp =>
    simp only [runTimer, handoffStart] at h
    split at h
    · split_ifs at h
      · rwa [showReadingResumeOptions_timers] at h
      · rwa [startReadingSection_timers, preserveOther_timers] at h
    · rwa [startReadingSection_timers, preserveOther_timers] at h
  | fallbackCancel sid =>
    simp only [runTimer, fallbackCancel, State.setTimeout_fields, State.setPointer_fields,
      State.engine_fields] at h
    simpa using h
  | fallbackStart sid =>
    simp only [runTimer] at h
    rwa [startReadingSection_timers] at h
  | preserveKick =>
    simp only [runTimer, startPausedStatePreserver, preserveOther_timers] at h
    exact h

/-- C25: in `toggleSectionReading`, when the hand-off test of line 87 fails, the test of the
fallback (line 205: engine speaking and not paused, pointer other than the clicked section)
fails too; so once the hand-off, pause and paused cases have not matched, the click is an
immediate `startReadingSection` from offset 0 followed by the store of line 266, and neither a
click nor any other handler of the module ever schedules the fallback's 50 ms continuation. -/
theorem fallback_unreachable (env : Env) (s : State) (sid : SectionId) :
    ((hasAnotherSectionPlaying env s sid && !isThisSectionPlaying env s sid) = false →
        (isCurrentlySpeaking env && s.currentReadingSection != some sid) = false) ∧
      (∀ b, s.supported = true → (s.el sid).button = some b →
        (hasAnotherSectionPlaying env s sid && !isThisSectionPlaying env s sid) = false →
        (buttonIsPlaying b &&
          (isCurrentlySpeaking env || s.currentReadingSection == some sid)) = false →
        buttonIsPaused b = false →
        toggleSectionReading env sid s =
          (startReadingSection env sid 0 (ensureRecord s sid).1).setStore sid
            (ensureRecord s sid).2) ∧
      (∀ ev x, Timer.fallbackCancel x ∈ (step env ev s).timers →
        Timer.fallbackCancel x ∈ s.timers) := by
  have key : ∀ t : State,
      (hasAnotherSectionPlaying env t sid && !isThisSectionPlaying env t sid) = false →
        (isCurrentlySpeaking env && t.currentReadingSection != some sid) = false := by
    intro t h
    unfold hasAnotherSectionPlaying isThisSectionPlaying at h
    cases hp : t.currentReadingSection with
    | none =>
      simp [hp] at h
      simp [h]
    | some p =>
      by_cases hpS : p = sid
      · subst hpS; simp
      · simp [hp, hpS] at h
  have hptr : (ensureRecord s sid).1.currentReadingSection = s.currentReadingSection := by simp
  have hcond : ∀ y, (hasAnotherSectionPlaying env (ensureRecord s y).1 y &&
      !isThisSectionPlaying env (ensureRecord s y).1 y) =
      (hasAnotherSectionPlaying env s y && !isThisSectionPlaying env s y) := by
    intro y
    simp [hasAnotherSectionPlaying, isThisSectionPlaying]
  have htoggle : ∀ y z, Timer.fallbackCancel z ∈ (toggleSectionReading env y s).timers →
      Timer.fallbackCancel z ∈ s.timers := by
    intro y z h
    have htm : (ensureRecord s y).1.timers = s.timers := by simp
    unfold toggleSectionReading at h
    split_ifs at h with h0
    · simpa using h
    · split at h
      · exact h
      · simp only [] at h
        split_ifs at h with h1 h2 h3 h4 h5
        · rw [handoff_timers, htm] at h; simpa using h
        · simpa [clickPause, htm] using h
        · rwa [showReadingResumeOptions_timers, htm] at h
        · rwa [startReadingSection_timers, htm] at h
        · exfalso
          have hk : (hasAnotherSectionPlaying env (ensureRecord s y).1 y &&
              !isThisSectionPlaying env (ensureRecord s y).1 y) = false := by
            simpa using h1
          have : ∀ t : State,
              (hasAnotherSectionPlaying env t y && !isThisSectionPlaying env t y) = false →
              (isCurrentlySpeaking env && t.currentReadingSection != some y) = false := by
            intro t ht
            unfold hasAnotherSectionPlaying isThisSectionPlaying at ht
            cases hp : t.currentReadingSection with
            | none =>
              simp [hp] at ht
              simp [ht]
            | some p =>
              by_cases hpS : p = y
              · subst hpS; simp
              · simp [hp, hpS] at ht
          rw [this _ hk] at h5
          exact absurd h5 (by decide)
        · simp only [State.setStore_fields] at h
          rwa [startReadingSection_timers, htm] at h
  refine ⟨key s, fun b hs hb h1 h2 h3 => ?_, fun ev x h => ?_⟩
  · unfold toggleSectionReading
    simp only [hs, Bool.not_true, Bool.false_eq_true, if_false, hb, hcond, h1, hptr, h2, h3,
      key s h1]
  · cases ev with
    | click y =>
      simp only [step] at h
      split_ifs at h
      · exact htoggle y x h
      · exact h
    | timer i =>
      simp only [step] at h
      split at h
      · exact h
      · have := runTimer_fallbackCancel env _ _ x h
        exact List.mem_of_mem_eraseIdx this
    | chooseRestart y =>
      simp only [step, chooseRestart] at h
      split at h
      · exact h
      · rw [startReadingSection_timers] at h
        simpa using h
    | chooseContinue y =>
      simp only [step, chooseContinue] at h
      split at h
      · exact h
      · rw [startReadingSection_timers] at h
        simpa using h
    | dismissMenu y => simpa [step, dismissMenu] using h
    | onstart u =>
      simp only [step] at h
      split_ifs at h
      · simpa [onstart] using h
      · exact h
    | onend u =>
      simp only [step] at h
      split_ifs at h
      · simpa [onend] using h
      · exact h
    | onerror u =>
      simp only [step] at h
      split_ifs at h
      · simpa [onerror] using h
      · exact h
    | onboundary u w c =>
      simp only [step] at h
      split_ifs at h
      · unfold onboundary at h
        simp only [] at h
        split at h
        · exact h
        · split_ifs at h
          · cases w <;> cases c <;> simp at h <;> exact h
          · exact h
      · exact h
    | onpause u =>
      simp only [step] at h
      split_ifs at h
      · simpa [onpause] using h
      · exact h
    | onresume u =>
      simp only [step] at h
      split_ifs at h
      · simpa [onresume] using h
      · exact h
    | hidden =>
      simp only [step] at h
      rwa [stopAllReading_timers] at h
    | tick =>
      simp only [step, intervalTick] at h
      split at h
      · exact h
      · simpa [preserveOther_timers] using h
    | contentChanged y c => simpa [step] using h

set_option maxRecDepth 100000 in
/-- C25, witness: on the freshly loaded example page with an idle engine the button of
section 0 shows neither 'playing' nor 'paused'; the click is an immediate
`startReadingSection`, which speaks utterance 0 and schedules nothing. -/
theorem fallback_unreachable_witness :
    toggleSectionReading (idleAt 1000) 0 (demoPage 500) =
        (startReadingSection (idleAt 1000) 0 0 (ensureRecord (demoPage 500) 0).1).setStore 0
          (ensureRecord (demoPage 500) 0).2 ∧
      (toggleSectionReading (idleAt 1000) 0 (demoPage 500)).engineLog = [.speak 0] ∧
      (toggleSectionReading (idleAt 1000) 0 (demoPage 500)).timers = [] :=
  ⟨(fallback_unreachable (idleAt 1000) (demoPage 500) 0).2.1 demoButton (by decide) (by decide)
      (by decide) (by decide) (by decide),
    by decide, by decide⟩

/-! ## Checkpoints of a record that is already paused (C26, C27) -/

set_option maxRecDepth 100000 in
/-- C26, the code at the failing input: after `pausedAtOffset` section 0 is paused at offset
120 (started at time 1000, paused by a click at 1800) and still the pointer.  A click on
section 1 at time 2600, with the engine paused, takes the hand-off path, whose checkpoint
adds the time since `startTime` once more: the saved offset becomes 360.  The inline
checkpoint of `startReadingSection`, which runs only while the engine speaks unpaused, leaves
it at 120 in the same state. -/
theorem paused_offset_moved_by_handoff :
    ((recordOf (run (demoPage 500) pausedAtOffset) 0).map
        fun rec => (rec.playing, rec.paused, rec.charIndex, rec.startTime)) =
      some (false, true, 120, some 1000) ∧
    (run (demoPage 500) pausedAtOffset).currentReadingSection = some 0 ∧
    ((recordOf (step (pausedAt 2600) (.click 1) (run (demoPage 500) pausedAtOffset)) 0).map
        fun rec => (rec.playing, rec.paused, rec.charIndex)) = some (false, true, 360) ∧
    ((recordOf (startReadingSection (pausedAt 2600) 1 0
        (run (demoPage 500) pausedAtOffset)) 0).map
        fun rec => (rec.playing, rec.paused, rec.charIndex)) = some (false, true, 120) :=
  ⟨by decide, by decide, by decide, by decide⟩

set_option maxRecDepth 100000 in
/-- C27, the code at the failing input: section 0, started at time 1000 with offset 0, is
paused by a click at time 1800, which checkpoints it at offset 120; the engine's pause event
for the same utterance, delivered at the same time 1800, checkpoints it again from the same
`startTime`: the offset becomes 240. -/
theorem pause_checkpointed_twice :
    ((recordOf (run (demoPage 500) (pausedAtOffset.take 3)) 0).map
        fun rec => (rec.playing, rec.charIndex, rec.startTime, rec.utterance)) =
      some (true, 0, some 1000, some 0) ∧
    ((recordOf (run (demoPage 500) pausedAtOffset) 0).map
        fun rec => (rec.paused, rec.charIndex)) = some (true, 120) ∧
    ((run (demoPage 500) pausedAtOffset).utterances 0).onpause = true ∧
    ((recordOf (step (pausedAt 1800) (.onpause 0) (run (demoPage 500) pausedAtOffset)) 0).map
        fun rec => (rec.paused, rec.charIndex)) = some (true, 240) :=
  ⟨by decide, by decide, by decide, by decide⟩

/-! ## Stop-all and the end event of the cancelled utterance (C28) -/

set_option maxRecDepth 100000 in
/-- C28, the code at the failing input: section 0 plays utterance 0 with `charIndex = 100`;
`stopAllReading` (the page is hidden at time 2000) cancels the engine and leaves the section
paused, showing 'paused', with all callbacks of utterance 0 still attached; the end event of
the cancelled utterance then sets `paused = false` and shows 'stopped'. -/
theorem onend_after_stop_all_unpauses :
    ((recordOf (run (demoPage 500) playingAtOffset) 0).map
        fun rec => (rec.playing, rec.paused, rec.charIndex)) = some (true, false, 100) ∧
    (((recordOf (step (speakingAt 2000) .hidden (run (demoPage 500) playingAtOffset)) 0).map
        fun rec => (rec.playing, rec.paused, rec.charIndex)) = some (false, true, 100) ∧
      showsAffordance ((step (speakingAt 2000) .hidden
        (run (demoPage 500) playingAtOffset)).el 0) .paused = true ∧
      (step (speakingAt 2000) .hidden (run (demoPage 500) playingAtOffset)).engineLog =
        [.speak 0, .cancel] ∧
      ((step (speakingAt 2000) .hidden (run (demoPage 500) playingAtOffset)).utterances 0).onend =
        true) ∧
    (((recordOf (run (demoPage 500)
        (playingAtOffset ++ [(speakingAt 2000, .hidden), (idleAt 2010, .onend 0)])) 0).map
        fun rec => (rec.playing, rec.paused, rec.charIndex)) = some (false, false, 100) ∧
      showsAffordance ((run (demoPage 500)
        (playingAtOffset ++ [(speakingAt 2000, .hidden), (idleAt 2010, .onend 0)])).el 0)
          .stopped = true) :=
  ⟨by decide, ⟨by decide, by decide, by decide, by decide⟩, ⟨by decide, by decide⟩⟩

/-! ## The classification of a button after `updateReadingButton` (C29) -/

set_option maxRecDepth 100000 in
/-- C29, the code at the failing input: on a section of the example page,
`updateReadingButton` with 'playing' gives a button classified as playing only, with 'paused'
a button classified as paused only, but with 'stopped' a button that the constants of lines
74-76 classify as paused and not as stopped, because it carries the same icon as 'paused'. -/
theorem stopped_button_classified_paused :
    ((updateReadingButton (demoSection 500) .playing).button.map fun b =>
        (buttonIsPlaying b, buttonIsPaused b, buttonIsStopped b)) = some (true, false, false) ∧
    ((updateReadingButton (demoSection 500) .paused).button.map fun b =>
        (buttonIsPlaying b, buttonIsPaused b, buttonIsStopped b)) = some (false, true, false) ∧
    ((updateReadingButton (demoSection 500) .stopped).button.map fun b =>
        (buttonIsPlaying b, buttonIsPaused b, buttonIsStopped b)) = some (false, true, false) ∧
    ((updateReadingButton (demoSection 500) .stopped).button.map fun b =>
        (b.readingStopped, b.iconText)) = some (true, .playGlyph) ∧
    (demoSection 500).button.map (fun b =>
        (buttonIsPlaying b, buttonIsPaused b, buttonIsStopped b)) = some (false, false, true) :=
  ⟨by decide, by decide, by decide, by decide, by decide⟩

end Reading

namespace GestureControl

/-! ## Gesture classification (C30) -/

theorem shiftFor_bound (fuel n : Nat) (h : n < 2 ^ 108) :
    n * 4 ^ shiftFor fuel n < 2 ^ 108 := by
  induction fuel generalizing n with
  | zero => simpa [shiftFor] using h
  | succ f ih =>
    unfold shiftFor
    split_ifs with hn
    · have := ih (4 * n) (by omega)
      rw [pow_succ]
      calc n * (4 ^ shiftFor f (4 * n) * 4) = 4 * n * 4 ^ shiftFor f (4 * n) := by ring
        _ < 2 ^ 108 := this
    · simpa using h

theorem shiftFor_ge (j fuel n : Nat) (hj : j ≤ fuel) (h : n * 4 ^ j < 2 ^ 108) :
    j ≤ shiftFor fuel n := by
  induction j generalizing fuel n with
  | zero => exact Nat.zero_le _
  | succ j ih =>
    cases fuel with
    | zero => omega
    | succ f =>
      have h4 : 4 ≤ 4 ^ (j + 1) := by
        calc 4 = 4 ^ 1 := by norm_num
          _ ≤ 4 ^ (j + 1) := Nat.pow_le_pow_right (by norm_num) (by omega)
      have hn : n < 2 ^ 106 := by
        by_contra hc
        have : 2 ^ 106 * 4 ≤ n * 4 ^ (j + 1) := Nat.mul_le_mul (not_lt.mp hc) h4
        omega
      unfold shiftFor
      rw [if_pos hn]
      have := ih f (4 * n) (by omega) (by
        calc 4 * n * 4 ^ j = n * 4 ^ (j + 1) := by rw [pow_succ]; ring
          _ < 2 ^ 108 := h)
      omega

theorem isqrtBits_spec (k n r : Nat) (h1 : r * r ≤ n) (h2 : n < (r + 2 ^ k) * (r + 2 ^ k)) :
    isqrtBits k n r * isqrtBits k n r ≤ n ∧
      n < (isqrtBits k n r + 1) * (isqrtBits k n r + 1) := by
  induction k generalizing r with
  | zero => simpa [isqrtBits] using ⟨h1, h2⟩
  | succ k ih =>
    unfold isqrtBits
    split_ifs with hc
    · apply ih _ hc
      have : r + 2 ^ k + 2 ^ k = r + 2 ^ (k + 1) := by rw [pow_succ]; ring
      rw [this]
      exact h2
    · exact ih r h1 (not_le.mp hc)

/-- The comparison of the rounded square root with 50 is the comparison of `n` with 2500. -/
theorem sqrtDouble_lt_50 (n : Nat) (h : n < 2 ^ 106) :
    (sqrtDouble n).1 < 50 * (sqrtDouble n).2 ↔ n < 2500 := by
  by_cases hn : n = 0
  · subst hn; simp [sqrtDouble]
  · have hb : n * 4 ^ shiftFor 60 n < 2 ^ 108 := shiftFor_bound 60 n (by omega)
    have hpow : (4 : Nat) ^ shiftFor 60 n = 2 ^ shiftFor 60 n * 2 ^ shiftFor 60 n := by
      rw [← pow_add, ← two_mul, pow_mul]; norm_num
    obtain ⟨hq1, hq2⟩ := isqrtBits_spec 64 (n * 4 ^ shiftFor 60 n) 0 (by simp) (by
      have : (0 + 2 ^ 64) * (0 + 2 ^ 64) = 2 ^ 128 := by norm_num
      rw [this]
      omega)
    unfold sqrtDouble
    simp only [hn, if_false]
    generalize hq : isqrtBits 64 (n * 4 ^ shiftFor 60 n) 0 = q at hq1 hq2 ⊢
    -- the rounding of the 54 bits to 53
    have hm : ∀ sc m : Nat, m = (if q % 2 = 0 then q / 2
        else if q * q = sc then (if (q / 2) % 2 = 0 then q / 2 else q / 2 + 1)
        else q / 2 + 1) →
        (q % 2 = 0 → 2 * m = q) ∧ q ≤ 2 * m + 1 ∧ 2 * m ≤ q + 1 := by
      intro sc m hm
      split_ifs at hm <;> subst hm <;> omega
    obtain ⟨m1, m2, m3⟩ := hm (n * 4 ^ shiftFor 60 n) _ rfl
    generalize (if q % 2 = 0 then q / 2
        else if q * q = n * 4 ^ shiftFor 60 n then
          (if (q / 2) % 2 = 0 then q / 2 else q / 2 + 1)
        else q / 2 + 1) = m at m1 m2 m3 ⊢
    rw [hpow] at hq1 hq2
    have ht7 : n < 2500 → 128 ≤ 2 ^ shiftFor 60 n := by
      intro hlt
      have ht : 7 ≤ shiftFor 60 n := shiftFor_ge 7 60 n (by norm_num) (by
        have : n * 4 ^ 7 ≤ 2500 * 4 ^ 7 := Nat.mul_le_mul_right _ (by omega)
        have h2 : (2500 : Nat) * 4 ^ 7 < 2 ^ 108 := by norm_num
        omega)
      calc 128 = 2 ^ 7 := by norm_num
        _ ≤ 2 ^ shiftFor 60 n := Nat.pow_le_pow_right (by norm_num) ht
    generalize 2 ^ shiftFor 60 n = T at hq1 hq2 ht7 ⊢
    constructor
    · intro hlt
      by_contra hge
      have hge' : 2500 ≤ n := not_lt.mp hge
      have h50 : 50 * T ≤ q := by
        by_contra hc
        have hc' : q + 1 ≤ 50 * T := by omega
        have : (q + 1) * (q + 1) ≤ 50 * T * (50 * T) := Nat.mul_le_mul hc' hc'
        have : 2500 * (T * T) ≤ n * (T * T) := Nat.mul_le_mul_right _ hge'
        nlinarith
      by_cases hpar : q % 2 = 0
      · have := m1 hpar; omega
      · omega
    · intro hlt
      have hT128 : 128 ≤ T := ht7 hlt
      have hsc : n * (T * T) ≤ 2499 * (T * T) := Nat.mul_le_mul_right _ (by omega)
      have hq2' : q + 2 ≤ 50 * T := by
        by_contra hc
        have hc' : 50 * T ≤ q + 1 := by omega
        have : 50 * T * (50 * T) ≤ (q + 1) * (q + 1) := Nat.mul_le_mul hc' hc'
        nlinarith
      omega

theorem distanceBelow50_iff (dx dy : Int) (h : dx * dx + dy * dy < 2 ^ 106) :
    distanceBelow50 dx dy = true ↔ dx * dx + dy * dy < 2500 := by
  have hnn : 0 ≤ dx * dx + dy * dy := by nlinarith [mul_self_nonneg dx, mul_self_nonneg dy]
  unfold distanceBelow50
  rw [decide_eq_true_iff, sqrtDouble_lt_50 _ (by omega)]
  omega

theorem sq_sum_bound (a b c d : Int) (ha : |a| < 2 ^ 25) (hb : |b| < 2 ^ 25)
    (hc : |c| < 2 ^ 25) (hd : |d| < 2 ^ 25) :
    (c - a) * (c - a) + (d - b) * (d - b) < 2 ^ 53 := by
  rw [abs_lt] at ha hb hc hd
  have h1 : (c - a) * (c - a) < 2 ^ 52 := by nlinarith
  have h2 : (d - b) * (d - b) < 2 ^ 52 := by nlinarith
  linarith

/-- The source's classification of the differences agrees with the specification's. -/
theorem classify_eq (n : Nat) (dx dy : Int) (hn : ¬ n < 10)
    (hd : dx * dx + dy * dy < 2 ^ 106) :
    (if |dy| > |dx| * 2 then (if dy > 0 then some Gesture.down else some Gesture.up)
      else if |dx| > |dy| * 2 then (if dx > 0 then some Gesture.right else some Gesture.left)
      else if distanceBelow50 dx dy then some Gesture.circle
      else none) = gestureSpec n dx dy := by
  unfold gestureSpec
  rw [if_neg hn]
  have hc := distanceBelow50_iff dx dy hd
  clear hd
  generalize distanceBelow50 dx dy = c at hc ⊢
  generalize dx * dx + dy * dy = d2 at hc ⊢
  have hax := abs_cases dx
  have hay := abs_cases dy
  generalize |dx| = ax at hax ⊢
  generalize |dy| = ay at hay ⊢
  cases c
  · have h50 : ¬ d2 < 2500 := fun h => by simpa using hc.mpr h
    simp only [Bool.false_eq_true, if_false]
    split_ifs <;> first | rfl | omega
  · have h50 : d2 < 2500 := hc.mp rfl
    simp only [if_true]
    split_ifs <;> first | rfl | omega

/-- C30: for a path whose points have integer coordinates (below `2^25` in absolute value,
so that the arithmetic of the source is exact on them), `analyzeGesture` returns `null` when
the path has fewer than 10 points; otherwise, with `dx` and `dy` the differences between the
last and the first point, the sum `dx*dx + dy*dy` is below `2^53` and the result is the
classification of the specification: 'down' or 'up' when `|dy| > 2|dx|`, by the sign of `dy`;
'right' or 'left' when `|dx| > 2|dy|`, by the sign of `dx`; 'circle' when neither holds and
`dx*dx + dy*dy < 2500`; `null` otherwise.  A path with the same length, first point and last
point has the same result. -/
theorem analyzeGesture_spec (path : List Point)
    (hb : ∀ p ∈ path, |p.x| < 2 ^ 25 ∧ |p.y| < 2 ^ 25) :
    (path.length < 10 → analyzeGesture path = none) ∧
      (∀ start stop, path.head? = some start → path.getLast? = some stop →
        (stop.x - start.x) * (stop.x - start.x) + (stop.y - start.y) * (stop.y - start.y) <
            2 ^ 53 ∧
          analyzeGesture path =
            gestureSpec path.length (stop.x - start.x) (stop.y - start.y)) ∧
      (∀ other : List Point, other.length = path.length → other.head? = path.head? →
        other.getLast? = path.getLast? → analyzeGesture other = analyzeGesture path) := by
  refine ⟨fun h => by simp [analyzeGesture, h], fun start stop hs he => ?_,
    fun other h1 h2 h3 => by simp [analyzeGesture, h1, h2, h3]⟩
  have hs' := hb start (List.mem_of_mem_head? hs)
  have he' := hb stop (List.mem_of_mem_getLast? he)
  have hsum := sq_sum_bound start.x start.y stop.x stop.y hs'.1 hs'.2 he'.1 he'.2
  refine ⟨hsum, ?_⟩
  by_cases hl : path.length < 10
  · simp [analyzeGesture, gestureSpec, hl]
  · unfold analyzeGesture
    rw [if_neg hl]
    simp only [hs, he]
    exact classify_eq path.length _ _ hl (by
      have : (2 : Int) ^ 53 < 2 ^ 106 := by norm_num
      linarith)

set_option maxRecDepth 100000 in
/-- C30, witness: twelve points from `(100, 100)`: to `(100, 300)` the gesture is 'down', to
`(20, 110)` 'left', to `(130, 130)` (distance below 50, no axis dominating) 'circle', to
`(200, 200)` none; nine points give none. -/
theorem analyzeGesture_spec_witness :
    analyzeGesture (strokeTo 100 300) = gestureSpec 12 0 200 ∧
      ([strokeTo 100 300, strokeTo 100 50, strokeTo 400 100, strokeTo 20 110,
          strokeTo 130 130, strokeTo 200 200].map analyzeGesture) =
        [some .down, some .up, some .right, some .left, some .circle, none] ∧
      analyzeGesture ((strokeTo 100 300).take 9) = none :=
  ⟨((analyzeGesture_spec (strokeTo 100 300) (by decide)).2.1
      { x := 100, y := 100 } { x := 100, y := 300 } (by decide) (by decide)).2,
    by decide, by decide⟩

end GestureControl
